import Mathlib

/-!
The cache loaders of vmaas-lib: a shallow embedding of `vmaas/load.go`.

The Go loaders of `vmaas/load.go` fold the rows of one SQL query into Go maps
and slices and finally assign the result to fields of the shared `Cache`.

Conventions of the embedding.

* A Go `map[K]V` is its lookup function `K → Option V` (`GoMap`): `none` is an
  absent key.  Go maps are unordered, so nothing else is observable, apart from
  `range`, which the one loader that uses it visits key by key.
* A Go slice is a `List`; the `nil` slice and the empty slice `[]T{}` are both
  `[]` (they have the same length and the same elements).
* Go `int` and the id types of `types.go` (`type PkgID int`, ...) are `Int`; the
  loaders do no arithmetic on them.
* A `*T` column that may be NULL is an `Option T`.
* `rows.Next()/rows.Scan(...)` over a query result is a left fold over the list
  of rows the query delivers, in the order it delivers them; rows are typed, so
  `Scan` does not fail.  `getCount` only sizes the maps and is left out.
* A Go run-time panic is an `Except.error` carrying a `Fault`.
* The goroutines of `loadCache` are a step function over a pool state
  (`Pool.step`): one step of the coordinator or of one loader goroutine at a
  time; an interleaving is a list of the actors that step (`Pool.run`).
-/

namespace Vmaas

/-! ## Go maps -/

/-- A Go map seen through its lookups. -/
abbrev GoMap (K V : Type) := K → Option V

namespace GoMap

variable {K V : Type}

/-- The result of `make(map[K]V)` and the nil map: no key is present. -/
def empty : GoMap K V := fun _ => none

/-- Assignment `m[k] = v`. -/
def set [DecidableEq K] (m : GoMap K V) (k : K) (v : V) : GoMap K V :=
  fun x => if x = k then some v else m x

/-- The comma-ok test `_, ok := m[k]`. -/
def has (m : GoMap K V) (k : K) : Bool := (m k).isSome

/-- Indexing `m[k]` of a slice-valued map: an absent key gives the nil slice. -/
def get (m : GoMap K (List V)) (k : K) : List V := (m k).getD []

/-- The statement `m[k] = append(m[k], v)`. -/
def push [DecidableEq K] (m : GoMap K (List V)) (k : K) (v : V) : GoMap K (List V) :=
  m.set k (m.get k ++ [v])

/-- The idiom
`_, ok := m[k]; if !ok { m[k] = []T{} }; m[k] = append(m[k], v)`. -/
def pushInit [DecidableEq K] (m : GoMap K (List V)) (k : K) (v : V) : GoMap K (List V) :=
  let m1 := if m.has k then m else m.set k []
  m1.set k (m1.get k ++ [v])

end GoMap

/-! ## Identifier and record types (`types.go`) -/

abbrev RepoID := Int
abbrev PkgID := Int
abbrev NameID := Int
abbrev EvrID := Int
abbrev ArchID := Int
abbrev ErrataID := Int
abbrev ContentSetID := Int
abbrev DefinitionID := Int
abbrev CpeID := Int
abbrev CriteriaID := Int
abbrev TestID := Int
abbrev ModuleTestID := Int
abbrev OvalStateID := Int

/-- Modelled from the spec: the record `utils.Evr`, declared outside `load.go`
and `types.go`; its fields are the three columns `loadEvrMaps` scans into it. -/
structure Evr where
  Epoch : Int
  Version : String
  Release : String
  deriving DecidableEq, Repr

/-- The record `PackageDetail`; `Modified` is a timestamp, kept as its text. -/
structure PackageDetail where
  NameID : NameID
  EvrID : EvrID
  ArchID : ArchID
  SummaryID : Int
  DescriptionID : Int
  SrcPkgID : Option PkgID
  Modified : Option String
  ModifiedID : Int
  deriving DecidableEq, Repr

/-- The composite key `Nevra`. -/
structure Nevra where
  NameID : NameID
  EvrID : EvrID
  ArchID : ArchID
  deriving DecidableEq, Repr

/-! ## Loaders of the name, arch, EVR, update and package tables -/

/-- The loop of `loadPkgNames` over the rows `(id, packagename)`; the result is
`(ID2Packagename, Packagename2ID)`. -/
def loadPkgNames (rows : List (NameID × String)) : GoMap NameID String × GoMap String NameID :=
  rows.foldl (fun st r => (st.1.set r.1 r.2, st.2.set r.2 r.1)) (GoMap.empty, GoMap.empty)

/-- The loop of `loadEvrMaps` over the rows `(id, epoch, version, release)`; the
result is `(ID2Evr, Evr2ID)`. -/
def loadEvrMaps (rows : List (EvrID × Evr)) : GoMap EvrID Evr × GoMap Evr EvrID :=
  rows.foldl (fun st r => (st.1.set r.1 r.2, st.2.set r.2 r.1)) (GoMap.empty, GoMap.empty)

/-- The loop of `loadArchs` over the rows `(id, arch)`; the result is
`(ID2Arch, Arch2ID)`. -/
def loadArchs (rows : List (ArchID × String)) : GoMap ArchID String × GoMap String ArchID :=
  rows.foldl (fun st r => (st.1.set r.1 r.2, st.2.set r.2 r.1)) (GoMap.empty, GoMap.empty)

/-- The loop of `loadUpdates` over the rows `(name_id, package_id)` of
`select name_id, package_id from updates order by package_order`. -/
def loadUpdates (rows : List (NameID × PkgID)) : GoMap NameID (List PkgID) :=
  rows.foldl (fun res r => res.push r.1 r.2) GoMap.empty

/-- The three maps `loadPkgDetails` builds. -/
structure PkgDetailMaps where
  PackageDetails : GoMap PkgID PackageDetail
  Nevra2PkgID : GoMap Nevra PkgID
  SrcPkgID2PkgID : GoMap PkgID (List PkgID)

/-- One iteration of the loop of `loadPkgDetails` on the row `(pkgID, det)`. -/
def loadPkgDetailsStep (st : PkgDetailMaps) (r : PkgID × PackageDetail) : PkgDetailMaps :=
  let id2pkdDetail := st.PackageDetails.set r.1 r.2
  let nevra2id := st.Nevra2PkgID.set ⟨r.2.NameID, r.2.EvrID, r.2.ArchID⟩ r.1
  match r.2.SrcPkgID with
  | none => { PackageDetails := id2pkdDetail, Nevra2PkgID := nevra2id,
              SrcPkgID2PkgID := st.SrcPkgID2PkgID }
  | some src => { PackageDetails := id2pkdDetail, Nevra2PkgID := nevra2id,
                  SrcPkgID2PkgID := st.SrcPkgID2PkgID.pushInit src r.1 }

/-- The loop of `loadPkgDetails` over the rows of `package_detail`. -/
def loadPkgDetails (rows : List (PkgID × PackageDetail)) : PkgDetailMaps :=
  rows.foldl loadPkgDetailsStep
    { PackageDetails := GoMap.empty, Nevra2PkgID := GoMap.empty, SrcPkgID2PkgID := GoMap.empty }

/-! ## The criteria-dependency loader -/

/-- A row of `oval_criteria_dependency` as the query delivers it: the three
nullable columns arrive through `COALESCE(.., 0)`. -/
structure OvalCriteriaDep where
  ParentCriteriaID : CriteriaID
  DepCriteriaID : CriteriaID
  DepTestID : TestID
  DepModuleTestID : ModuleTestID
  deriving DecidableEq, Repr

/-- The three maps `loadOvalCriteriaDependency` builds. -/
structure CriteriaDepMaps where
  DepCriteriaIDs : GoMap CriteriaID (List CriteriaID)
  DepTestIDs : GoMap CriteriaID (List TestID)
  DepModuleTestIDs : GoMap CriteriaID (List ModuleTestID)

/-- One iteration of the loop of `loadOvalCriteriaDependency`. -/
def loadOvalCriteriaDependencyStep (st : CriteriaDepMaps) (r : OvalCriteriaDep) :
    CriteriaDepMaps :=
  let st1 : CriteriaDepMaps :=
    if st.DepCriteriaIDs.has r.ParentCriteriaID then st
    else { DepCriteriaIDs := st.DepCriteriaIDs.set r.ParentCriteriaID [],
           DepTestIDs := st.DepTestIDs.set r.ParentCriteriaID [],
           DepModuleTestIDs := st.DepModuleTestIDs.set r.ParentCriteriaID [] }
  let st2 : CriteriaDepMaps :=
    if r.DepCriteriaID ≠ 0 then
      { st1 with DepCriteriaIDs := st1.DepCriteriaIDs.push r.ParentCriteriaID r.DepCriteriaID }
    else st1
  let st3 : CriteriaDepMaps :=
    if r.DepTestID ≠ 0 then
      { st2 with DepTestIDs := st2.DepTestIDs.push r.ParentCriteriaID r.DepTestID }
    else st2
  if r.DepModuleTestID ≠ 0 then
    { st3 with DepModuleTestIDs := st3.DepModuleTestIDs.push r.ParentCriteriaID r.DepModuleTestID }
  else st3

/-- The loop of `loadOvalCriteriaDependency` over the rows of the table. -/
def loadOvalCriteriaDependency (rows : List OvalCriteriaDep) : CriteriaDepMaps :=
  rows.foldl loadOvalCriteriaDependencyStep
    { DepCriteriaIDs := GoMap.empty, DepTestIDs := GoMap.empty, DepModuleTestIDs := GoMap.empty }

/-! ## Run-time faults -/

/-- The ways a loader or the coordinator can panic. -/
inductive Fault where
  /-- An explicit `panic(err)` after a failed query or `Scan`. -/
  | explicitPanic (msg : String)
  /-- Indexing a slice out of range: `index out of range [index] with length len`. -/
  | indexOutOfRange (index len : Nat)
  /-- Reading a field through a nil pointer. -/
  | nilDereference
  /-- The built-in `make(chan T, n)` with a negative `n`. -/
  | makechanSize
  deriving DecidableEq, Repr

/-- The index expression `arr[i]`. -/
def goIndex {α : Type} (arr : List α) (i : Nat) : Except Fault α :=
  match arr[i]? with
  | some x => .ok x
  | none => .error (.indexOutOfRange i arr.length)

/-- The library call `strings.TrimSuffix(s, suffix)`: `s` without the trailing
`suffix` when it ends in it, else `s`. -/
def trimSuffix (s suffix : String) : String :=
  if suffix.data.isSuffixOf s.data then
    String.mk (s.data.take (s.data.length - suffix.data.length))
  else s

/-- Splitting a character list at every occurrence of `sep`; an input without
`sep` gives the one-element list of the input. -/
def splitChars (sep : Char) : List Char → List (List Char)
  | [] => [[]]
  | c :: cs =>
    if c = sep then [] :: splitChars sep cs
    else
      match splitChars sep cs with
      | [] => [[c]]
      | h :: t => (c :: h) :: t

/-- The library call `strings.Split(s, sep)` for a one-character separator. -/
def stringsSplit (s : String) (sep : Char) : List String :=
  (splitChars sep s.data).map String.mk

/-- The order `sort.Strings` sorts by, on character lists: `a ≤ b`, compared
position by position on the code points (which orders UTF-8 strings as their
bytes do). -/
def charsLe : List Char → List Char → Bool
  | [], _ => true
  | _ :: _, [] => false
  | a :: as, b :: bs =>
    if a.toNat < b.toNat then true
    else if b.toNat < a.toNat then false
    else charsLe as bs

/-- Inserting a string into an ascending list, before the first element that is
not below it. -/
def insertSorted (x : String) : List String → List String
  | [] => [x]
  | y :: ys => if charsLe x.data y.data then x :: y :: ys else y :: insertSorted x ys

/-- The library call `sort.Strings`: the strings in ascending order. -/
def sortStrings (l : List String) : List String :=
  l.foldr insertSorted []

/-! ## The remaining record types of `types.go` -/

/-- The record `RepoDetail`. -/
structure RepoDetail where
  Label : String
  Name : String
  URL : String
  Basearch : String
  Releasever : String
  Product : String
  ProductID : Int
  Revision : Option String
  ThirdParty : Bool
  deriving DecidableEq, Repr

/-- The record `CveDetail`. -/
structure CveDetail where
  RedHatURL : Option String
  SecondaryURL : Option String
  Cvss3Score : Option String
  Cvss3Metrics : Option String
  Impact : String
  PublishedDate : Option String
  ModifiedDate : Option String
  Iava : Option String
  Description : String
  Cvss2Score : Option String
  Cvss2Metrics : Option String
  Source : String
  CWEs : List String
  PkgIDs : List Int
  ErrataIDs : List Int
  deriving DecidableEq, Repr

/-- The composite key `PkgErrata`. -/
structure PkgErrata where
  PkgID : Int
  ErrataID : Int
  deriving DecidableEq, Repr

/-- The record `Module`. -/
structure Module where
  Name : String
  StreamID : Int
  Stream : String
  Version : String
  Context : String
  PackageList : List String
  SourcePackageList : List String
  deriving DecidableEq, Repr

/-- The composite key `ModuleStream`. -/
structure ModuleStream where
  Module : String
  Stream : String
  deriving DecidableEq, Repr

/-- The record `DBChange`. -/
structure DBChange where
  ErrataChanges : String
  CveChanges : String
  RepoChanges : String
  LastChange : String
  Exported : String
  deriving DecidableEq, Repr

/-- The record `ErrataDetail`; the Go field `Type` is `Typ` here. -/
structure ErrataDetail where
  ID : ErrataID
  Synopsis : String
  Summary : Option String
  Typ : String
  Severity : Option String
  Description : Option String
  CVEs : List String
  PkgIDs : List Int
  ModulePkgIDs : List Int
  Bugzillas : List String
  Refs : List String
  Modules : List Module
  Solution : Option String
  Issued : Option String
  Updated : Option String
  URL : String
  ThirdParty : Bool
  RequiresReboot : Bool
  deriving DecidableEq, Repr

/-- The record `DefinitionDetail`. -/
structure DefinitionDetail where
  ID : DefinitionID
  DefinitionTypeID : Int
  CriteriaID : CriteriaID
  deriving DecidableEq, Repr

/-- The record `OvalTestDetail`. -/
structure OvalTestDetail where
  PkgNameID : NameID
  CheckExistence : Int
  deriving DecidableEq, Repr

/-- The record `OvalModuleTestDetail`. -/
structure OvalModuleTestDetail where
  ModuleStream : ModuleStream
  deriving DecidableEq, Repr

/-- The record `OvalState`. -/
structure OvalState where
  ID : OvalStateID
  EvrID : EvrID
  OperationEvr : Int
  deriving DecidableEq, Repr

/-- Modelled from the spec: the type `url.URL` of the Go library `net/url`, of
which the repository loader reads the field `Path` only. -/
structure URL where
  Path : String
  deriving DecidableEq, Repr

/-! ## The generic loaders and the remaining table loaders -/

/-- The loop of `loadInt2Ints` over the rows `(key, val)`. -/
def loadInt2Ints (rows : List (Int × Int)) : GoMap Int (List Int) :=
  rows.foldl (fun m r => m.pushInit r.1 r.2) GoMap.empty

/-- The loop of `loadInt2Strings` over the rows `(key, val)`. -/
def loadInt2Strings (rows : List (Int × String)) : GoMap Int (List String) :=
  rows.foldl (fun m r => m.pushInit r.1 r.2) GoMap.empty

/-- The loop of `loadString2Ints` over the rows `(key, val)`. -/
def loadString2Ints (rows : List (String × Int)) : GoMap String (List Int) :=
  rows.foldl (fun m r => m.pushInit r.1 r.2) GoMap.empty

/-- The function `loadIntArray`: one column of the rows, in row order. -/
def loadIntArray {R : Type} (rows : List R) (col : R → Int) : List Int :=
  rows.foldl (fun arr r => arr ++ [col r]) []

/-- The function `loadStrArray`: one column of the rows, in row order. -/
def loadStrArray {R : Type} (rows : List R) (col : R → String) : List String :=
  rows.foldl (fun arr r => arr ++ [col r]) []

/-- The loop of `loadErrataRepoIDs` over the rows `(errata_id, repo_id)`. -/
def loadErrataRepoIDs (rows : List (ErrataID × RepoID)) : GoMap ErrataID (GoMap RepoID Bool) :=
  rows.foldl (fun m r => m.set r.1 (((m r.1).getD GoMap.empty).set r.2 true)) GoMap.empty

/-- The function `loadPkgErrata` on the rows `(pkg_id, errata_id)`: the `range`
over the map of `loadInt2Ints` visits every key `k` once and appends the
elements of its list to `pkgToErrata[k]`, which starts absent. -/
def loadPkgErrata (rows : List (Int × Int)) : GoMap PkgID (List ErrataID) :=
  fun id =>
    match loadInt2Ints rows id with
    | none => none
    | some v => v.foldl (fun acc i => some (acc.getD [] ++ [i])) none

/-- The loop of `loadPkgRepos` over the rows `(pkg_id, repo_id)`. -/
def loadPkgRepos (rows : List (PkgID × RepoID)) : GoMap PkgID (List RepoID) :=
  rows.foldl (fun res r => res.push r.1 r.2) GoMap.empty

/-- The loop of `loadUpdatesIndex` over the rows `(name_id, evr_id, package_order)`. -/
def loadUpdatesIndex (rows : List (NameID × EvrID × Int)) : GoMap NameID (GoMap EvrID (List Int)) :=
  rows.foldl
    (fun res r => res.set r.1 (((res r.1).getD GoMap.empty).push r.2.1 r.2.2)) GoMap.empty

/-- The loop of `loadArchCompat` over the rows `(from_arch_id, to_arch_id)`. -/
def loadArchCompat (rows : List (ArchID × ArchID)) : GoMap ArchID (GoMap ArchID Bool) :=
  rows.foldl (fun m r => m.set r.1 (((m r.1).getD GoMap.empty).set r.2 true)) GoMap.empty

/-- The loop of `loadLabel2ContentSetID` over the rows `(id, label)`. -/
def loadLabel2ContentSetID (rows : List (ContentSetID × String)) : GoMap String ContentSetID :=
  rows.foldl (fun m r => m.set r.2 r.1) GoMap.empty

/-- The five results of `loadRepoDetails`. -/
structure RepoMaps where
  RepoIDs : List RepoID
  RepoDetails : GoMap RepoID RepoDetail
  RepoLabel2IDs : GoMap String (List RepoID)
  RepoPath2IDs : GoMap String (List RepoID)
  ProductID2RepoIDs : GoMap Int (List RepoID)

/-- One iteration of the loop of `loadRepoDetails` on the row `(repoID, det)`.
`parse` is `url.Parse`, with `none` for an error, in which case the pointer
`parsedURL` is nil: the loader logs a warning and goes on to read
`parsedURL.Path`. -/
def loadRepoDetailsStep (parse : String → Option URL) (st : RepoMaps) (r : RepoID × RepoDetail) :
    Except Fault RepoMaps :=
  let repoIDs := st.RepoIDs ++ [r.1]
  let id2repoDetail := st.RepoDetails.set r.1 r.2
  let repoLabel2id := st.RepoLabel2IDs.pushInit r.2.Label r.1
  let path : Except Fault (GoMap String (List RepoID)) :=
    if r.2.URL.utf8ByteSize > 0 then
      match parse r.2.URL with
      | none => .error .nilDereference
      | some parsedURL => .ok (st.RepoPath2IDs.pushInit (trimSuffix parsedURL.Path "/") r.1)
    else .ok st.RepoPath2IDs
  match path with
  | .error e => .error e
  | .ok repoPath2id =>
    .ok { RepoIDs := repoIDs, RepoDetails := id2repoDetail, RepoLabel2IDs := repoLabel2id,
          RepoPath2IDs := repoPath2id,
          ProductID2RepoIDs := st.ProductID2RepoIDs.pushInit r.2.ProductID r.1 }

/-- The loop of `loadRepoDetails` over the rows of `repo_detail`, as `Scan`
stores them.  The query does not wrap `url` in `COALESCE`: a row with a NULL
`url` makes `Scan` return an error and the loader panic before the loop body,
and is not a row of this list. -/
def loadRepoDetails (parse : String → Option URL) (rows : List (RepoID × RepoDetail)) :
    Except Fault RepoMaps :=
  rows.foldlM (loadRepoDetailsStep parse)
    { RepoIDs := [], RepoDetails := GoMap.empty, RepoLabel2IDs := GoMap.empty,
      RepoPath2IDs := GoMap.empty, ProductID2RepoIDs := GoMap.empty }

/-- A row of `errata_module`: `errata_id` and the five scanned module columns. -/
structure ErrataModuleRow where
  ErrataID : Int
  Name : String
  StreamID : Int
  Stream : String
  Version : String
  Context : String
  deriving DecidableEq, Repr

/-- The loop of `loadErrataModules`; the two package lists of `mod` are never
written and stay nil. -/
def loadErrataModules (rows : List ErrataModuleRow) : GoMap Int (List Module) :=
  rows.foldl
    (fun m r => m.pushInit r.ErrataID
      { Name := r.Name, StreamID := r.StreamID, Stream := r.Stream, Version := r.Version,
        Context := r.Context, PackageList := [], SourcePackageList := [] })
    GoMap.empty

/-- A row of `errata_detail`, in the column order of the query of `loadErrata`. -/
structure ErrataRow where
  ID : ErrataID
  Name : String
  Synopsis : String
  Summary : Option String
  Typ : String
  Severity : Option String
  Description : Option String
  Solution : Option String
  Issued : Option String
  Updated : Option String
  URL : String
  ThirdParty : Bool
  RequiresReboot : Bool
  deriving DecidableEq, Repr

/-- The six child maps `loadErrata` fetches before it scans `errata_detail`. -/
structure ErrataChildren where
  erID2cves : GoMap Int (List String)
  erID2pkgIDs : GoMap Int (List Int)
  erID2modulePkgIDs : GoMap Int (List Int)
  erID2bzs : GoMap Int (List String)
  erID2refs : GoMap Int (List String)
  erID2modules : GoMap Int (List Module)

/-- The record `det` that one iteration of the loop of `loadErrata` stores under
the name of the row: the scanned columns, the id, and each child list that has
the id as a key. -/
def errataDet (ch : ErrataChildren) (r : ErrataRow) : ErrataDetail :=
  let det : ErrataDetail :=
    { ID := r.ID, Synopsis := r.Synopsis, Summary := r.Summary, Typ := r.Typ,
      Severity := r.Severity, Description := r.Description, CVEs := [], PkgIDs := [],
      ModulePkgIDs := [], Bugzillas := [], Refs := [], Modules := [], Solution := r.Solution,
      Issued := r.Issued, Updated := r.Updated, URL := r.URL, ThirdParty := r.ThirdParty,
      RequiresReboot := r.RequiresReboot }
  let det := match ch.erID2cves r.ID with
    | some cves => { det with CVEs := cves }
    | none => det
  let det := match ch.erID2pkgIDs r.ID with
    | some pkgIDs => { det with PkgIDs := pkgIDs }
    | none => det
  let det := match ch.erID2modulePkgIDs r.ID with
    | some modulePkgIDs => { det with ModulePkgIDs := modulePkgIDs }
    | none => det
  let det := match ch.erID2bzs r.ID with
    | some bzs => { det with Bugzillas := bzs }
    | none => det
  let det := match ch.erID2refs r.ID with
    | some refs => { det with Refs := refs }
    | none => det
  match ch.erID2modules r.ID with
  | some modules => { det with Modules := modules }
  | none => det

/-- The function `loadErrata`: the six child relations are loaded first, then
`errata_detail` is scanned once; the result is `(ErrataDetail, ErrataID2Name)`. -/
def loadErrata (errata_cve : List (Int × String)) (pkg_errata : List (Int × Int))
    (errata_modulepkg : List (Int × Int)) (errata_bugzilla : List (Int × String))
    (errata_refs : List (Int × String)) (errata_module : List ErrataModuleRow)
    (errata_detail : List ErrataRow) : GoMap String ErrataDetail × GoMap ErrataID String :=
  let ch : ErrataChildren :=
    { erID2cves := loadInt2Strings errata_cve,
      erID2pkgIDs := loadInt2Ints pkg_errata,
      erID2modulePkgIDs := loadInt2Ints errata_modulepkg,
      erID2bzs := loadInt2Strings errata_bugzilla,
      erID2refs := loadInt2Strings errata_refs,
      erID2modules := loadErrataModules errata_module }
  errata_detail.foldl
    (fun st r => (st.1.set r.Name (errataDet ch r), st.2.set r.ID r.Name))
    (GoMap.empty, GoMap.empty)

/-- A row of `cve_detail`: the id, the name and the twelve scanned columns. -/
structure CveRow where
  ID : Int
  Name : String
  RedHatURL : Option String
  SecondaryURL : Option String
  Cvss3Score : Option String
  Cvss3Metrics : Option String
  Impact : String
  PublishedDate : Option String
  ModifiedDate : Option String
  Iava : Option String
  Description : String
  Cvss2Score : Option String
  Cvss2Metrics : Option String
  Source : String
  deriving DecidableEq, Repr

/-- The record `det` one iteration of the loop of `loadCves` stores under the
CVE name. -/
def cveDet (cveID2cwes : GoMap Int (List String)) (cveID2pkg : GoMap Int (List Int))
    (cve2eid : GoMap String (List Int)) (r : CveRow) : CveDetail :=
  let det : CveDetail :=
    { RedHatURL := r.RedHatURL, SecondaryURL := r.SecondaryURL, Cvss3Score := r.Cvss3Score,
      Cvss3Metrics := r.Cvss3Metrics, Impact := r.Impact, PublishedDate := r.PublishedDate,
      ModifiedDate := r.ModifiedDate, Iava := r.Iava, Description := r.Description,
      Cvss2Score := r.Cvss2Score, Cvss2Metrics := r.Cvss2Metrics, Source := r.Source,
      CWEs := [], PkgIDs := [], ErrataIDs := [] }
  let det := match cveID2cwes r.ID with
    | some cwes => { det with CWEs := sortStrings cwes }
    | none => det
  let det := match cveID2pkg r.ID with
    | some pkgs => { det with PkgIDs := pkgs }
    | none => det
  match cve2eid r.Name with
  | some eids => { det with ErrataIDs := eids }
  | none => det

/-- The function `loadCves`; the result is `(CveDetail, CveNames)`. -/
def loadCves (cve_cwe : List (Int × String)) (cve_pkg : List (Int × Int))
    (errata_cve : List (String × Int)) (cve_detail : List CveRow) :
    GoMap String CveDetail × GoMap Int String :=
  let cveID2cwes := loadInt2Strings cve_cwe
  let cveID2pkg := loadInt2Ints cve_pkg
  let cve2eid := loadString2Ints errata_cve
  cve_detail.foldl
    (fun st r => (st.1.set r.Name (cveDet cveID2cwes cveID2pkg cve2eid r), st.2.set r.ID r.Name))
    (GoMap.empty, GoMap.empty)

/-- The function `loadPkgErrataModule` on the rows
`(pkg_id, errata_id, module_stream_id)` of `errata_modulepkg`, which it fetches
column by column and then walks by index. -/
def loadPkgErrataModule (rows : List (Int × Int × Int)) :
    Except Fault (GoMap PkgErrata (List Int)) :=
  let pkgIDs := loadIntArray rows (fun r => r.1)
  let errataIDs := loadIntArray rows (fun r => r.2.1)
  let moduleStreamIDs := loadIntArray rows (fun r => r.2.2)
  (List.range pkgIDs.length).foldlM
    (fun m i => do
      let p ← goIndex pkgIDs i
      let e ← goIndex errataIDs i
      let ms ← goIndex moduleStreamIDs i
      pure (m.pushInit ⟨p, e⟩ ms))
    GoMap.empty

/-- The function `loadModule2IDs` on the rows `(module, stream, stream_id)` of
`module_stream`, fetched column by column and walked by index. -/
def loadModule2IDs (rows : List (String × String × Int)) :
    Except Fault (GoMap ModuleStream (List Int)) :=
  let modules := loadStrArray rows (fun r => r.1)
  let streams := loadStrArray rows (fun r => r.2.1)
  let streamIDs := loadIntArray rows (fun r => r.2.2)
  (List.range modules.length).foldlM
    (fun m i => do
      let mo ← goIndex modules i
      let st ← goIndex streams i
      let id ← goIndex streamIDs i
      pure (m.pushInit ⟨mo, st⟩ id))
    GoMap.empty

/-- The function `loadModuleRequires` on the rows `(stream_id, require_id)`. -/
def loadModuleRequires (rows : List (Int × Int)) : GoMap Int (List Int) :=
  loadInt2Ints rows

/-- The loop of `loadString` over the rows `(id, string)`; the text is NULL or
present. -/
def loadString (rows : List (Int × Option String)) : GoMap Int String :=
  rows.foldl
    (fun m r =>
      match r.2 with
      | some str => m.set r.1 str
      | none => m)
    GoMap.empty

/-- The function `loadDBChanges`: the rows are collected in `arr`, and the
result is `arr[0]`. -/
def loadDBChanges (rows : List DBChange) : Except Fault DBChange :=
  let arr := rows.foldl (fun arr item => arr ++ [item]) []
  goIndex arr 0

/-- The loop of `loadOvalDefinitionDetail` over the rows
`(id, definition_type_id, criteria_id)`; the field `ID` of the stored record is
not set. -/
def loadOvalDefinitionDetail (rows : List (DefinitionID × Int × CriteriaID)) :
    GoMap DefinitionID DefinitionDetail :=
  rows.foldl
    (fun m r => m.set r.1 { ID := 0, DefinitionTypeID := r.2.1, CriteriaID := r.2.2 })
    GoMap.empty

/-- The loop of `loadOvalDefinitionCves` over the rows `(definition_id, cve)`. -/
def loadOvalDefinitionCves (rows : List (DefinitionID × String)) :
    GoMap DefinitionID (List String) :=
  rows.foldl (fun ret r => ret.push r.1 r.2) GoMap.empty

/-- The loop of `loadPackagenameID2DefinitionIDs` over `(name_id, definition_id)`. -/
def loadPackagenameID2DefinitionIDs (rows : List (NameID × DefinitionID)) :
    GoMap NameID (List DefinitionID) :=
  rows.foldl (fun ret r => ret.push r.1 r.2) GoMap.empty

/-- The loop of `loadRepoCpes` over the rows `(repo_id, cpe_id)`. -/
def loadRepoCpes (rows : List (RepoID × CpeID)) : GoMap RepoID (List CpeID) :=
  rows.foldl (fun ret r => ret.push r.1 r.2) GoMap.empty

/-- The loop of `loadContentSet2Cpes` over the rows `(content_set_id, cpe_id)`. -/
def loadContentSet2Cpes (rows : List (ContentSetID × CpeID)) : GoMap ContentSetID (List CpeID) :=
  rows.foldl (fun ret r => ret.push r.1 r.2) GoMap.empty

/-- The loop of `loadCpeID2DefinitionIDs` over the rows `(cpe_id, definition_id)`. -/
def loadCpeID2DefinitionIDs (rows : List (CpeID × DefinitionID)) :
    GoMap CpeID (List DefinitionID) :=
  rows.foldl (fun ret r => ret.push r.1 r.2) GoMap.empty

/-- The loop of `loadOvalCriteriaID2Type` over the rows `(criteria_id, type_id)`. -/
def loadOvalCriteriaID2Type (rows : List (CriteriaID × Int)) : GoMap CriteriaID Int :=
  rows.foldl (fun m r => m.set r.1 r.2) GoMap.empty

/-- The loop of `loadOvalStateID2Arches` over the rows `(state_id, arch_id)`. -/
def loadOvalStateID2Arches (rows : List (OvalStateID × ArchID)) : GoMap OvalStateID (List ArchID) :=
  rows.foldl (fun ret r => ret.push r.1 r.2) GoMap.empty

/-- One iteration of the loop of `loadOvalModuleTestDetail` on the row
`(id, module_stream)`: the string is split at ":" and the first two pieces are
read by index. -/
def loadOvalModuleTestDetailStep (details : GoMap ModuleTestID OvalModuleTestDetail)
    (r : ModuleTestID × String) : Except Fault (GoMap ModuleTestID OvalModuleTestDetail) := do
  let splitted := stringsSplit r.2 ':'
  let m ← goIndex splitted 0
  let st ← goIndex splitted 1
  pure (details.set r.1 { ModuleStream := { Module := m, Stream := st } })

/-- The loop of `loadOvalModuleTestDetail` over the rows of the table. -/
def loadOvalModuleTestDetail (rows : List (ModuleTestID × String)) :
    Except Fault (GoMap ModuleTestID OvalModuleTestDetail) :=
  rows.foldlM loadOvalModuleTestDetailStep GoMap.empty

/-- The loop of `loadOvalTestDetail` over the rows
`(id, package_name_id, check_existence_id)`. -/
def loadOvalTestDetail (rows : List (TestID × NameID × Int)) : GoMap TestID OvalTestDetail :=
  rows.foldl (fun m r => m.set r.1 { PkgNameID := r.2.1, CheckExistence := r.2.2 }) GoMap.empty

/-- The loop of `loadOvalTestID2States` over the rows
`(test_id, state_id, evr_id, evr_operation_id)`. -/
def loadOvalTestID2States (rows : List (TestID × OvalStateID × EvrID × Int)) :
    GoMap TestID (List OvalState) :=
  rows.foldl
    (fun m r => m.push r.1 { ID := r.2.1, EvrID := r.2.2.1, OperationEvr := r.2.2.2 })
    GoMap.empty

/-! ## The snapshot and the cache -/

/-- The content of an opened snapshot: for every query a loader issues, the rows
it delivers, in the order of its `ORDER BY`.  A table read under two orderings
has one field for each. -/
structure Snapshot where
  errata_repo : List (ErrataID × RepoID)
  pkg_errata_by_pkg : List (Int × Int)
  pkg_repo : List (PkgID × RepoID)
  packagename : List (NameID × String)
  updates : List (NameID × PkgID)
  updates_index : List (NameID × EvrID × Int)
  evr : List (EvrID × Evr)
  arch : List (ArchID × String)
  arch_compat : List (ArchID × ArchID)
  package_detail : List (PkgID × PackageDetail)
  repo_detail : List (RepoID × RepoDetail)
  content_set : List (ContentSetID × String)
  errata_cve_by_errata : List (Int × String)
  pkg_errata_by_errata : List (Int × Int)
  errata_modulepkg_by_errata : List (Int × Int)
  errata_bugzilla : List (Int × String)
  errata_refs : List (Int × String)
  errata_module : List ErrataModuleRow
  errata_detail : List ErrataRow
  cve_cwe : List (Int × String)
  cve_pkg : List (Int × Int)
  errata_cve_by_cve : List (String × Int)
  cve_detail : List CveRow
  errata_modulepkg : List (Int × Int × Int)
  module_stream : List (String × String × Int)
  module_stream_require : List (Int × Int)
  dbchange : List DBChange
  string : List (Int × Option String)
  oval_definition_detail : List (DefinitionID × Int × CriteriaID)
  oval_definition_cve : List (DefinitionID × String)
  packagename_oval_definition : List (NameID × DefinitionID)
  cpe_repo : List (RepoID × CpeID)
  cpe_content_set : List (ContentSetID × CpeID)
  oval_definition_cpe : List (CpeID × DefinitionID)
  oval_criteria_dependency : List OvalCriteriaDep
  oval_criteria_type : List (CriteriaID × Int)
  oval_state_arch : List (OvalStateID × ArchID)
  oval_module_test_detail : List (ModuleTestID × String)
  oval_test_detail : List (TestID × NameID × Int)
  oval_test_state : List (TestID × OvalStateID × EvrID × Int)

/-- Modelled from the spec: the struct `Cache`, declared outside `load.go` and
`types.go`; its fields here are the ones the loaders of `load.go` assign, each
with the type of the value assigned to it. -/
structure Cache where
  ErrataID2RepoIDs : GoMap ErrataID (GoMap RepoID Bool)
  PkgID2ErrataIDs : GoMap PkgID (List ErrataID)
  PkgID2RepoIDs : GoMap PkgID (List RepoID)
  ID2Packagename : GoMap NameID String
  Packagename2ID : GoMap String NameID
  Updates : GoMap NameID (List PkgID)
  UpdatesIndex : GoMap NameID (GoMap EvrID (List Int))
  ID2Evr : GoMap EvrID Evr
  Evr2ID : GoMap Evr EvrID
  ID2Arch : GoMap ArchID String
  Arch2ID : GoMap String ArchID
  ArchCompat : GoMap ArchID (GoMap ArchID Bool)
  PackageDetails : GoMap PkgID PackageDetail
  Nevra2PkgID : GoMap Nevra PkgID
  SrcPkgID2PkgID : GoMap PkgID (List PkgID)
  RepoIDs : List RepoID
  RepoDetails : GoMap RepoID RepoDetail
  RepoLabel2IDs : GoMap String (List RepoID)
  RepoPath2IDs : GoMap String (List RepoID)
  ProductID2RepoIDs : GoMap Int (List RepoID)
  Label2ContentSetID : GoMap String ContentSetID
  ErrataDetail : GoMap String ErrataDetail
  ErrataID2Name : GoMap ErrataID String
  CveDetail : GoMap String CveDetail
  CveNames : GoMap Int String
  PkgErrata2Module : GoMap PkgErrata (List Int)
  Module2IDs : GoMap ModuleStream (List Int)
  ModuleRequires : GoMap Int (List Int)
  DBChange : DBChange
  OvaldefinitionDetail : GoMap DefinitionID DefinitionDetail
  OvaldefinitionID2Cves : GoMap DefinitionID (List String)
  PackagenameID2definitionIDs : GoMap NameID (List DefinitionID)
  RepoID2CpeIDs : GoMap RepoID (List CpeID)
  ContentSetID2CpeIDs : GoMap ContentSetID (List CpeID)
  CpeID2OvalDefinitionIDs : GoMap CpeID (List DefinitionID)
  OvalCriteriaID2DepCriteriaIDs : GoMap CriteriaID (List CriteriaID)
  OvalCriteriaID2DepTestIDs : GoMap CriteriaID (List TestID)
  OvalCriteriaID2DepModuleTestIDs : GoMap CriteriaID (List ModuleTestID)
  OvalCriteriaID2Type : GoMap CriteriaID Int
  OvalStateID2Arches : GoMap OvalStateID (List ArchID)
  OvalModuleTestDetail : GoMap ModuleTestID OvalModuleTestDetail
  OvalTestDetail : GoMap TestID OvalTestDetail
  OvalTestID2States : GoMap TestID (List OvalState)
  String : GoMap Int String

/-- The zero value `Cache{}`: nil maps, nil slices, empty strings. -/
def Cache.zero : Cache where
  ErrataID2RepoIDs := GoMap.empty
  PkgID2ErrataIDs := GoMap.empty
  PkgID2RepoIDs := GoMap.empty
  ID2Packagename := GoMap.empty
  Packagename2ID := GoMap.empty
  Updates := GoMap.empty
  UpdatesIndex := GoMap.empty
  ID2Evr := GoMap.empty
  Evr2ID := GoMap.empty
  ID2Arch := GoMap.empty
  Arch2ID := GoMap.empty
  ArchCompat := GoMap.empty
  PackageDetails := GoMap.empty
  Nevra2PkgID := GoMap.empty
  SrcPkgID2PkgID := GoMap.empty
  RepoIDs := []
  RepoDetails := GoMap.empty
  RepoLabel2IDs := GoMap.empty
  RepoPath2IDs := GoMap.empty
  ProductID2RepoIDs := GoMap.empty
  Label2ContentSetID := GoMap.empty
  ErrataDetail := GoMap.empty
  ErrataID2Name := GoMap.empty
  CveDetail := GoMap.empty
  CveNames := GoMap.empty
  PkgErrata2Module := GoMap.empty
  Module2IDs := GoMap.empty
  ModuleRequires := GoMap.empty
  DBChange := { ErrataChanges := "", CveChanges := "", RepoChanges := "", LastChange := "",
                Exported := "" }
  OvaldefinitionDetail := GoMap.empty
  OvaldefinitionID2Cves := GoMap.empty
  PackagenameID2definitionIDs := GoMap.empty
  RepoID2CpeIDs := GoMap.empty
  ContentSetID2CpeIDs := GoMap.empty
  CpeID2OvalDefinitionIDs := GoMap.empty
  OvalCriteriaID2DepCriteriaIDs := GoMap.empty
  OvalCriteriaID2DepTestIDs := GoMap.empty
  OvalCriteriaID2DepModuleTestIDs := GoMap.empty
  OvalCriteriaID2Type := GoMap.empty
  OvalStateID2Arches := GoMap.empty
  OvalModuleTestDetail := GoMap.empty
  OvalTestDetail := GoMap.empty
  OvalTestID2States := GoMap.empty
  String := GoMap.empty

/-- The names of the fields of `Cache`. -/
inductive CacheField where
  | ErrataID2RepoIDs | PkgID2ErrataIDs | PkgID2RepoIDs | ID2Packagename | Packagename2ID
  | Updates | UpdatesIndex | ID2Evr | Evr2ID | ID2Arch | Arch2ID | ArchCompat
  | PackageDetails | Nevra2PkgID | SrcPkgID2PkgID | RepoIDs | RepoDetails | RepoLabel2IDs
  | RepoPath2IDs | ProductID2RepoIDs | Label2ContentSetID | ErrataDetail | ErrataID2Name
  | CveDetail | CveNames | PkgErrata2Module | Module2IDs | ModuleRequires | DBChange
  | OvaldefinitionDetail | OvaldefinitionID2Cves | PackagenameID2definitionIDs | RepoID2CpeIDs
  | ContentSetID2CpeIDs | CpeID2OvalDefinitionIDs | OvalCriteriaID2DepCriteriaIDs
  | OvalCriteriaID2DepTestIDs | OvalCriteriaID2DepModuleTestIDs | OvalCriteriaID2Type
  | OvalStateID2Arches | OvalModuleTestDetail | OvalTestDetail | OvalTestID2States | String
  deriving DecidableEq, Repr

/-- Two caches hold the same value in the field `f`. -/
def CacheField.same (f : CacheField) (c d : Cache) : Prop :=
  match f with
  | .ErrataID2RepoIDs => c.ErrataID2RepoIDs = d.ErrataID2RepoIDs
  | .PkgID2ErrataIDs => c.PkgID2ErrataIDs = d.PkgID2ErrataIDs
  | .PkgID2RepoIDs => c.PkgID2RepoIDs = d.PkgID2RepoIDs
  | .ID2Packagename => c.ID2Packagename = d.ID2Packagename
  | .Packagename2ID => c.Packagename2ID = d.Packagename2ID
  | .Updates => c.Updates = d.Updates
  | .UpdatesIndex => c.UpdatesIndex = d.UpdatesIndex
  | .ID2Evr => c.ID2Evr = d.ID2Evr
  | .Evr2ID => c.Evr2ID = d.Evr2ID
  | .ID2Arch => c.ID2Arch = d.ID2Arch
  | .Arch2ID => c.Arch2ID = d.Arch2ID
  | .ArchCompat => c.ArchCompat = d.ArchCompat
  | .PackageDetails => c.PackageDetails = d.PackageDetails
  | .Nevra2PkgID => c.Nevra2PkgID = d.Nevra2PkgID
  | .SrcPkgID2PkgID => c.SrcPkgID2PkgID = d.SrcPkgID2PkgID
  | .RepoIDs => c.RepoIDs = d.RepoIDs
  | .RepoDetails => c.RepoDetails = d.RepoDetails
  | .RepoLabel2IDs => c.RepoLabel2IDs = d.RepoLabel2IDs
  | .RepoPath2IDs => c.RepoPath2IDs = d.RepoPath2IDs
  | .ProductID2RepoIDs => c.ProductID2RepoIDs = d.ProductID2RepoIDs
  | .Label2ContentSetID => c.Label2ContentSetID = d.Label2ContentSetID
  | .ErrataDetail => c.ErrataDetail = d.ErrataDetail
  | .ErrataID2Name => c.ErrataID2Name = d.ErrataID2Name
  | .CveDetail => c.CveDetail = d.CveDetail
  | .CveNames => c.CveNames = d.CveNames
  | .PkgErrata2Module => c.PkgErrata2Module = d.PkgErrata2Module
  | .Module2IDs => c.Module2IDs = d.Module2IDs
  | .ModuleRequires => c.ModuleRequires = d.ModuleRequires
  | .DBChange => c.DBChange = d.DBChange
  | .OvaldefinitionDetail => c.OvaldefinitionDetail = d.OvaldefinitionDetail
  | .OvaldefinitionID2Cves => c.OvaldefinitionID2Cves = d.OvaldefinitionID2Cves
  | .PackagenameID2definitionIDs => c.PackagenameID2definitionIDs = d.PackagenameID2definitionIDs
  | .RepoID2CpeIDs => c.RepoID2CpeIDs = d.RepoID2CpeIDs
  | .ContentSetID2CpeIDs => c.ContentSetID2CpeIDs = d.ContentSetID2CpeIDs
  | .CpeID2OvalDefinitionIDs => c.CpeID2OvalDefinitionIDs = d.CpeID2OvalDefinitionIDs
  | .OvalCriteriaID2DepCriteriaIDs =>
    c.OvalCriteriaID2DepCriteriaIDs = d.OvalCriteriaID2DepCriteriaIDs
  | .OvalCriteriaID2DepTestIDs => c.OvalCriteriaID2DepTestIDs = d.OvalCriteriaID2DepTestIDs
  | .OvalCriteriaID2DepModuleTestIDs =>
    c.OvalCriteriaID2DepModuleTestIDs = d.OvalCriteriaID2DepModuleTestIDs
  | .OvalCriteriaID2Type => c.OvalCriteriaID2Type = d.OvalCriteriaID2Type
  | .OvalStateID2Arches => c.OvalStateID2Arches = d.OvalStateID2Arches
  | .OvalModuleTestDetail => c.OvalModuleTestDetail = d.OvalModuleTestDetail
  | .OvalTestDetail => c.OvalTestDetail = d.OvalTestDetail
  | .OvalTestID2States => c.OvalTestID2States = d.OvalTestID2States
  | .String => c.String = d.String

/-! ## The loader table `loadFuncs` -/

/-- The loader functions `func(c *Cache)` that `loadFuncs` lists, by name. -/
inductive LoadFunc where
  | loadPkgNames | loadUpdates | loadUpdatesIndex | loadEvrMaps | loadArchs | loadArchCompat
  | loadPkgDetails | loadRepoDetails | loadLabel2ContentSetID | loadPkgRepos | loadErrata
  | loadPkgErrata | loadErrataRepoIDs | loadCves | loadPkgErrataModule | loadModule2IDs
  | loadModuleRequires | loadDBChanges | loadString
  | loadOvalDefinitionDetail | loadOvalDefinitionCves | loadPackagenameID2DefinitionIDs
  | loadRepoCpes | loadContentSet2Cpes | loadCpeID2DefinitionIDs | loadOvalCriteriaDependency
  | loadOvalCriteriaID2Type | loadOvalStateID2Arches | loadOvalModuleTestDetail
  | loadOvalTestDetail | loadOvalTestID2States
  deriving DecidableEq, Repr

/-- The package variable `loadFuncs`, in source order. -/
def loadFuncs : List LoadFunc :=
  [.loadPkgNames, .loadUpdates, .loadUpdatesIndex, .loadEvrMaps, .loadArchs, .loadArchCompat,
   .loadPkgDetails, .loadRepoDetails, .loadLabel2ContentSetID, .loadPkgRepos, .loadErrata,
   .loadPkgErrata, .loadErrataRepoIDs, .loadCves, .loadPkgErrataModule, .loadModule2IDs,
   .loadModuleRequires, .loadDBChanges, .loadString,
   .loadOvalDefinitionDetail, .loadOvalDefinitionCves, .loadPackagenameID2DefinitionIDs,
   .loadRepoCpes, .loadContentSet2Cpes, .loadCpeID2DefinitionIDs, .loadOvalCriteriaDependency,
   .loadOvalCriteriaID2Type, .loadOvalStateID2Arches, .loadOvalModuleTestDetail,
   .loadOvalTestDetail, .loadOvalTestID2States]

/-- The call `fn(&c)` of a loader on the snapshot `s`: the loader computes its
maps from its queries and then assigns them to its fields of the cache; a panic
of the loader is an error.  `parse` is `url.Parse`. -/
def LoadFunc.call (parse : String → Option URL) (s : Snapshot) (fn : LoadFunc) (c : Cache) :
    Except Fault Cache :=
  match fn with
  | .loadPkgNames =>
    let r := Vmaas.loadPkgNames s.packagename
    .ok { c with ID2Packagename := r.1, Packagename2ID := r.2 }
  | .loadUpdates => .ok { c with Updates := Vmaas.loadUpdates s.updates }
  | .loadUpdatesIndex => .ok { c with UpdatesIndex := Vmaas.loadUpdatesIndex s.updates_index }
  | .loadEvrMaps =>
    let r := Vmaas.loadEvrMaps s.evr
    .ok { c with ID2Evr := r.1, Evr2ID := r.2 }
  | .loadArchs =>
    let r := Vmaas.loadArchs s.arch
    .ok { c with ID2Arch := r.1, Arch2ID := r.2 }
  | .loadArchCompat => .ok { c with ArchCompat := Vmaas.loadArchCompat s.arch_compat }
  | .loadPkgDetails =>
    let r := Vmaas.loadPkgDetails s.package_detail
    .ok { c with PackageDetails := r.PackageDetails, Nevra2PkgID := r.Nevra2PkgID,
                 SrcPkgID2PkgID := r.SrcPkgID2PkgID }
  | .loadRepoDetails =>
    match Vmaas.loadRepoDetails parse s.repo_detail with
    | .error e => .error e
    | .ok r =>
      .ok { c with RepoIDs := r.RepoIDs, RepoDetails := r.RepoDetails,
                   RepoLabel2IDs := r.RepoLabel2IDs, RepoPath2IDs := r.RepoPath2IDs,
                   ProductID2RepoIDs := r.ProductID2RepoIDs }
  | .loadLabel2ContentSetID =>
    .ok { c with Label2ContentSetID := Vmaas.loadLabel2ContentSetID s.content_set }
  | .loadPkgRepos => .ok { c with PkgID2RepoIDs := Vmaas.loadPkgRepos s.pkg_repo }
  | .loadErrata =>
    let r := Vmaas.loadErrata s.errata_cve_by_errata s.pkg_errata_by_errata
      s.errata_modulepkg_by_errata s.errata_bugzilla s.errata_refs s.errata_module s.errata_detail
    .ok { c with ErrataDetail := r.1, ErrataID2Name := r.2 }
  | .loadPkgErrata => .ok { c with PkgID2ErrataIDs := Vmaas.loadPkgErrata s.pkg_errata_by_pkg }
  | .loadErrataRepoIDs => .ok { c with ErrataID2RepoIDs := Vmaas.loadErrataRepoIDs s.errata_repo }
  | .loadCves =>
    let r := Vmaas.loadCves s.cve_cwe s.cve_pkg s.errata_cve_by_cve s.cve_detail
    .ok { c with CveDetail := r.1, CveNames := r.2 }
  | .loadPkgErrataModule =>
    match Vmaas.loadPkgErrataModule s.errata_modulepkg with
    | .error e => .error e
    | .ok m => .ok { c with PkgErrata2Module := m }
  | .loadModule2IDs =>
    match Vmaas.loadModule2IDs s.module_stream with
    | .error e => .error e
    | .ok m => .ok { c with Module2IDs := m }
  | .loadModuleRequires =>
    .ok { c with ModuleRequires := Vmaas.loadModuleRequires s.module_stream_require }
  | .loadDBChanges =>
    match Vmaas.loadDBChanges s.dbchange with
    | .error e => .error e
    | .ok d => .ok { c with DBChange := d }
  | .loadString => .ok { c with String := Vmaas.loadString s.string }
  | .loadOvalDefinitionDetail =>
    .ok { c with OvaldefinitionDetail := Vmaas.loadOvalDefinitionDetail s.oval_definition_detail }
  | .loadOvalDefinitionCves =>
    .ok { c with OvaldefinitionID2Cves := Vmaas.loadOvalDefinitionCves s.oval_definition_cve }
  | .loadPackagenameID2DefinitionIDs =>
    .ok { c with PackagenameID2definitionIDs :=
            Vmaas.loadPackagenameID2DefinitionIDs s.packagename_oval_definition }
  | .loadRepoCpes => .ok { c with RepoID2CpeIDs := Vmaas.loadRepoCpes s.cpe_repo }
  | .loadContentSet2Cpes =>
    .ok { c with ContentSetID2CpeIDs := Vmaas.loadContentSet2Cpes s.cpe_content_set }
  | .loadCpeID2DefinitionIDs =>
    .ok { c with CpeID2OvalDefinitionIDs := Vmaas.loadCpeID2DefinitionIDs s.oval_definition_cpe }
  | .loadOvalCriteriaDependency =>
    let r := Vmaas.loadOvalCriteriaDependency s.oval_criteria_dependency
    .ok { c with OvalCriteriaID2DepCriteriaIDs := r.DepCriteriaIDs,
                 OvalCriteriaID2DepTestIDs := r.DepTestIDs,
                 OvalCriteriaID2DepModuleTestIDs := r.DepModuleTestIDs }
  | .loadOvalCriteriaID2Type =>
    .ok { c with OvalCriteriaID2Type := Vmaas.loadOvalCriteriaID2Type s.oval_criteria_type }
  | .loadOvalStateID2Arches =>
    .ok { c with OvalStateID2Arches := Vmaas.loadOvalStateID2Arches s.oval_state_arch }
  | .loadOvalModuleTestDetail =>
    match Vmaas.loadOvalModuleTestDetail s.oval_module_test_detail with
    | .error e => .error e
    | .ok m => .ok { c with OvalModuleTestDetail := m }
  | .loadOvalTestDetail =>
    .ok { c with OvalTestDetail := Vmaas.loadOvalTestDetail s.oval_test_detail }
  | .loadOvalTestID2States =>
    .ok { c with OvalTestID2States := Vmaas.loadOvalTestID2States s.oval_test_state }

/-- The fields of `Cache` a loader assigns: the left-hand sides `c.F = ...` of
its body. -/
def LoadFunc.assigns : LoadFunc → List CacheField
  | .loadPkgNames => [.ID2Packagename, .Packagename2ID]
  | .loadUpdates => [.Updates]
  | .loadUpdatesIndex => [.UpdatesIndex]
  | .loadEvrMaps => [.ID2Evr, .Evr2ID]
  | .loadArchs => [.ID2Arch, .Arch2ID]
  | .loadArchCompat => [.ArchCompat]
  | .loadPkgDetails => [.PackageDetails, .Nevra2PkgID, .SrcPkgID2PkgID]
  | .loadRepoDetails =>
    [.RepoIDs, .RepoDetails, .RepoLabel2IDs, .RepoPath2IDs, .ProductID2RepoIDs]
  | .loadLabel2ContentSetID => [.Label2ContentSetID]
  | .loadPkgRepos => [.PkgID2RepoIDs]
  | .loadErrata => [.ErrataDetail, .ErrataID2Name]
  | .loadPkgErrata => [.PkgID2ErrataIDs]
  | .loadErrataRepoIDs => [.ErrataID2RepoIDs]
  | .loadCves => [.CveDetail, .CveNames]
  | .loadPkgErrataModule => [.PkgErrata2Module]
  | .loadModule2IDs => [.Module2IDs]
  | .loadModuleRequires => [.ModuleRequires]
  | .loadDBChanges => [.DBChange]
  | .loadString => [.String]
  | .loadOvalDefinitionDetail => [.OvaldefinitionDetail]
  | .loadOvalDefinitionCves => [.OvaldefinitionID2Cves]
  | .loadPackagenameID2DefinitionIDs => [.PackagenameID2definitionIDs]
  | .loadRepoCpes => [.RepoID2CpeIDs]
  | .loadContentSet2Cpes => [.ContentSetID2CpeIDs]
  | .loadCpeID2DefinitionIDs => [.CpeID2OvalDefinitionIDs]
  | .loadOvalCriteriaDependency =>
    [.OvalCriteriaID2DepCriteriaIDs, .OvalCriteriaID2DepTestIDs, .OvalCriteriaID2DepModuleTestIDs]
  | .loadOvalCriteriaID2Type => [.OvalCriteriaID2Type]
  | .loadOvalStateID2Arches => [.OvalStateID2Arches]
  | .loadOvalModuleTestDetail => [.OvalModuleTestDetail]
  | .loadOvalTestDetail => [.OvalTestDetail]
  | .loadOvalTestID2States => [.OvalTestID2States]

/-- Running the loaders `fns` one after the other on the cache `c`; the first
panic ends the run. -/
def runLoaders (parse : String → Option URL) (s : Snapshot) (fns : List LoadFunc) (c : Cache) :
    Except Fault Cache :=
  fns.foldlM (fun c fn => fn.call parse s c) c

/-! ## The coordinator `loadCache` -/

/-- The steps of the coordinator that the log records. -/
inductive Event where
  /-- The call `lock.Lock()` returned. -/
  | lock
  /-- The call `openDB(path)` returned, with or without a connection. -/
  | openDB (ok : Bool)
  /-- The statement `go func(fn) ...` for the loader `fn`. -/
  | go (fn : LoadFunc)
  /-- The call `wg.Wait()` returned. -/
  | wait
  /-- The call `lock.Unlock()`. -/
  | unlock
  /-- The call `closeDB()`. -/
  | closeDB
  /-- The function returned; `ok` tells whether it returned a cache. -/
  | ret (ok : Bool)
  deriving DecidableEq, Repr

/-- The package-level state of `load.go`: the mutex `lock`, the handles `db` and
`sqlDB` (a connection is a number), the connections that are open, the next
fresh connection number, and the log of coordinator steps. -/
structure Proc where
  lock : Bool
  db : Option Nat
  sqlDB : Option Nat
  conns : List Nat
  fresh : Nat
  log : List Event
  deriving DecidableEq, Repr

/-- The state of a fresh process: mutex free, no handle, no connection. -/
def Proc.init : Proc :=
  { lock := false, db := none, sqlDB := none, conns := [], fresh := 0, log := [] }

/-- Appending a step to the log. -/
def Proc.emit (w : Proc) (e : Event) : Proc := { w with log := w.log ++ [e] }

/-- What opening the file at a path gives: a connection to a snapshot, an error
of `gorm.Open`, or an error of `db.DB()` after `gorm.Open` succeeded. -/
inductive OpenResult where
  | opened (s : Snapshot)
  | openError
  | dbError

/-- Modelled from the spec: what `loadCache` takes from outside `load.go`: the
configured `conf.Env.MaxGoroutines`, the library function `url.Parse`, and the
file system seen through `gorm.Open(sqlite.Open(path))`. -/
structure Env where
  MaxGoroutines : Int
  parse : String → Option URL
  sqlite : String → OpenResult

/-- The call `lock.Lock()`: `none` when the mutex is held, in which case the
caller waits. -/
def lockLock (w : Proc) : Option Proc :=
  if w.lock then none else some ({ w with lock := true }.emit .lock)

/-- The call `lock.Unlock()`. -/
def lockUnlock (w : Proc) : Proc := { w with lock := false }.emit .unlock

/-- The function `openDB`: on success both handles point to the new connection;
when `gorm.Open` fails nothing is assigned; when `db.DB()` fails `db` is already
assigned. -/
def openDB (env : Env) (path : String) (w : Proc) : Proc × Except String Snapshot :=
  match env.sqlite path with
  | .openError => (w.emit (.openDB false), .error "couldn't open sqlite")
  | .dbError =>
    ({ w with db := some w.fresh, sqlDB := none, conns := w.conns ++ [w.fresh],
              fresh := w.fresh + 1 }.emit (.openDB false),
     .error "couldn't return *sql.DB")
  | .opened s =>
    ({ w with db := some w.fresh, sqlDB := some w.fresh, conns := w.conns ++ [w.fresh],
              fresh := w.fresh + 1 }.emit (.openDB true),
     .ok s)

/-- The function `closeDB`: it closes the connection `sqlDB` points to, whoever
opened it, and clears both handles; on a nil `sqlDB` the call `sqlDB.Close()`
panics. -/
def closeDB (w : Proc) : Except Fault Proc :=
  match w.sqlDB with
  | none => .error .nilDereference
  | some h => .ok ({ w with conns := w.conns.erase h, sqlDB := none, db := none }.emit .closeDB)

/-- How the loop over `loadFuncs` followed by `wg.Wait()` ends. -/
inductive Joined where
  /-- Every loader finished; the cache is filled. -/
  | done (c : Cache)
  /-- The coordinator waits forever on `guard <- struct{}{}`. -/
  | stuck
  /-- The built-in `make` panicked in the coordinator. -/
  | makePanic
  /-- A loader goroutine panicked, which ends the process. -/
  | loaderPanic (f : Fault)

/-- The statements of `loadCache` from `c := Cache{}` to `wg.Wait()`.  A
negative capacity makes `make(chan struct{}, n)` panic.  With capacity 0 the
first send `guard <- struct{}{}` has no receiver, since the goroutine that
would receive is started only after the send, so the coordinator never gets
past it.  With a positive capacity every loader is started and runs to its end
or panics; the loaders assign disjoint fields of `c`, and the cache after
`wg.Wait()` is the one the loaders give when run one after the other. -/
def spawnAndWait (env : Env) (s : Snapshot) : Joined :=
  if env.MaxGoroutines < 0 then .makePanic
  else if env.MaxGoroutines = 0 then
    match loadFuncs with
    | [] => .done Cache.zero
    | _ :: _ => .stuck
  else
    match runLoaders env.parse s loadFuncs Cache.zero with
    | .error f => .loaderPanic f
    | .ok c => .done c

/-- How a call of `loadCache` ends. -/
inductive Outcome where
  /-- The function returned `(cache, nil)` or `(nil, err)`. -/
  | returned (w : Proc) (r : Except String Cache)
  /-- The call never returns: it waits on the mutex or on the channel. -/
  | blocked (w : Proc)
  /-- A panic leaves `loadCache` after its deferred call has run. -/
  | panicked (w : Proc) (f : Fault)
  /-- A loader goroutine panicked and the process ended. -/
  | crashed (w : Proc) (f : Fault)

/-- The part of `loadCache` up to and including `lock.Unlock()`: everything but
the deferred `closeDB()`.  The result `Except.ok (w, c)` means the `return &c,
nil` statement is reached in state `w`, with the deferred call still to run. -/
def loadCacheBody (env : Env) (path : String) (w : Proc) : Except Outcome (Proc × Cache) :=
  match lockLock w with
  | none => .error (.blocked w)
  | some w1 =>
    match openDB env path w1 with
    | (w2, .error e) => .error (.returned (w2.emit (.ret false)) (.error e))
    | (w2, .ok s) =>
      match spawnAndWait env s with
      | .makePanic =>
        match closeDB w2 with
        | .ok w3 => .error (.panicked w3 .makechanSize)
        | .error _ => .error (.panicked w2 .makechanSize)
      | .stuck => .error (.blocked w2)
      | .loaderPanic f => .error (.crashed { w2 with log := w2.log ++ loadFuncs.map Event.go } f)
      | .done c =>
        .ok (lockUnlock ({ w2 with log := w2.log ++ loadFuncs.map Event.go }.emit .wait), c)

/-- The function `loadCache`: the body, then the deferred `closeDB()`, then the
return. -/
def loadCache (env : Env) (path : String) (w : Proc) : Outcome :=
  match loadCacheBody env path w with
  | .error o => o
  | .ok (w3, c) =>
    match closeDB w3 with
    | .error f => .panicked w3 f
    | .ok w4 => .returned (w4.emit (.ret true)) (.ok c)

/-! ## The goroutines of `loadCache`, step by step -/

/-- Where a loader goroutine `go func(fn) { fn(&c); <-guard; wg.Done() }(fn)` is. -/
inductive GoPc where
  /-- Started and executing `fn(&c)`. -/
  | call
  /-- The call `fn(&c)` returned; at `<-guard`. -/
  | recv
  /-- The slot is released; at `wg.Done()`. -/
  | done
  /-- The goroutine has ended. -/
  | exited
  deriving DecidableEq, Repr

/-- Where the coordinator is between `c := Cache{}` and the return of `wg.Wait()`. -/
inductive CoPc where
  /-- At the head of the `for` loop: `wg.Add(1)` comes next, or the loop ends. -/
  | add
  /-- At `guard <- struct{}{}`. -/
  | send
  /-- At the `go` statement. -/
  | spawn
  /-- At `wg.Wait()`. -/
  | wait
  /-- The call `wg.Wait()` returned. -/
  | joined
  deriving DecidableEq, Repr

/-- The state of the loop of `loadCache`: the capacity and the length of the
channel `guard`, the counter of the wait group, the loaders the loop has not
started yet (the head is the `fn` of the current iteration), the position of
the coordinator, the goroutines in the order they were started, the loaders
whose call has returned in the order they returned, and the shared cache `c`. -/
structure Pool where
  cap : Nat
  buf : Nat
  wg : Nat
  todo : List LoadFunc
  co : CoPc
  gos : List (LoadFunc × GoPc)
  fin : List LoadFunc
  c : Cache

/-- The state after `c := Cache{}`, `var wg sync.WaitGroup` and
`guard := make(chan struct{}, n)` for a capacity `n` that `make` accepts. -/
def Pool.init (n : Nat) : Pool :=
  { cap := n, buf := 0, wg := 0, todo := loadFuncs, co := .add, gos := [], fin := [],
    c := Cache.zero }

/-- Who takes the next step: the coordinator, the goroutine started `i`-th, or
both at once, when the send of the coordinator is handed over directly to the
receive of goroutine `i`. -/
inductive Actor where
  | coordinator
  | goroutine (i : Nat)
  | handoff (i : Nat)
  deriving DecidableEq, Repr

/-- What a step gives: a next state, nothing because the actor waits or has no
step, or a panic of a loader, which ends the process. -/
inductive StepResult where
  | next (p : Pool)
  | blocked
  | panic (f : Fault)

/-- One step of one actor.

Coordinator: at the loop head `wg.Add(1)` when a loader is left, else on to
`wg.Wait()`; the send `guard <- struct{}{}` needs room in the buffer; the `go`
statement starts the goroutine of the current loader; `wg.Wait()` returns when
the counter is 0.

Goroutine: `fn(&c)` runs to its end and assigns its fields, or panics; the
receive `<-guard` needs an element in the buffer; `wg.Done()` lowers the
counter.

Hand-over: with an empty buffer, a send meets a goroutine that waits at its
receive; both go on and the buffer stays empty (the only way a send on a
channel of capacity 0 completes). -/
def Pool.step (parse : String → Option URL) (s : Snapshot) (p : Pool) : Actor → StepResult
  | .coordinator =>
    match p.co with
    | .add =>
      match p.todo with
      | [] => .next { p with co := .wait }
      | _ :: _ => .next { p with wg := p.wg + 1, co := .send }
    | .send =>
      if p.buf < p.cap then .next { p with buf := p.buf + 1, co := .spawn } else .blocked
    | .spawn =>
      match p.todo with
      | [] => .blocked
      | fn :: rest => .next { p with gos := p.gos ++ [(fn, .call)], todo := rest, co := .add }
    | .wait => if p.wg = 0 then .next { p with co := .joined } else .blocked
    | .joined => .blocked
  | .goroutine i =>
    match p.gos[i]? with
    | none => .blocked
    | some (fn, .call) =>
      match fn.call parse s p.c with
      | .error f => .panic f
      | .ok c1 => .next { p with gos := p.gos.set i (fn, .recv), fin := p.fin ++ [fn], c := c1 }
    | some (fn, .recv) =>
      if 0 < p.buf then .next { p with buf := p.buf - 1, gos := p.gos.set i (fn, .done) }
      else .blocked
    | some (fn, .done) => .next { p with wg := p.wg - 1, gos := p.gos.set i (fn, .exited) }
    | some (_, .exited) => .blocked
  | .handoff i =>
    match p.co, p.gos[i]? with
    | .send, some (fn, .recv) =>
      if p.buf = 0 then .next { p with co := .spawn, gos := p.gos.set i (fn, .done) }
      else .blocked
    | _, _ => .blocked

/-- An interleaving: the actors take their steps in the order of the schedule;
`none` when a step of the schedule cannot be taken or a loader panics. -/
def Pool.run (parse : String → Option URL) (s : Snapshot) : Pool → List Actor → Option Pool
  | p, [] => some p
  | p, a :: rest =>
    match p.step parse s a with
    | .next q => Pool.run parse s q rest
    | .blocked => none
    | .panic _ => none

/-- The sum of a weight over the goroutines. -/
def total (f : LoadFunc × GoPc → Nat) (gos : List (LoadFunc × GoPc)) : Nat :=
  (gos.map f).sum

/-- The number of loader functions that are executing. -/
def Pool.executing (p : Pool) : Nat :=
  total (fun g => if g.2 = .call then 1 else 0) p.gos

/-- The number of goroutines that hold a slot of `guard`: started and not yet
past `<-guard`. -/
def Pool.holding (p : Pool) : Nat :=
  total (fun g => if g.2 = .call ∨ g.2 = .recv then 1 else 0) p.gos

/-- The number of goroutines that have not called `wg.Done()` yet. -/
def Pool.alive (p : Pool) : Nat :=
  total (fun g => if g.2 = .exited then 0 else 1) p.gos

/-- The steps a goroutine still has to take. -/
def GoPc.left : GoPc → Nat
  | .call => 3
  | .recv => 2
  | .done => 1
  | .exited => 0

/-- The steps the pool still has to take until `wg.Wait()` has returned: six
for every loader not started, the rest of the current iteration, the two steps
after the loop, and what the goroutines have left. -/
def Pool.left (p : Pool) : Nat :=
  (match p.co with
    | .add => 6 * p.todo.length + 2
    | .send => 6 * p.todo.length + 1
    | .spawn => 6 * p.todo.length
    | .wait => 1
    | .joined => 0)
  + total (fun g => g.2.left) p.gos

/-- The schedule that runs `n` loaders strictly one after the other: three
coordinator steps and three goroutine steps for each, then the end of the loop
and `wg.Wait()`. -/
def seqSchedule (n : Nat) : List Actor :=
  (List.range n).flatMap
      (fun i => [.coordinator, .coordinator, .coordinator, .goroutine i, .goroutine i,
                 .goroutine i])
    ++ [.coordinator, .coordinator]

/-! ## Auxiliary definitions of the proofs and sample inputs -/

/-- What a dependency map holds under `p` after the rows `rows`: nothing when no
row has parent `p`, else the non-zero values of column `col` of the rows with
parent `p`, in row order. -/
def depLookup (col : OvalCriteriaDep → Int) (rows : List OvalCriteriaDep) (p : CriteriaID) :
    Option (List Int) :=
  if rows.any (fun r => decide (r.ParentCriteriaID = p)) then
    some (((rows.filter (fun r => r.ParentCriteriaID = p)).map col).filter (fun x => x ≠ 0))
  else none

/-- The loader that assigns a field. -/
def CacheField.owner : CacheField → LoadFunc
  | .ErrataID2RepoIDs => .loadErrataRepoIDs
  | .PkgID2ErrataIDs => .loadPkgErrata
  | .PkgID2RepoIDs => .loadPkgRepos
  | .ID2Packagename => .loadPkgNames
  | .Packagename2ID => .loadPkgNames
  | .Updates => .loadUpdates
  | .UpdatesIndex => .loadUpdatesIndex
  | .ID2Evr => .loadEvrMaps
  | .Evr2ID => .loadEvrMaps
  | .ID2Arch => .loadArchs
  | .Arch2ID => .loadArchs
  | .ArchCompat => .loadArchCompat
  | .PackageDetails => .loadPkgDetails
  | .Nevra2PkgID => .loadPkgDetails
  | .SrcPkgID2PkgID => .loadPkgDetails
  | .RepoIDs => .loadRepoDetails
  | .RepoDetails => .loadRepoDetails
  | .RepoLabel2IDs => .loadRepoDetails
  | .RepoPath2IDs => .loadRepoDetails
  | .ProductID2RepoIDs => .loadRepoDetails
  | .Label2ContentSetID => .loadLabel2ContentSetID
  | .ErrataDetail => .loadErrata
  | .ErrataID2Name => .loadErrata
  | .CveDetail => .loadCves
  | .CveNames => .loadCves
  | .PkgErrata2Module => .loadPkgErrataModule
  | .Module2IDs => .loadModule2IDs
  | .ModuleRequires => .loadModuleRequires
  | .DBChange => .loadDBChanges
  | .OvaldefinitionDetail => .loadOvalDefinitionDetail
  | .OvaldefinitionID2Cves => .loadOvalDefinitionCves
  | .PackagenameID2definitionIDs => .loadPackagenameID2DefinitionIDs
  | .RepoID2CpeIDs => .loadRepoCpes
  | .ContentSetID2CpeIDs => .loadContentSet2Cpes
  | .CpeID2OvalDefinitionIDs => .loadCpeID2DefinitionIDs
  | .OvalCriteriaID2DepCriteriaIDs => .loadOvalCriteriaDependency
  | .OvalCriteriaID2DepTestIDs => .loadOvalCriteriaDependency
  | .OvalCriteriaID2DepModuleTestIDs => .loadOvalCriteriaDependency
  | .OvalCriteriaID2Type => .loadOvalCriteriaID2Type
  | .OvalStateID2Arches => .loadOvalStateID2Arches
  | .OvalModuleTestDetail => .loadOvalModuleTestDetail
  | .OvalTestDetail => .loadOvalTestDetail
  | .OvalTestID2States => .loadOvalTestID2States
  | .String => .loadString

/-- One loader call on a run that may already have ended in a panic. -/
def optStep (parse : String → Option URL) (s : Snapshot) (oc : Option Cache) (a : LoadFunc) :
    Option Cache :=
  match oc with
  | none => none
  | some c =>
    match a.call parse s c with
    | .ok c1 => some c1
    | .error _ => none

/-- A stand-in for `url.Parse`, used at two inputs only, on which it agrees
with it: ":cdn" is an error (`missing protocol scheme`) and "/content/rhel8/" is
a bare path.  It answers with an error for every string that starts with ":"
and takes any other string to be a bare path, which is not what `url.Parse` does
on a string with a scheme, a host, a query or an escape; the theorems take
`parse` as a parameter and hold for `url.Parse` itself. -/
def parseStub (u : String) : Option URL :=
  if u.data.head? = some ':' then none else some { Path := u }

/-- Two package rows with different ids and the same (name, EVR, arch). -/
def dupNevraRows : List (PkgID × PackageDetail) :=
  [(1, ⟨1, 10, 5, 0, 0, none, none, 0⟩), (2, ⟨1, 10, 5, 0, 0, none, none, 0⟩)]

/-- Two `errata_detail` rows with different ids and the same name. -/
def dupNameErrata : List ErrataRow :=
  [⟨1, "RHSA-1", "s", none, "security", none, none, none, none, none, "", false, false⟩,
   ⟨2, "RHSA-1", "s", none, "security", none, none, none, none, none, "", false, false⟩]

/-- An environment in which no snapshot file can be opened. -/
def noFileEnv : Env :=
  { MaxGoroutines := 4, parse := parseStub, sqlite := fun _ => .openError }

/-- A small snapshot on which every loader returns: one `dbchange` row, one
package name with two updates, one repository, two errata sharing a CVE, one
criteria dependency and one module test; the other tables are empty. -/
def sampleSnapshot : Snapshot where
  errata_repo := []
  pkg_errata_by_pkg := []
  pkg_repo := []
  packagename := [(1, "bash")]
  updates := [(1, 100), (1, 101)]
  updates_index := []
  evr := []
  arch := []
  arch_compat := []
  package_detail := []
  repo_detail := [(1, ⟨"rhel-8", "RHEL 8", "/content/rhel8/", "x86_64", "8", "RHEL", 7, none, false⟩)]
  content_set := []
  errata_cve_by_errata := [(1, "CVE-2024-1"), (2, "CVE-2024-1")]
  pkg_errata_by_errata := []
  errata_modulepkg_by_errata := []
  errata_bugzilla := []
  errata_refs := []
  errata_module := []
  errata_detail :=
    [⟨1, "RHSA-1", "s", none, "security", none, none, none, none, none, "", false, false⟩,
     ⟨2, "RHSA-2", "s", none, "security", none, none, none, none, none, "", false, false⟩]
  cve_cwe := []
  cve_pkg := []
  errata_cve_by_cve := [("CVE-2024-1", 1), ("CVE-2024-1", 2)]
  cve_detail := []
  errata_modulepkg := []
  module_stream := []
  module_stream_require := []
  dbchange := [⟨"e", "c", "r", "l", "x"⟩]
  string := []
  oval_definition_detail := []
  oval_definition_cve := []
  packagename_oval_definition := []
  cpe_repo := []
  cpe_content_set := []
  oval_definition_cpe := []
  oval_criteria_dependency := [⟨7, 0, 42, 0⟩]
  oval_criteria_type := []
  oval_state_arch := []
  oval_module_test_detail := [(3, "postgresql:12")]
  oval_test_detail := []
  oval_test_state := []

/-- An environment in which every path opens `sampleSnapshot`. -/
def sampleEnv : Env :=
  { MaxGoroutines := 4, parse := parseStub, sqlite := fun _ => .opened sampleSnapshot }

/-- The results of `url.Parse` on three inputs: the path "/repo/x86_64/os/"
for "https://cdn.example.com/repo/x86_64/os/", the path "/content/rhel8/" for
"/content/rhel8/", and an error (`missing protocol scheme`) for ":cdn".  For
every other string this table answers with an error, which `url.Parse` does
not; it is used at these three inputs only. -/
def parseKnown (u : String) : Option URL :=
  if u = "https://cdn.example.com/repo/x86_64/os/" then some { Path := "/repo/x86_64/os/" }
  else if u = "/content/rhel8/" then some { Path := "/content/rhel8/" }
  else none

/-- The repository of the scenario: its URL is non-empty and `url.Parse` gives
the path "/repo/x86_64/os/" for it. -/
def repoRowParsable : RepoID × RepoDetail :=
  (1, ⟨"rhel-8", "RHEL 8", "https://cdn.example.com/repo/x86_64/os/", "x86_64", "8", "RHEL", 7,
       none, false⟩)

/-- Two repositories in the order of the query, by label: the URL ":cdn" of the
first does not parse, the second is `repoRowParsable`. -/
def repoRowsOneMalformed : List (RepoID × RepoDetail) :=
  [(2, ⟨"bad", "Bad", ":cdn", "", "", "RHEL", 7, none, false⟩), repoRowParsable]

/-- Two repositories in the order of the query, by label: the first has an
empty URL, the second is `repoRowParsable`. -/
def repoRowsOneEmpty : List (RepoID × RepoDetail) :=
  [(2, ⟨"local", "Local", "", "", "", "RHEL", 7, none, false⟩), repoRowParsable]

/-- The two queries on `errata_cve`, the one of `loadErrata` ordered by
`errata_id, cve` and the one of `loadCves` ordered by `cve, errata_id`, deliver
the same pairs: both read the one table of the snapshot. -/
def Snapshot.errataCveAgree (s : Snapshot) : Bool :=
  s.errata_cve_by_errata.all (fun r => decide ((r.2, r.1) ∈ s.errata_cve_by_cve))
    && s.errata_cve_by_cve.all (fun r => decide ((r.2, r.1) ∈ s.errata_cve_by_errata))

/-- The snapshot `sampleSnapshot` with one `cve_detail` row, for "CVE-2024-1". -/
def sampleCveSnapshot : Snapshot :=
  { sampleSnapshot with
    cve_detail :=
      [⟨9, "CVE-2024-1", none, none, none, none, "Important", none, none, none, "", none, none,
        "Red Hat"⟩] }

/-- What holds in every state of the loop that an interleaving reaches from
`Pool.init` with the loader list `L`: the buffer of `guard` holds one element
for every goroutine that has not passed `<-guard` and one more while the
coordinator is at the `go` statement; it never holds more than its capacity;
the counter of the wait group counts the goroutines that have not called
`wg.Done()` and the one about to be started; the goroutines were started in the
order of `L`; the loaders that returned are the goroutines past their call;
and the cache is what the returned loaders give, run in the order they
returned. -/
structure Pool.Inv (parse : String → Option URL) (s : Snapshot) (L : List LoadFunc)
    (p : Pool) : Prop where
  slots : p.buf = p.holding + (if p.co = .spawn then 1 else 0)
  room : p.buf ≤ p.cap
  counter : p.wg = p.alive + (if p.co = .send ∨ p.co = .spawn then 1 else 0)
  current : (p.co = .send ∨ p.co = .spawn) → p.todo ≠ []
  finished : (p.co = .wait ∨ p.co = .joined) → p.todo = []
  joined : p.co = .joined → p.alive = 0
  order : p.gos.map Prod.fst ++ p.todo = L
  returned : ∀ a : LoadFunc,
    p.fin.count a + total (fun g => if g.1 = a ∧ g.2 = .call then 1 else 0) p.gos
      = (p.gos.map Prod.fst).count a
  cache : p.fin.foldl (optStep parse s) (some Cache.zero) = some p.c

/-- The environment `sampleEnv` with the maximum number of goroutines set to 0. -/
def zeroEnv : Env :=
  { MaxGoroutines := 0, parse := parseStub, sqlite := fun _ => .opened sampleSnapshot }

/-- The environment `sampleEnv` with the maximum number of goroutines set to 1. -/
def oneEnv : Env :=
  { MaxGoroutines := 1, parse := parseStub, sqlite := fun _ => .opened sampleSnapshot }

/-- The environment `sampleEnv` with the maximum number of goroutines set to -1. -/
def negEnv : Env :=
  { MaxGoroutines := -1, parse := parseStub, sqlite := fun _ => .opened sampleSnapshot }

/-- The state of a process in which the mutex is held and no connection is
open, as a call of `loadCache` that could not open its file leaves it. -/
def heldProc : Proc :=
  { lock := true, db := none, sqlDB := none, conns := [], fresh := 0,
    log := [.lock, .openDB false, .ret false] }

/-- An interleaving with capacity 2 in which the first two loaders overlap: both
goroutines are started, the second runs to its end, then the first, and the
other 29 loaders follow one after the other. -/
def overlapSchedule : List Actor :=
  [.coordinator, .coordinator, .coordinator, .coordinator, .coordinator, .coordinator,
   .goroutine 1, .goroutine 1, .goroutine 1, .goroutine 0, .goroutine 0, .goroutine 0]
    ++ (List.range 29).flatMap
        (fun i => [.coordinator, .coordinator, .coordinator, .goroutine (i + 2),
                   .goroutine (i + 2), .goroutine (i + 2)])
    ++ [.coordinator, .coordinator]

/-! ## Map lemmas -/

section MapLemmas

variable {K V : Type} [DecidableEq K]

theorem GoMap.set_same (m : GoMap K V) (k : K) (v : V) : m.set k v k = some v := by
  simp [GoMap.set]

theorem GoMap.set_other (m : GoMap K V) {k x : K} (v : V) (h : x ≠ k) : m.set k v x = m x := by
  simp [GoMap.set, h]

theorem GoMap.pushInit_eq_push (m : GoMap K (List V)) (k : K) (v : V) :
    m.pushInit k v = m.push k v := by
  unfold GoMap.pushInit GoMap.push
  by_cases h : m.has k = true
  · simp [h]
  · have hk : m k = none := by
      cases hm : m k with
      | none => rfl
      | some a => simp [GoMap.has, hm] at h
    funext x
    by_cases hx : x = k <;> simp [h, GoMap.get, GoMap.set, hk, hx]

theorem GoMap.push_same (m : GoMap K (List V)) (k : K) (v : V) :
    m.push k v k = some (m.get k ++ [v]) := by
  simp [GoMap.push, GoMap.set]

theorem GoMap.push_other (m : GoMap K (List V)) {k x : K} (v : V) (h : x ≠ k) :
    m.push k v x = m x := by
  simp [GoMap.push, GoMap.set, h]

end MapLemmas

/-! ## Folding rows into a point map or into a multi-map -/

section FoldLemmas

variable {R K V : Type} [DecidableEq K]

/-- A value found in a point map built by `m[f r] = g r` comes from the initial
map or from a row. -/
theorem pointFold_mem (f : R → K) (g : R → V) (rows : List R) (m0 : GoMap K V) (k : K) (v : V)
    (h : rows.foldl (fun m r => m.set (f r) (g r)) m0 k = some v) :
    m0 k = some v ∨ ∃ r ∈ rows, f r = k ∧ g r = v := by
  induction rows generalizing m0 with
  | nil => exact Or.inl h
  | cons a t ih =>
    rw [List.foldl_cons] at h
    rcases ih _ h with h1 | ⟨r, hr, hk, hv⟩
    · by_cases hka : k = f a
      · subst hka
        rw [GoMap.set_same] at h1
        exact Or.inr ⟨a, List.mem_cons_self _ _, rfl, Option.some.inj h1⟩
      · rw [GoMap.set_other _ _ hka] at h1
        exact Or.inl h1
    · exact Or.inr ⟨r, List.mem_cons_of_mem _ hr, hk, hv⟩

/-- Last writer wins: once a row has key `k`, the point map holds under `k` the
value of some row with key `k`. -/
theorem pointFold_hit (f : R → K) (g : R → V) (rows : List R) (m0 : GoMap K V) (k : K)
    (h : ∃ r ∈ rows, f r = k) :
    ∃ r ∈ rows, f r = k ∧ rows.foldl (fun m r => m.set (f r) (g r)) m0 k = some (g r) := by
  induction rows using List.reverseRecOn with
  | nil => simp at h
  | append_singleton t a ih =>
    rw [List.foldl_append, List.foldl_cons, List.foldl_nil]
    by_cases hka : k = f a
    · subst hka
      exact ⟨a, by simp, rfl, GoMap.set_same _ _ _⟩
    · rcases h with ⟨r, hr, hk⟩
      have hrt : r ∈ t := by
        rcases List.mem_append.mp hr with h1 | h1
        · exact h1
        · rw [List.mem_singleton] at h1
          subst h1
          exact absurd hk.symm hka
      rcases ih ⟨r, hrt, hk⟩ with ⟨r2, hr2, hk2, hv2⟩
      exact ⟨r2, List.mem_append_left _ hr2, hk2, by rw [GoMap.set_other _ _ hka]; exact hv2⟩

/-- The list a multi-map built by `m[f r] = append(m[f r], g r)` holds under `k`:
the values of the rows with key `k`, in row order, after what was there. -/
theorem pushFold_get (f : R → K) (g : R → V) (rows : List R) (m0 : GoMap K (List V)) (k : K) :
    (rows.foldl (fun m r => m.push (f r) (g r)) m0).get k
      = m0.get k ++ (rows.filter (fun r => f r = k)).map g := by
  induction rows generalizing m0 with
  | nil => simp
  | cons a t ih =>
    rw [List.foldl_cons, ih]
    by_cases hka : f a = k
    · subst hka
      simp [GoMap.get, GoMap.push_same]
    · have hne : k ≠ f a := fun h => hka h.symm
      simp [GoMap.get, GoMap.push_other _ _ hne, hka]

/-- The keys of a multi-map built by appending: those of the initial map and
those of the rows. -/
theorem pushFold_has (f : R → K) (g : R → V) (rows : List R) (m0 : GoMap K (List V)) (k : K) :
    (rows.foldl (fun m r => m.push (f r) (g r)) m0).has k
      = (m0.has k || rows.any (fun r => decide (f r = k))) := by
  induction rows generalizing m0 with
  | nil => simp
  | cons a t ih =>
    rw [List.foldl_cons, ih]
    by_cases hka : f a = k
    · subst hka
      simp [GoMap.has, GoMap.push_same]
    · have hne : k ≠ f a := fun h => hka h.symm
      simp [GoMap.has, GoMap.push_other _ _ hne, hka]

end FoldLemmas

/-! ## Projections of the loader loops -/

theorem loadPkgNames_fst (rows : List (NameID × String)) :
    (loadPkgNames rows).1 = rows.foldl (fun m r => m.set r.1 r.2) GoMap.empty := by
  unfold loadPkgNames
  generalize (GoMap.empty : GoMap NameID String) = a
  generalize (GoMap.empty : GoMap String NameID) = b
  induction rows generalizing a b with
  | nil => rfl
  | cons r t ih => simp only [List.foldl_cons]; exact ih _ _

theorem loadPkgNames_snd (rows : List (NameID × String)) :
    (loadPkgNames rows).2 = rows.foldl (fun m r => m.set r.2 r.1) GoMap.empty := by
  unfold loadPkgNames
  generalize (GoMap.empty : GoMap NameID String) = a
  generalize (GoMap.empty : GoMap String NameID) = b
  induction rows generalizing a b with
  | nil => rfl
  | cons r t ih => simp only [List.foldl_cons]; exact ih _ _

theorem loadArchs_fst (rows : List (ArchID × String)) :
    (loadArchs rows).1 = rows.foldl (fun m r => m.set r.1 r.2) GoMap.empty := by
  unfold loadArchs
  generalize (GoMap.empty : GoMap ArchID String) = a
  generalize (GoMap.empty : GoMap String ArchID) = b
  induction rows generalizing a b with
  | nil => rfl
  | cons r t ih => simp only [List.foldl_cons]; exact ih _ _

theorem loadArchs_snd (rows : List (ArchID × String)) :
    (loadArchs rows).2 = rows.foldl (fun m r => m.set r.2 r.1) GoMap.empty := by
  unfold loadArchs
  generalize (GoMap.empty : GoMap ArchID String) = a
  generalize (GoMap.empty : GoMap String ArchID) = b
  induction rows generalizing a b with
  | nil => rfl
  | cons r t ih => simp only [List.foldl_cons]; exact ih _ _

theorem loadEvrMaps_fst (rows : List (EvrID × Evr)) :
    (loadEvrMaps rows).1 = rows.foldl (fun m r => m.set r.1 r.2) GoMap.empty := by
  unfold loadEvrMaps
  generalize (GoMap.empty : GoMap EvrID Evr) = a
  generalize (GoMap.empty : GoMap Evr EvrID) = b
  induction rows generalizing a b with
  | nil => rfl
  | cons r t ih => simp only [List.foldl_cons]; exact ih _ _

theorem loadEvrMaps_snd (rows : List (EvrID × Evr)) :
    (loadEvrMaps rows).2 = rows.foldl (fun m r => m.set r.2 r.1) GoMap.empty := by
  unfold loadEvrMaps
  generalize (GoMap.empty : GoMap EvrID Evr) = a
  generalize (GoMap.empty : GoMap Evr EvrID) = b
  induction rows generalizing a b with
  | nil => rfl
  | cons r t ih => simp only [List.foldl_cons]; exact ih _ _

/-- A bidirectional loader loop: every forward pair is answered by the reverse
map when no value is shared by two ids. -/
theorem bidirectional_consistent {K V : Type} [DecidableEq K] [DecidableEq V]
    (rows : List (K × V))
    (hinj : ∀ r1 ∈ rows, ∀ r2 ∈ rows, r1.2 = r2.2 → r1.1 = r2.1) (k : K) (v : V)
    (h : rows.foldl (fun m r => m.set r.1 r.2) (GoMap.empty : GoMap K V) k = some v) :
    rows.foldl (fun m r => m.set r.2 r.1) (GoMap.empty : GoMap V K) v = some k := by
  rcases pointFold_mem (fun r : K × V => r.1) (fun r => r.2) rows _ k v h with h0 | ⟨r, hr, hk, hv⟩
  · simp [GoMap.empty] at h0
  · rcases pointFold_hit (fun r : K × V => r.2) (fun r => r.1) rows GoMap.empty v ⟨r, hr, hv⟩
      with ⟨r2, hr2, hv2, hres⟩
    rw [hres, hinj r2 hr2 r hr (hv2.trans hv.symm), hk]

theorem loadPkgDetails_details (rows : List (PkgID × PackageDetail)) :
    (loadPkgDetails rows).PackageDetails
      = rows.foldl (fun m r => m.set r.1 r.2) GoMap.empty := by
  unfold loadPkgDetails
  generalize (GoMap.empty : GoMap PkgID PackageDetail) = a
  generalize (GoMap.empty : GoMap Nevra PkgID) = b
  generalize (GoMap.empty : GoMap PkgID (List PkgID)) = c
  induction rows generalizing a b c with
  | nil => rfl
  | cons r t ih =>
    simp only [List.foldl_cons]
    cases hs : r.2.SrcPkgID with
    | none => simp only [loadPkgDetailsStep, hs]; exact ih _ _ _
    | some src => simp only [loadPkgDetailsStep, hs]; exact ih _ _ _

theorem loadPkgDetails_nevra (rows : List (PkgID × PackageDetail)) :
    (loadPkgDetails rows).Nevra2PkgID
      = rows.foldl (fun m r => m.set (⟨r.2.NameID, r.2.EvrID, r.2.ArchID⟩ : Nevra) r.1)
          GoMap.empty := by
  unfold loadPkgDetails
  generalize (GoMap.empty : GoMap PkgID PackageDetail) = a
  generalize (GoMap.empty : GoMap Nevra PkgID) = b
  generalize (GoMap.empty : GoMap PkgID (List PkgID)) = c
  induction rows generalizing a b c with
  | nil => rfl
  | cons r t ih =>
    simp only [List.foldl_cons]
    cases hs : r.2.SrcPkgID with
    | none => simp only [loadPkgDetailsStep, hs]; exact ih _ _ _
    | some src => simp only [loadPkgDetailsStep, hs]; exact ih _ _ _

/-! ## C1: package detail and NEVRA index -/

/-- C1 as stated fails: with the rows `dupNevraRows`, package id 1 is a key of
`PackageDetails` with NEVRA (1, 10, 5), but `Nevra2PkgID` answers 2 for that
NEVRA, not 1. -/
theorem loadPkgDetails_roundtrip_dup_nevra :
    (loadPkgDetails dupNevraRows).PackageDetails 1 = some ⟨1, 10, 5, 0, 0, none, none, 0⟩
    ∧ (loadPkgDetails dupNevraRows).Nevra2PkgID ⟨1, 10, 5⟩ = some 2
    ∧ (loadPkgDetails dupNevraRows).Nevra2PkgID ⟨1, 10, 5⟩ ≠ some 1 := by
  refine ⟨by decide, by decide, by decide⟩

/-- C1, amended: when no two rows with different package ids carry the same
(name id, EVR id, arch id), every package id `p` that is a key of
`PackageDetails` with detail `d` is what `Nevra2PkgID` returns for
`Nevra{d.NameID, d.EvrID, d.ArchID}`. -/
theorem loadPkgDetails_roundtrip (rows : List (PkgID × PackageDetail))
    (huniq : ∀ r1 ∈ rows, ∀ r2 ∈ rows,
      r1.2.NameID = r2.2.NameID → r1.2.EvrID = r2.2.EvrID → r1.2.ArchID = r2.2.ArchID →
      r1.1 = r2.1)
    (p : PkgID) (d : PackageDetail)
    (h : (loadPkgDetails rows).PackageDetails p = some d) :
    (loadPkgDetails rows).Nevra2PkgID ⟨d.NameID, d.EvrID, d.ArchID⟩ = some p := by
  rw [loadPkgDetails_details] at h
  rw [loadPkgDetails_nevra]
  rcases pointFold_mem (fun r : PkgID × PackageDetail => r.1) (fun r => r.2) rows _ p d h
    with h0 | ⟨r, hr, hk, hv⟩
  · simp [GoMap.empty] at h0
  · rcases pointFold_hit (fun r : PkgID × PackageDetail => (⟨r.2.NameID, r.2.EvrID, r.2.ArchID⟩ : Nevra))
        (fun r => r.1) rows GoMap.empty ⟨d.NameID, d.EvrID, d.ArchID⟩ ⟨r, hr, by simp only [hv]⟩
      with ⟨r2, hr2, hn2, hres⟩
    rw [hres]
    have e := Nevra.mk.inj hn2
    have := huniq r2 hr2 r hr (by rw [hv]; exact e.1) (by rw [hv]; exact e.2.1)
      (by rw [hv]; exact e.2.2)
    rw [this, hk]

/-- The amended C1 at two rows with different NEVRAs. -/
theorem loadPkgDetails_roundtrip_witness :
    (loadPkgDetails [(1, ⟨1, 10, 5, 0, 0, none, none, 0⟩), (2, ⟨1, 11, 5, 0, 0, some 1, none, 0⟩)]).Nevra2PkgID
      ⟨1, 11, 5⟩ = some 2 :=
  loadPkgDetails_roundtrip
    [(1, ⟨1, 10, 5, 0, 0, none, none, 0⟩), (2, ⟨1, 11, 5, 0, 0, some 1, none, 0⟩)]
    (by decide) 2 ⟨1, 11, 5, 0, 0, some 1, none, 0⟩ (by decide)

/-! ## C2: update lineage -/

/-- C2: for every sequence of `updates` rows and every name id `n`, `Updates[n]`
is exactly the package ids of the rows with `name_id = n`, in row order, `n` is
a key exactly when some row has it, and the rows `(1, pA), (1, pB)` give
`Updates[1] = [pA, pB]`. -/
theorem loadUpdates_row_order (rows : List (NameID × PkgID)) (n : NameID) (pA pB : PkgID) :
    (loadUpdates rows).get n = (rows.filter (fun r => r.1 = n)).map (fun r => r.2)
    ∧ (loadUpdates rows).has n = rows.any (fun r => decide (r.1 = n))
    ∧ (loadUpdates [(1, pA), (1, pB)]).get 1 = [pA, pB] := by
  have key : ∀ (l : List (NameID × PkgID)) (k : NameID),
      (loadUpdates l).get k = (l.filter (fun r => r.1 = k)).map (fun r => r.2) := by
    intro l k
    have := pushFold_get (fun r : NameID × PkgID => r.1) (fun r => r.2) l GoMap.empty k
    simpa [loadUpdates, GoMap.get, GoMap.empty] using this
  refine ⟨key rows n, ?_, ?_⟩
  · have := pushFold_has (fun r : NameID × PkgID => r.1) (fun r => r.2) rows GoMap.empty n
    simpa [loadUpdates, GoMap.has, GoMap.empty] using this
  · rw [key]; simp

/-! ## C3: bidirectional maps -/

/-- C3: for `loadPkgNames`, `loadArchs` and `loadEvrMaps`, when no value occurs
in two rows with different ids, every pair `(k, v)` of the forward map is
answered by the reverse map: looking up `v` returns `k`. -/
theorem bidirectional_loaders_consistent
    (names : List (NameID × String)) (archs : List (ArchID × String))
    (evrs : List (EvrID × Evr))
    (hn : ∀ r1 ∈ names, ∀ r2 ∈ names, r1.2 = r2.2 → r1.1 = r2.1)
    (ha : ∀ r1 ∈ archs, ∀ r2 ∈ archs, r1.2 = r2.2 → r1.1 = r2.1)
    (he : ∀ r1 ∈ evrs, ∀ r2 ∈ evrs, r1.2 = r2.2 → r1.1 = r2.1) :
    (∀ k v, (loadPkgNames names).1 k = some v → (loadPkgNames names).2 v = some k)
    ∧ (∀ k v, (loadArchs archs).1 k = some v → (loadArchs archs).2 v = some k)
    ∧ (∀ k v, (loadEvrMaps evrs).1 k = some v → (loadEvrMaps evrs).2 v = some k) := by
  refine ⟨?_, ?_, ?_⟩
  · intro k v h
    rw [loadPkgNames_fst] at h
    rw [loadPkgNames_snd]
    exact bidirectional_consistent names hn k v h
  · intro k v h
    rw [loadArchs_fst] at h
    rw [loadArchs_snd]
    exact bidirectional_consistent archs ha k v h
  · intro k v h
    rw [loadEvrMaps_fst] at h
    rw [loadEvrMaps_snd]
    exact bidirectional_consistent evrs he k v h

/-- C3 at a snapshot with two names, two architectures and two EVRs; the id 1
occurs twice in the name table, which the hypothesis allows. -/
theorem bidirectional_loaders_consistent_witness :
    (loadPkgNames [(1, "sh"), (1, "bash"), (2, "zsh")]).1 1 = some "bash"
    ∧ (loadPkgNames [(1, "sh"), (1, "bash"), (2, "zsh")]).2 "bash" = some 1
    ∧ (loadArchs [(5, "x86_64"), (6, "noarch")]).2 "noarch" = some 6
    ∧ (loadEvrMaps [(10, ⟨0, "5.1", "1.el8"⟩), (11, ⟨0, "5.2", "1.el8"⟩)]).2 ⟨0, "5.2", "1.el8"⟩
        = some 11 :=
  have h := bidirectional_loaders_consistent
    [(1, "sh"), (1, "bash"), (2, "zsh")] [(5, "x86_64"), (6, "noarch")]
    [(10, ⟨0, "5.1", "1.el8"⟩), (11, ⟨0, "5.2", "1.el8"⟩)]
    (by decide) (by decide) (by decide)
  ⟨by decide, h.1 1 "bash" (by decide), h.2.1 6 "noarch" (by decide),
    h.2.2 11 ⟨0, "5.2", "1.el8"⟩ (by decide)⟩

/-! ## C4: criteria dependencies -/

theorem depLookup_snoc_same (col : OvalCriteriaDep → Int) (t : List OvalCriteriaDep)
    (a : OvalCriteriaDep) :
    depLookup col (t ++ [a]) a.ParentCriteriaID
      = some ((depLookup col t a.ParentCriteriaID).getD []
          ++ (if col a ≠ 0 then [col a] else [])) := by
  unfold depLookup
  have hany : (t ++ [a]).any (fun r => decide (r.ParentCriteriaID = a.ParentCriteriaID)) = true := by
    simp
  rw [if_pos hany]
  by_cases ht : (t.any (fun r => decide (r.ParentCriteriaID = a.ParentCriteriaID))) = true
  · rw [if_pos ht]
    by_cases hc : col a = 0 <;> simp [List.filter_append, hc]
  · rw [if_neg ht]
    simp only [List.any_eq_true, decide_eq_true_eq, not_exists, not_and] at ht
    have hnil : List.filter (fun r => decide (r.ParentCriteriaID = a.ParentCriteriaID)) t = [] := by
      rw [List.filter_eq_nil_iff]
      intro r hr
      simpa using ht r hr
    by_cases hc : col a = 0 <;> simp [List.filter_append, hc, hnil]

theorem depLookup_snoc_other (col : OvalCriteriaDep → Int) (t : List OvalCriteriaDep)
    (a : OvalCriteriaDep) (p : CriteriaID) (h : p ≠ a.ParentCriteriaID) :
    depLookup col (t ++ [a]) p = depLookup col t p := by
  have h2 : ¬ a.ParentCriteriaID = p := fun e => h e.symm
  unfold depLookup
  simp [List.filter_append, h2]

theorem depLookup_has (col : OvalCriteriaDep → Int) (t : List OvalCriteriaDep) (p : CriteriaID) :
    (depLookup col t p).isSome = t.any (fun r => decide (r.ParentCriteriaID = p)) := by
  unfold depLookup
  by_cases ht : (t.any (fun r => decide (r.ParentCriteriaID = p))) = true
  · simp only [ht, if_true, Option.isSome_some]
  · simp only [ht]; simp

theorem loadOvalCriteriaDependency_eq (rows : List OvalCriteriaDep) :
    loadOvalCriteriaDependency rows
      = { DepCriteriaIDs := depLookup (fun r => r.DepCriteriaID) rows,
          DepTestIDs := depLookup (fun r => r.DepTestID) rows,
          DepModuleTestIDs := depLookup (fun r => r.DepModuleTestID) rows } := by
  induction rows using List.reverseRecOn with
  | nil => rfl
  | append_singleton t a ih =>
    have hfold : loadOvalCriteriaDependency (t ++ [a])
        = loadOvalCriteriaDependencyStep (loadOvalCriteriaDependency t) a := by
      simp [loadOvalCriteriaDependency, List.foldl_append]
    rw [hfold, ih]
    have hsome : ∀ (col : OvalCriteriaDep → Int) (q : CriteriaID),
        (depLookup col t q).isSome = (depLookup (fun r => r.DepCriteriaID) t q).isSome := by
      intro col q
      rw [depLookup_has, depLookup_has]
    have e1 := hsome (fun r => r.DepTestID) a.ParentCriteriaID
    have e2 := hsome (fun r => r.DepModuleTestID) a.ParentCriteriaID
    have hext : ∀ (x y : CriteriaDepMaps), x.DepCriteriaIDs = y.DepCriteriaIDs →
        x.DepTestIDs = y.DepTestIDs → x.DepModuleTestIDs = y.DepModuleTestIDs → x = y := by
      intro x y h1 h2 h3
      cases x; cases y
      simp only at h1 h2 h3
      rw [h1, h2, h3]
    have hs0 := depLookup_snoc_same (fun r => r.DepCriteriaID) t a
    have hs1 := depLookup_snoc_same (fun r => r.DepTestID) t a
    have hs2 := depLookup_snoc_same (fun r => r.DepModuleTestID) t a
    have ho : ∀ (col : OvalCriteriaDep → Int) (q : CriteriaID), q ≠ a.ParentCriteriaID →
        depLookup col (t ++ [a]) q = depLookup col t q :=
      fun col q hq => depLookup_snoc_other col t a q hq
    cases h0 : depLookup (fun r => r.DepCriteriaID) t a.ParentCriteriaID <;>
    cases h1 : depLookup (fun r => r.DepTestID) t a.ParentCriteriaID <;>
    cases h2 : depLookup (fun r => r.DepModuleTestID) t a.ParentCriteriaID <;>
    simp only [h0, h1, h2, Option.isSome_some, Option.isSome_none] at e1 e2 <;>
    first
      | exact absurd e1 (by decide)
      | exact absurd e2 (by decide)
      | (by_cases c0 : a.DepCriteriaID = 0 <;> by_cases c1 : a.DepTestID = 0 <;>
          by_cases c2 : a.DepModuleTestID = 0 <;>
          simp only [loadOvalCriteriaDependencyStep, GoMap.has, h0, c0, c1, c2,
            Option.isSome_some, Option.isSome_none, ne_eq, not_true_eq_false, not_false_eq_true,
            if_true, if_false, Bool.false_eq_true] <;>
          apply hext <;> funext q <;>
          (by_cases hq : q = a.ParentCriteriaID
           · subst hq
             simp [GoMap.push, GoMap.set, GoMap.get, h0, h1, h2, hs0, hs1, hs2, c0, c1, c2]
           · simp [GoMap.push, GoMap.set, GoMap.get, ho _ q hq, hq]))

/-- C4: for every list of `oval_criteria_dependency` rows and every parent `p`,
the list under `p` in each of the three maps is exactly the non-zero
`dep_criteria` (resp. `dep_test`, `dep_module_test`) values of the rows with
parent `p`, in row order; `p` is a key of each map exactly when some row has
parent `p`; 0 is an element of no list; and the single row `(7, 0, 42, 0)` gives
`OvalCriteriaID2DepTestIDs[7] = [42]` with empty criteria and module-test lists. -/
theorem loadOvalCriteriaDependency_lists (rows : List OvalCriteriaDep) (p : CriteriaID) :
    ((loadOvalCriteriaDependency rows).DepCriteriaIDs.get p
        = ((rows.filter (fun r => r.ParentCriteriaID = p)).map
            (fun r => r.DepCriteriaID)).filter (fun x => x ≠ 0)
      ∧ (loadOvalCriteriaDependency rows).DepTestIDs.get p
        = ((rows.filter (fun r => r.ParentCriteriaID = p)).map
            (fun r => r.DepTestID)).filter (fun x => x ≠ 0)
      ∧ (loadOvalCriteriaDependency rows).DepModuleTestIDs.get p
        = ((rows.filter (fun r => r.ParentCriteriaID = p)).map
            (fun r => r.DepModuleTestID)).filter (fun x => x ≠ 0))
    ∧ ((loadOvalCriteriaDependency rows).DepCriteriaIDs.has p
        = rows.any (fun r => decide (r.ParentCriteriaID = p))
      ∧ (loadOvalCriteriaDependency rows).DepTestIDs.has p
        = rows.any (fun r => decide (r.ParentCriteriaID = p))
      ∧ (loadOvalCriteriaDependency rows).DepModuleTestIDs.has p
        = rows.any (fun r => decide (r.ParentCriteriaID = p)))
    ∧ ((0 : Int) ∉ (loadOvalCriteriaDependency rows).DepCriteriaIDs.get p
      ∧ (0 : Int) ∉ (loadOvalCriteriaDependency rows).DepTestIDs.get p
      ∧ (0 : Int) ∉ (loadOvalCriteriaDependency rows).DepModuleTestIDs.get p)
    ∧ ((loadOvalCriteriaDependency [⟨7, 0, 42, 0⟩]).DepTestIDs 7 = some [42]
      ∧ (loadOvalCriteriaDependency [⟨7, 0, 42, 0⟩]).DepCriteriaIDs 7 = some []
      ∧ (loadOvalCriteriaDependency [⟨7, 0, 42, 0⟩]).DepModuleTestIDs 7 = some []) := by
  have hget : ∀ (col : OvalCriteriaDep → Int),
      GoMap.get (depLookup col rows) p
        = ((rows.filter (fun r => r.ParentCriteriaID = p)).map col).filter (fun x => x ≠ 0) := by
    intro col
    unfold GoMap.get depLookup
    by_cases ht : (rows.any (fun r => decide (r.ParentCriteriaID = p))) = true
    · simp only [ht, if_true, Option.getD_some]
    · simp only [ht]
      simp only [List.any_eq_true, decide_eq_true_eq, not_exists, not_and] at ht
      have hnil : List.filter (fun r => decide (r.ParentCriteriaID = p)) rows = [] := by
        rw [List.filter_eq_nil_iff]
        intro r hr
        simpa using ht r hr
      simp [hnil]
  have hzero : ∀ (col : OvalCriteriaDep → Int), (0 : Int) ∉ GoMap.get (depLookup col rows) p := by
    intro col
    rw [hget]
    simp
  rw [loadOvalCriteriaDependency_eq rows]
  refine ⟨⟨hget _, hget _, hget _⟩, ⟨?_, ?_, ?_⟩, ⟨hzero _, hzero _, hzero _⟩, ?_⟩
  · exact depLookup_has _ rows p
  · exact depLookup_has _ rows p
  · exact depLookup_has _ rows p
  · refine ⟨by decide, by decide, by decide⟩

/-! ## C5: the singleton loader on an empty table -/

/-- C5, evaluated: on a `dbchange` table with zero rows `loadDBChanges` indexes
the empty slice `arr` at 0 and panics with `index out of range [0] with length
0`; there is no explicit empty-table error.  With one row it returns that row. -/
theorem loadDBChanges_empty_table :
    loadDBChanges [] = Except.error (Fault.indexOutOfRange 0 0)
    ∧ loadDBChanges [⟨"e", "c", "r", "l", "x"⟩] = Except.ok ⟨"e", "c", "r", "l", "x"⟩ :=
  ⟨rfl, rfl⟩

/-! ## C6: a repository URL that does not parse -/

theorem loadRepoDetailsStep_error (parse : String → Option URL) (st : RepoMaps)
    (r : RepoID × RepoDetail) (e : Fault) (h : loadRepoDetailsStep parse st r = .error e) :
    e = .nilDereference := by
  unfold loadRepoDetailsStep at h
  by_cases hu : r.2.URL.utf8ByteSize > 0
  · cases hp : parse r.2.URL with
    | none =>
      simp only [hu, hp, if_true] at h
      exact (Except.error.inj h).symm
    | some u => simp [hu, hp] at h
  · simp [hu] at h

theorem loadRepoDetailsStep_bad_url (parse : String → Option URL) (st : RepoMaps)
    (r : RepoID × RepoDetail) (hu : r.2.URL.utf8ByteSize > 0) (hp : parse r.2.URL = none) :
    loadRepoDetailsStep parse st r = .error .nilDereference := by
  unfold loadRepoDetailsStep
  simp only [hu, hp, if_true]

theorem foldlM_loadRepoDetailsStep_bad_url (parse : String → Option URL)
    (rows : List (RepoID × RepoDetail)) (r : RepoID × RepoDetail) (hr : r ∈ rows)
    (hu : r.2.URL.utf8ByteSize > 0) (hp : parse r.2.URL = none) (st : RepoMaps) :
    rows.foldlM (loadRepoDetailsStep parse) st = .error .nilDereference := by
  induction rows generalizing st with
  | nil => simp at hr
  | cons a t ih =>
    rw [List.foldlM_cons]
    cases hs : loadRepoDetailsStep parse st a with
    | error e =>
      rw [loadRepoDetailsStep_error parse st a e hs]
      rfl
    | ok st1 =>
      rcases List.mem_cons.mp hr with h1 | h1
      · subst h1
        rw [loadRepoDetailsStep_bad_url parse st r hu hp] at hs
        cases hs
      · exact ih h1 st1

/-- C6, on the code: whenever `url.Parse` returns an error for the non-empty URL
of some row, `loadRepoDetails` does not complete; it panics with a nil
dereference at `parsedURL.Path`, so none of its five indices is produced. -/
theorem loadRepoDetails_malformed_url_panics (parse : String → Option URL)
    (rows : List (RepoID × RepoDetail)) (r : RepoID × RepoDetail) (hr : r ∈ rows)
    (hu : r.2.URL.utf8ByteSize > 0) (hp : parse r.2.URL = none) :
    loadRepoDetails parse rows = .error .nilDereference :=
  foldlM_loadRepoDetailsStep_bad_url parse rows r hr hu hp _

/-- C6 at two rows, the second with the URL ":cdn" that does not parse. -/
theorem loadRepoDetails_malformed_url_panics_witness :
    loadRepoDetails parseStub
      [(1, ⟨"rhel-8", "RHEL 8", "/content/rhel8/", "x86_64", "8", "RHEL", 7, none, false⟩),
       (2, ⟨"bad", "Bad", ":cdn", "", "", "RHEL", 7, none, false⟩)]
      = .error .nilDereference :=
  loadRepoDetails_malformed_url_panics parseStub _
    (2, ⟨"bad", "Bad", ":cdn", "", "", "RHEL", 7, none, false⟩) (by simp) (by decide) (by decide)

/-! ## C7 and C8: lock and connection in `loadCache` -/

/-- C7, evaluated: when `openDB` fails, `loadCache` returns `(nil, err)` with the
mutex still held (`lock := true` in the state it returns in), and a following
call of `loadCache` from that state never returns. -/
theorem loadCache_open_failure_keeps_lock :
    loadCache noFileEnv "missing.db" Proc.init
      = .returned
          { lock := true, db := none, sqlDB := none, conns := [], fresh := 0,
            log := [.lock, .openDB false, .ret false] }
          (.error "couldn't open sqlite")
    ∧ loadCache noFileEnv "missing.db"
        { lock := true, db := none, sqlDB := none, conns := [], fresh := 0,
          log := [.lock, .openDB false, .ret false] }
      = .blocked
          { lock := true, db := none, sqlDB := none, conns := [], fresh := 0,
            log := [.lock, .openDB false, .ret false] } :=
  ⟨rfl, rfl⟩

/-- On every path on which `openDB` fails the mutex is held on return, whatever
the environment, and when it was `db.DB()` that failed the connection `gorm.Open`
made stays open. -/
theorem loadCache_open_failure (env : Env) (path : String) (w : Proc) (hfree : w.lock = false)
    (hfail : ∀ s, env.sqlite path ≠ .opened s) :
    ∃ w1 e, loadCache env path w = .returned w1 (.error e) ∧ w1.lock = true
      ∧ (env.sqlite path = .dbError → w.fresh ∈ w1.conns) := by
  unfold loadCache loadCacheBody lockLock
  simp only [hfree, Bool.false_eq_true, if_false]
  unfold openDB
  cases hs : env.sqlite path with
  | opened s => exact absurd hs (hfail s)
  | openError => exact ⟨_, _, rfl, rfl, fun h => by cases h⟩
  | dbError => exact ⟨_, _, rfl, rfl, fun _ => by simp [Proc.emit]⟩

/-- C8, on the code: in every run of `loadCache` that returns a cache the
coordinator steps are, in this order: lock, open, start of every loader, join,
unlock, close, return.  The mutex is released before the connection is closed,
not after. -/
theorem loadCache_success_order (env : Env) (path : String) (w w1 : Proc) (c : Cache)
    (h : loadCache env path w = .returned w1 (.ok c)) :
    w1.log = w.log ++ [.lock, .openDB true] ++ loadFuncs.map Event.go
      ++ [.wait, .unlock, .closeDB, .ret true]
    ∧ w1.lock = false ∧ w1.sqlDB = none := by
  unfold loadCache loadCacheBody lockLock at h
  cases hl : w.lock with
  | true => simp [hl] at h
  | false =>
    simp only [hl, Bool.false_eq_true, if_false] at h
    unfold openDB at h
    cases hs : env.sqlite path with
    | openError => simp [hs] at h
    | dbError => simp [hs] at h
    | opened s =>
      simp only [hs] at h
      cases hj : spawnAndWait env s with
      | makePanic => simp [hj, closeDB, Proc.emit] at h
      | stuck => simp [hj] at h
      | loaderPanic f => simp [hj] at h
      | done c1 =>
        simp only [hj, closeDB, lockUnlock, Proc.emit] at h
        injection h with hw hc
        subst hw
        simp

/-- C8 at a run that succeeds: from a fresh process `loadCache` returns a cache
and its log ends with unlock, close, return. -/
theorem loadCache_success_order_witness :
    ∃ w1 c, loadCache sampleEnv "vmaas.db" Proc.init = .returned w1 (.ok c)
      ∧ w1.log = [.lock, .openDB true] ++ loadFuncs.map Event.go
          ++ [.wait, .unlock, .closeDB, .ret true] :=
  ⟨_, _, rfl, (loadCache_success_order sampleEnv "vmaas.db" Proc.init _ _ rfl).1⟩

/-- What the order of C8 allows: call A has released the mutex and its deferred
`closeDB()` is still to run; call B takes the mutex and opens its own
connection, number 1; A's `closeDB()` then closes connection 1, the one
`sqlDB` points to, leaves A's connection 0 open and clears the handles B's
loaders read from. -/
theorem closeDB_after_unlock_closes_other_connection :
    ∃ wA cA wB0 wB sB wC,
      loadCacheBody sampleEnv "a.db" Proc.init = .ok (wA, cA)
      ∧ wA.lock = false ∧ wA.conns = [0]
      ∧ lockLock wA = some wB0
      ∧ openDB sampleEnv "b.db" wB0 = (wB, .ok sB)
      ∧ wB.sqlDB = some 1 ∧ wB.conns = [0, 1]
      ∧ closeDB wB = .ok wC
      ∧ wC.conns = [0] ∧ wC.sqlDB = none ∧ wC.lock = true :=
  ⟨_, _, _, _, _, _, rfl, rfl, rfl, rfl, rfl, rfl, rfl, rfl, rfl, rfl, rfl⟩

/-! ## C9: field ownership and order independence -/

theorem CacheField.same_refl (f : CacheField) (c : Cache) : f.same c c := by
  cases f <;> rfl

theorem CacheField.same_symm (f : CacheField) {c d : Cache} (h : f.same c d) : f.same d c := by
  cases f <;> exact Eq.symm h

theorem CacheField.same_trans (f : CacheField) {c d e : Cache} (h1 : f.same c d)
    (h2 : f.same d e) : f.same c e := by
  cases f <;> exact Eq.trans h1 h2

/-- Two caches that agree on every field are equal. -/
theorem Cache.eq_of_same {c d : Cache} (h : ∀ f : CacheField, f.same c d) : c = d := by
  cases c
  cases d
  rw [Cache.mk.injEq]
  exact ⟨h CacheField.ErrataID2RepoIDs,
      h CacheField.PkgID2ErrataIDs,
      h CacheField.PkgID2RepoIDs,
      h CacheField.ID2Packagename,
      h CacheField.Packagename2ID,
      h CacheField.Updates,
      h CacheField.UpdatesIndex,
      h CacheField.ID2Evr,
      h CacheField.Evr2ID,
      h CacheField.ID2Arch,
      h CacheField.Arch2ID,
      h CacheField.ArchCompat,
      h CacheField.PackageDetails,
      h CacheField.Nevra2PkgID,
      h CacheField.SrcPkgID2PkgID,
      h CacheField.RepoIDs,
      h CacheField.RepoDetails,
      h CacheField.RepoLabel2IDs,
      h CacheField.RepoPath2IDs,
      h CacheField.ProductID2RepoIDs,
      h CacheField.Label2ContentSetID,
      h CacheField.ErrataDetail,
      h CacheField.ErrataID2Name,
      h CacheField.CveDetail,
      h CacheField.CveNames,
      h CacheField.PkgErrata2Module,
      h CacheField.Module2IDs,
      h CacheField.ModuleRequires,
      h CacheField.DBChange,
      h CacheField.OvaldefinitionDetail,
      h CacheField.OvaldefinitionID2Cves,
      h CacheField.PackagenameID2definitionIDs,
      h CacheField.RepoID2CpeIDs,
      h CacheField.ContentSetID2CpeIDs,
      h CacheField.CpeID2OvalDefinitionIDs,
      h CacheField.OvalCriteriaID2DepCriteriaIDs,
      h CacheField.OvalCriteriaID2DepTestIDs,
      h CacheField.OvalCriteriaID2DepModuleTestIDs,
      h CacheField.OvalCriteriaID2Type,
      h CacheField.OvalStateID2Arches,
      h CacheField.OvalModuleTestDetail,
      h CacheField.OvalTestDetail,
      h CacheField.OvalTestID2States,
      h CacheField.String⟩

/-- Frame: a loader that returns leaves every field it does not assign as it
was. -/
theorem LoadFunc.call_frame (parse : String → Option URL) (s : Snapshot) (a : LoadFunc)
    (f : CacheField) (hf : f ∉ a.assigns) (c c1 : Cache) (h : a.call parse s c = .ok c1) :
    f.same c1 c := by
  cases a <;> simp only [LoadFunc.call] at h <;>
    first
      | (injection h with h
         subst h
         cases f <;> first | rfl | exact absurd (by decide) hf)
      | (split at h
         · cases h
         · injection h with h
           subst h
           cases f <;> first | rfl | exact absurd (by decide) hf)

/-- The value a loader assigns to one of its fields does not depend on the cache
it is called on. -/
theorem LoadFunc.call_const (parse : String → Option URL) (s : Snapshot) (a : LoadFunc)
    (f : CacheField) (hf : f ∈ a.assigns) (c d c1 d1 : Cache)
    (h : a.call parse s c = .ok c1) (h2 : a.call parse s d = .ok d1) : f.same c1 d1 := by
  cases a <;> simp only [LoadFunc.call] at h h2 <;>
    first
      | (injection h with h
         injection h2 with h2
         subst h
         subst h2
         cases f <;> first | rfl | exact absurd hf (by decide))
      | (split at h
         · cases h
         · rename_i r hr
           rw [hr] at h2
           injection h with h
           injection h2 with h2
           subst h
           subst h2
           cases f <;> first | rfl | exact absurd hf (by decide))

/-- Whether a loader panics does not depend on the cache it is called on. -/
theorem LoadFunc.call_ok_iff (parse : String → Option URL) (s : Snapshot) (a : LoadFunc)
    (c d : Cache) (c1 : Cache) (h : a.call parse s c = .ok c1) :
    ∃ d1, a.call parse s d = .ok d1 := by
  cases a <;> simp only [LoadFunc.call] at h ⊢ <;>
    first
      | exact ⟨_, rfl⟩
      | (split at h
         · cases h
         · exact ⟨_, rfl⟩)

theorem LoadFunc.assigns_owner (a : LoadFunc) (f : CacheField) (hf : f ∈ a.assigns) :
    f.owner = a := by
  cases a <;> cases f <;> first | rfl | exact absurd hf (by decide)

/-- No field is assigned by two loaders. -/
theorem LoadFunc.assigns_disjoint (a b : LoadFunc) (hab : a ≠ b) (f : CacheField)
    (hf : f ∈ a.assigns) : f ∉ b.assigns := by
  intro hb
  exact hab ((LoadFunc.assigns_owner a f hf).symm.trans (LoadFunc.assigns_owner b f hb))

theorem foldl_optStep_none (parse : String → Option URL) (s : Snapshot) (l : List LoadFunc) :
    l.foldl (optStep parse s) none = none := by
  induction l with
  | nil => rfl
  | cons a t ih => simpa [List.foldl_cons, optStep] using ih

theorem runLoaders_ok_iff (parse : String → Option URL) (s : Snapshot) (l : List LoadFunc)
    (c r : Cache) :
    runLoaders parse s l c = .ok r ↔ l.foldl (optStep parse s) (some c) = some r := by
  induction l generalizing c with
  | nil =>
    simp only [runLoaders, List.foldlM_nil, List.foldl_nil, Option.some.injEq]
    constructor
    · intro h; injection h
    · intro h; rw [h]; rfl
  | cons a t ih =>
    unfold runLoaders at ih ⊢
    rw [List.foldlM_cons, List.foldl_cons]
    cases h : a.call parse s c with
    | error e =>
      simp only [optStep, h, foldl_optStep_none]
      constructor
      · intro h2; cases h2
      · intro h2; cases h2
    | ok c1 =>
      simp only [optStep, h]
      exact ih c1

/-- Two loader calls commute, panics included. -/
theorem optStep_comm (parse : String → Option URL) (s : Snapshot) (x y : LoadFunc)
    (z : Option Cache) :
    optStep parse s (optStep parse s z x) y = optStep parse s (optStep parse s z y) x := by
  by_cases hxy : x = y
  · rw [hxy]
  cases z with
  | none => rfl
  | some c =>
    cases hx : x.call parse s c with
    | error e =>
      cases hy : y.call parse s c with
      | error e2 => simp [optStep, hx, hy]
      | ok c2 =>
        cases hx2 : x.call parse s c2 with
        | error e3 => simp [optStep, hx, hy, hx2]
        | ok c21 =>
          obtain ⟨d, hd⟩ := LoadFunc.call_ok_iff parse s x c2 c c21 hx2
          rw [hx] at hd
          cases hd
    | ok c1 =>
      cases hy : y.call parse s c with
      | error e2 =>
        cases hy1 : y.call parse s c1 with
        | error e3 => simp [optStep, hx, hy, hy1]
        | ok c12 =>
          obtain ⟨d, hd⟩ := LoadFunc.call_ok_iff parse s y c1 c c12 hy1
          rw [hy] at hd
          cases hd
      | ok c2 =>
        obtain ⟨c12, hy1⟩ := LoadFunc.call_ok_iff parse s y c c1 c2 hy
        obtain ⟨c21, hx2⟩ := LoadFunc.call_ok_iff parse s x c c2 c1 hx
        simp only [optStep, hx, hy, hy1, hx2, Option.some.injEq]
        apply Cache.eq_of_same
        intro f
        by_cases fx : f ∈ x.assigns
        · have fy : f ∉ y.assigns := LoadFunc.assigns_disjoint x y hxy f fx
          exact CacheField.same_trans f (LoadFunc.call_frame parse s y f fy c1 c12 hy1)
            (LoadFunc.call_const parse s x f fx c c2 c1 c21 hx hx2)
        · by_cases fy : f ∈ y.assigns
          · exact CacheField.same_trans f
              (LoadFunc.call_const parse s y f fy c1 c c12 c2 hy1 hy)
              (CacheField.same_symm f (LoadFunc.call_frame parse s x f fx c2 c21 hx2))
          · have h1 := LoadFunc.call_frame parse s y f fy c1 c12 hy1
            have h2 := LoadFunc.call_frame parse s x f fx c c1 hx
            have h3 := LoadFunc.call_frame parse s x f fx c2 c21 hx2
            have h4 := LoadFunc.call_frame parse s y f fy c c2 hy
            exact CacheField.same_trans f (CacheField.same_trans f h1 h2)
              (CacheField.same_symm f (CacheField.same_trans f h3 h4))

/-- C9: the loaders of `loadFuncs` are pairwise different; two different
loaders assign no field in common; a loader changes no field outside the ones
it assigns; and running the loaders one after the other from the zero cache,
over the same snapshot, in the order of any permutation of `loadFuncs`, yields a
cache exactly when the source order does, and then the same one. -/
theorem loaders_disjoint_order_independent (parse : String → Option URL) (s : Snapshot) :
    loadFuncs.Nodup
    ∧ (∀ a b : LoadFunc, a ≠ b → ∀ f : CacheField, f ∈ a.assigns → f ∉ b.assigns)
    ∧ (∀ (a : LoadFunc) (f : CacheField), f ∉ a.assigns →
        ∀ c c1 : Cache, a.call parse s c = .ok c1 → f.same c1 c)
    ∧ (∀ l : List LoadFunc, l.Perm loadFuncs →
        ∀ r : Cache, runLoaders parse s l Cache.zero = .ok r
          ↔ runLoaders parse s loadFuncs Cache.zero = .ok r) := by
  refine ⟨by decide, LoadFunc.assigns_disjoint, LoadFunc.call_frame parse s, ?_⟩
  intro l hl r
  rw [runLoaders_ok_iff, runLoaders_ok_iff]
  rw [List.Perm.foldl_eq' hl (fun x _ y _ z => optStep_comm parse s x y z) (some Cache.zero)]

/-- C9 at `sampleSnapshot`: the loaders in reverse source order give a cache,
the same one as the source order, with `Updates[1] = [100, 101]`. -/
theorem loaders_disjoint_order_independent_witness :
    ∃ r : Cache, runLoaders parseStub sampleSnapshot loadFuncs.reverse Cache.zero = .ok r
      ∧ runLoaders parseStub sampleSnapshot loadFuncs Cache.zero = .ok r
      ∧ r.Updates 1 = some [100, 101] :=
  ⟨_, rfl,
    ((loaders_disjoint_order_independent parseStub sampleSnapshot).2.2.2 loadFuncs.reverse
      (List.reverse_perm loadFuncs) _).mp rfl,
    by decide⟩

/-! ## C10: erratum aggregation -/

theorem pushInitFold_get {R K V : Type} [DecidableEq K] (f : R → K) (g : R → V) (rows : List R)
    (k : K) :
    GoMap.get (rows.foldl (fun m r => GoMap.pushInit m (f r) (g r)) GoMap.empty) k
      = (rows.filter (fun r => f r = k)).map g := by
  have e : (fun (m : GoMap K (List V)) (r : R) => GoMap.pushInit m (f r) (g r))
      = (fun m r => GoMap.push m (f r) (g r)) := by
    funext m r
    exact GoMap.pushInit_eq_push m (f r) (g r)
  rw [e, pushFold_get]
  simp [GoMap.get, GoMap.empty]

theorem loadErrata_fst (errata_cve : List (Int × String)) (pkg_errata : List (Int × Int))
    (errata_modulepkg : List (Int × Int)) (errata_bugzilla : List (Int × String))
    (errata_refs : List (Int × String)) (errata_module : List ErrataModuleRow)
    (errata_detail : List ErrataRow) :
    (loadErrata errata_cve pkg_errata errata_modulepkg errata_bugzilla errata_refs errata_module
        errata_detail).1
      = errata_detail.foldl
          (fun m r => m.set r.Name
            (errataDet
              { erID2cves := loadInt2Strings errata_cve,
                erID2pkgIDs := loadInt2Ints pkg_errata,
                erID2modulePkgIDs := loadInt2Ints errata_modulepkg,
                erID2bzs := loadInt2Strings errata_bugzilla,
                erID2refs := loadInt2Strings errata_refs,
                erID2modules := loadErrataModules errata_module } r))
          GoMap.empty := by
  unfold loadErrata
  simp only
  generalize (GoMap.empty : GoMap String ErrataDetail) = a
  generalize (GoMap.empty : GoMap ErrataID String) = b
  induction errata_detail generalizing a b with
  | nil => rfl
  | cons r t ih => simp only [List.foldl_cons]; exact ih _ _

/-- The fields of the record one iteration of `loadErrata` builds. -/
theorem errataDet_fields (ch : ErrataChildren) (r : ErrataRow) :
    (errataDet ch r).ID = r.ID
    ∧ (errataDet ch r).CVEs = GoMap.get ch.erID2cves r.ID
    ∧ (errataDet ch r).PkgIDs = GoMap.get ch.erID2pkgIDs r.ID
    ∧ (errataDet ch r).ModulePkgIDs = GoMap.get ch.erID2modulePkgIDs r.ID
    ∧ (errataDet ch r).Bugzillas = GoMap.get ch.erID2bzs r.ID
    ∧ (errataDet ch r).Refs = GoMap.get ch.erID2refs r.ID
    ∧ (errataDet ch r).Modules = GoMap.get ch.erID2modules r.ID := by
  unfold errataDet GoMap.get
  cases ch.erID2cves r.ID <;> cases ch.erID2pkgIDs r.ID <;> cases ch.erID2modulePkgIDs r.ID <;>
    cases ch.erID2bzs r.ID <;> cases ch.erID2refs r.ID <;> cases ch.erID2modules r.ID <;>
    exact ⟨rfl, rfl, rfl, rfl, rfl, rfl, rfl⟩

/-- C10 as stated fails: with the rows `dupNameErrata` and the single
`errata_cve` row `(2, "CVE-2024-1")`, the erratum row with id 1 and name
"RHSA-1" has no CVE row, yet the entry `ErrataDetail["RHSA-1"]` has id 2 and the
CVE list `["CVE-2024-1"]`, not the empty list. -/
theorem loadErrata_duplicate_name :
    (⟨1, "RHSA-1", "s", none, "security", none, none, none, none, none, "", false, false⟩
        : ErrataRow) ∈ dupNameErrata
    ∧ ([((2 : Int), "CVE-2024-1")].filter (fun x => x.1 = 1)).map (fun x => x.2) = []
    ∧ ((loadErrata [(2, "CVE-2024-1")] [] [] [] [] [] dupNameErrata).1 "RHSA-1").map
        (fun d => (d.ID, d.CVEs)) = some (2, ["CVE-2024-1"]) := by
  refine ⟨by decide, by decide, by decide⟩

/-- C10, amended: for every snapshot and every `errata_detail` row `r` with id
`e` and name `n` such that every row named `n` has the id `e`, `loadErrata`
returns and `ErrataDetail[n]` is an entry with id `e` whose six child fields are
exactly the values of the rows of the child relation with key `e`, in row
order; a child relation without a row for `e` gives the empty list. -/
theorem loadErrata_children (parse : String → Option URL) (s : Snapshot) (c : Cache)
    (r : ErrataRow) (hr : r ∈ s.errata_detail)
    (hname : ∀ r2 ∈ s.errata_detail, r2.Name = r.Name → r2.ID = r.ID) :
    ∃ c1 d, LoadFunc.call parse s .loadErrata c = .ok c1
      ∧ c1.ErrataDetail r.Name = some d
      ∧ d.ID = r.ID
      ∧ d.CVEs = (s.errata_cve_by_errata.filter (fun x => x.1 = r.ID)).map (fun x => x.2)
      ∧ d.PkgIDs = (s.pkg_errata_by_errata.filter (fun x => x.1 = r.ID)).map (fun x => x.2)
      ∧ d.ModulePkgIDs
          = (s.errata_modulepkg_by_errata.filter (fun x => x.1 = r.ID)).map (fun x => x.2)
      ∧ d.Bugzillas = (s.errata_bugzilla.filter (fun x => x.1 = r.ID)).map (fun x => x.2)
      ∧ d.Refs = (s.errata_refs.filter (fun x => x.1 = r.ID)).map (fun x => x.2)
      ∧ d.Modules
          = (s.errata_module.filter (fun x => x.ErrataID = r.ID)).map
              (fun x => { Name := x.Name, StreamID := x.StreamID, Stream := x.Stream,
                          Version := x.Version, Context := x.Context, PackageList := [],
                          SourcePackageList := [] }) := by
  obtain ⟨r2, hr2, hn2, hres⟩ := pointFold_hit (fun x : ErrataRow => x.Name)
    (fun x => errataDet
      { erID2cves := loadInt2Strings s.errata_cve_by_errata,
        erID2pkgIDs := loadInt2Ints s.pkg_errata_by_errata,
        erID2modulePkgIDs := loadInt2Ints s.errata_modulepkg_by_errata,
        erID2bzs := loadInt2Strings s.errata_bugzilla,
        erID2refs := loadInt2Strings s.errata_refs,
        erID2modules := loadErrataModules s.errata_module } x)
    s.errata_detail GoMap.empty r.Name ⟨r, hr, rfl⟩
  have hid : r2.ID = r.ID := hname r2 hr2 hn2
  have hf := errataDet_fields
    { erID2cves := loadInt2Strings s.errata_cve_by_errata,
      erID2pkgIDs := loadInt2Ints s.pkg_errata_by_errata,
      erID2modulePkgIDs := loadInt2Ints s.errata_modulepkg_by_errata,
      erID2bzs := loadInt2Strings s.errata_bugzilla,
      erID2refs := loadInt2Strings s.errata_refs,
      erID2modules := loadErrataModules s.errata_module } r2
  rw [hid] at hf
  obtain ⟨h0, h1, h2, h3, h4, h5, h6⟩ := hf
  refine ⟨_, _, rfl, ?_, h0, ?_, ?_, ?_, ?_, ?_, ?_⟩
  · show (loadErrata s.errata_cve_by_errata s.pkg_errata_by_errata s.errata_modulepkg_by_errata
      s.errata_bugzilla s.errata_refs s.errata_module s.errata_detail).1 r.Name = some _
    rw [loadErrata_fst]
    exact hres
  · rw [h1]
    exact pushInitFold_get (fun x : Int × String => x.1) (fun x => x.2) _ r.ID
  · rw [h2]
    exact pushInitFold_get (fun x : Int × Int => x.1) (fun x => x.2) _ r.ID
  · rw [h3]
    exact pushInitFold_get (fun x : Int × Int => x.1) (fun x => x.2) _ r.ID
  · rw [h4]
    exact pushInitFold_get (fun x : Int × String => x.1) (fun x => x.2) _ r.ID
  · rw [h5]
    exact pushInitFold_get (fun x : Int × String => x.1) (fun x => x.2) _ r.ID
  · rw [h6]
    exact pushInitFold_get (fun x : ErrataModuleRow => x.ErrataID) _ _ r.ID

/-- The amended C10 at `sampleSnapshot`: erratum 2, "RHSA-2", has one CVE row
and no row in the other five child relations. -/
theorem loadErrata_children_witness :
    ∃ c1 d, LoadFunc.call parseStub sampleSnapshot .loadErrata Cache.zero = .ok c1
      ∧ c1.ErrataDetail "RHSA-2" = some d
      ∧ d.ID = 2 ∧ d.CVEs = ["CVE-2024-1"] ∧ d.PkgIDs = [] ∧ d.ModulePkgIDs = []
      ∧ d.Bugzillas = [] ∧ d.Refs = [] ∧ d.Modules = [] :=
  loadErrata_children parseStub sampleSnapshot Cache.zero
    ⟨2, "RHSA-2", "s", none, "security", none, none, none, none, none, "", false, false⟩
    (by decide) (by decide)

/-! ## C11: point maps -/

section PointLemmas

variable {R K V : Type} [DecidableEq K]

/-- Rows with other keys leave the entry under `k` as it was. -/
theorem pointFold_keep (f : R → K) (g : R → V) (rows : List R) (m0 : GoMap K V) (k : K)
    (h : ∀ r ∈ rows, f r ≠ k) :
    rows.foldl (fun m r => m.set (f r) (g r)) m0 k = m0 k := by
  induction rows generalizing m0 with
  | nil => rfl
  | cons a t ih =>
    rw [List.foldl_cons, ih _ (fun r hr => h r (List.mem_cons_of_mem _ hr))]
    exact GoMap.set_other _ _ (fun e => h a (List.mem_cons_self _ _) e.symm)

/-- The entry under the key of a row that no later row shares is the value of
that row. -/
theorem pointFold_last (f : R → K) (g : R → V) (pre : List R) (r : R) (post : List R)
    (m0 : GoMap K V) (h : ∀ x ∈ post, f x ≠ f r) :
    (pre ++ r :: post).foldl (fun m r => m.set (f r) (g r)) m0 (f r) = some (g r) := by
  rw [List.foldl_append, List.foldl_cons, pointFold_keep f g post _ (f r) h]
  exact GoMap.set_same _ _ _

/-- The keys of a point map built from the empty map are the keys of the rows. -/
theorem pointFold_has (f : R → K) (g : R → V) (rows : List R) (k : K) :
    GoMap.has (rows.foldl (fun m r => m.set (f r) (g r)) GoMap.empty) k
      = rows.any (fun r => decide (f r = k)) := by
  induction rows using List.reverseRecOn with
  | nil => rfl
  | append_singleton t a ih =>
    rw [List.foldl_append, List.foldl_cons, List.foldl_nil, List.any_append]
    by_cases hk : k = f a
    · subst hk
      simp [GoMap.has, GoMap.set_same]
    · have hk2 : ¬ f a = k := fun e => hk e.symm
      unfold GoMap.has at ih ⊢
      rw [GoMap.set_other _ _ hk, ih]
      simp [hk2]

end PointLemmas

/-- C11: for each of the point-map loaders `loadOvalTestDetail`,
`loadOvalCriteriaID2Type`, `loadOvalDefinitionDetail` and
`loadLabel2ContentSetID` and every list of rows, a key is in the map exactly
when some row has it, and the value stored under the key of a row that no later
row shares is the value built from that row: the last row with a key wins. -/
theorem point_map_loaders_last_row
    (tests : List (TestID × NameID × Int)) (types : List (CriteriaID × Int))
    (defs : List (DefinitionID × Int × CriteriaID)) (sets : List (ContentSetID × String)) :
    ((∀ k, (loadOvalTestDetail tests).has k = tests.any (fun r => decide (r.1 = k)))
      ∧ (∀ pre r post, tests = pre ++ r :: post → (∀ x ∈ post, x.1 ≠ r.1) →
          loadOvalTestDetail tests r.1
            = some { PkgNameID := r.2.1, CheckExistence := r.2.2 }))
    ∧ ((∀ k, (loadOvalCriteriaID2Type types).has k = types.any (fun r => decide (r.1 = k)))
      ∧ (∀ pre r post, types = pre ++ r :: post → (∀ x ∈ post, x.1 ≠ r.1) →
          loadOvalCriteriaID2Type types r.1 = some r.2))
    ∧ ((∀ k, (loadOvalDefinitionDetail defs).has k = defs.any (fun r => decide (r.1 = k)))
      ∧ (∀ pre r post, defs = pre ++ r :: post → (∀ x ∈ post, x.1 ≠ r.1) →
          loadOvalDefinitionDetail defs r.1
            = some { ID := 0, DefinitionTypeID := r.2.1, CriteriaID := r.2.2 }))
    ∧ ((∀ k, (loadLabel2ContentSetID sets).has k = sets.any (fun r => decide (r.2 = k)))
      ∧ (∀ pre r post, sets = pre ++ r :: post → (∀ x ∈ post, x.2 ≠ r.2) →
          loadLabel2ContentSetID sets r.2 = some r.1)) := by
  refine ⟨⟨?_, ?_⟩, ⟨?_, ?_⟩, ⟨?_, ?_⟩, ⟨?_, ?_⟩⟩
  · intro k
    exact pointFold_has (fun r : TestID × NameID × Int => r.1) _ tests k
  · intro pre r post e h
    rw [e]
    exact pointFold_last (fun r : TestID × NameID × Int => r.1)
      (fun r => ({ PkgNameID := r.2.1, CheckExistence := r.2.2 } : OvalTestDetail))
      pre r post _ h
  · intro k
    exact pointFold_has (fun r : CriteriaID × Int => r.1) _ types k
  · intro pre r post e h
    rw [e]
    exact pointFold_last (fun r : CriteriaID × Int => r.1) (fun r => r.2) pre r post _ h
  · intro k
    exact pointFold_has (fun r : DefinitionID × Int × CriteriaID => r.1) _ defs k
  · intro pre r post e h
    rw [e]
    exact pointFold_last (fun r : DefinitionID × Int × CriteriaID => r.1)
      (fun r => ({ ID := 0, DefinitionTypeID := r.2.1, CriteriaID := r.2.2 } : DefinitionDetail))
      pre r post _ h
  · intro k
    exact pointFold_has (fun r : ContentSetID × String => r.2) _ sets k
  · intro pre r post e h
    rw [e]
    exact pointFold_last (fun r : ContentSetID × String => r.2) (fun r => r.1) pre r post _ h

/-! ## C14: the string table -/

theorem loadString_snoc (t : List (Int × Option String)) (a : Int × Option String) :
    loadString (t ++ [a])
      = match a.2 with
        | some str => (loadString t).set a.1 str
        | none => loadString t := by
  simp [loadString, List.foldl_append]

theorem loadString_keep (post : List (Int × Option String)) (m0 : GoMap Int String) (k : Int)
    (h : ∀ x ∈ post, x.1 = k → x.2 = none) :
    post.foldl
        (fun m r =>
          match r.2 with
          | some str => m.set r.1 str
          | none => m)
        m0 k = m0 k := by
  induction post generalizing m0 with
  | nil => rfl
  | cons a t ih =>
    rw [List.foldl_cons, ih _ (fun x hx => h x (List.mem_cons_of_mem _ hx))]
    cases ha : a.2 with
    | none => rfl
    | some str =>
      have hk : k ≠ a.1 := by
        intro e
        have := h a (List.mem_cons_self _ _) e.symm
        rw [ha] at this
        cases this
      exact GoMap.set_other _ _ hk

theorem loadString_last (pre post : List (Int × Option String)) (k : Int) (t : String)
    (h : ∀ x ∈ post, x.1 = k → x.2 = none) :
    loadString (pre ++ (k, some t) :: post) k = some t := by
  unfold loadString
  rw [List.foldl_append, List.foldl_cons, loadString_keep post _ k h]
  exact GoMap.set_same _ _ _

theorem loadString_source (rows : List (Int × Option String)) (k : Int) (t : String)
    (h : loadString rows k = some t) :
    ∃ pre post, rows = pre ++ (k, some t) :: post ∧ ∀ x ∈ post, x.1 = k → x.2 = none := by
  induction rows using List.reverseRecOn with
  | nil => simp [loadString, GoMap.empty] at h
  | append_singleton l a ih =>
    rw [loadString_snoc] at h
    obtain ⟨a1, a2⟩ := a
    cases a2 with
    | none =>
      obtain ⟨pre, post, e, hp⟩ := ih h
      refine ⟨pre, post ++ [(a1, none)], by rw [e]; simp, ?_⟩
      intro x hx hk
      rcases List.mem_append.mp hx with h1 | h1
      · exact hp x h1 hk
      · rw [List.mem_singleton] at h1
        rw [h1]
    | some str =>
      by_cases hk : k = a1
      · subst hk
        simp only [GoMap.set_same, Option.some.injEq] at h
        subst h
        exact ⟨l, [], rfl, by simp⟩
      · simp only [GoMap.set_other _ _ hk] at h
        obtain ⟨pre, post, e, hp⟩ := ih h
        refine ⟨pre, post ++ [(a1, some str)], by rw [e]; simp, ?_⟩
        intro x hx hxk
        rcases List.mem_append.mp hx with h1 | h1
        · exact hp x h1 hxk
        · rw [List.mem_singleton] at h1
          rw [h1] at hxk
          exact absurd hxk.symm hk

theorem loadString_has (rows : List (Int × Option String)) (k : Int) :
    (loadString rows).has k = rows.any (fun r => decide (r.1 = k) && r.2.isSome) := by
  induction rows using List.reverseRecOn with
  | nil => rfl
  | append_singleton l a ih =>
    rw [loadString_snoc, List.any_append, ← ih]
    obtain ⟨a1, a2⟩ := a
    cases a2 with
    | none => simp
    | some str =>
      by_cases hk : k = a1
      · subst hk
        simp [GoMap.has, GoMap.set_same]
      · have hk2 : ¬ a1 = k := fun e => hk e.symm
        simp [GoMap.has, GoMap.set_other _ _ hk, hk2]

/-- C14: for every list of `string` rows and every id `k`: when every row of `k`
has a NULL text, `k` is not a key of the map (it is not stored with the empty
string); `k` is a key exactly when some row of `k` has a text; and the map holds
`t` under `k` exactly when `t` is the text of the last row of `k` with a text. -/
theorem loadString_non_null (rows : List (Int × Option String)) (k : Int) :
    ((∀ r ∈ rows, r.1 = k → r.2 = none) → loadString rows k = none)
    ∧ ((loadString rows).has k = rows.any (fun r => decide (r.1 = k) && r.2.isSome))
    ∧ (∀ t, loadString rows k = some t ↔
        ∃ pre post, rows = pre ++ (k, some t) :: post ∧ ∀ x ∈ post, x.1 = k → x.2 = none)
    ∧ loadString [(1, none), (2, some "a"), (2, some "b"), (2, none)] 1 = none
    ∧ loadString [(1, none), (2, some "a"), (2, some "b"), (2, none)] 2 = some "b" := by
  have hnone : (∀ r ∈ rows, r.1 = k → r.2 = none) → loadString rows k = none := by
    intro h
    exact loadString_keep rows GoMap.empty k h
  have hiff : ∀ t, loadString rows k = some t ↔
      ∃ pre post, rows = pre ++ (k, some t) :: post ∧ ∀ x ∈ post, x.1 = k → x.2 = none := by
    intro t
    constructor
    · exact loadString_source rows k t
    · rintro ⟨pre, post, e, hp⟩
      rw [e]
      exact loadString_last pre post k t hp
  exact ⟨hnone, loadString_has rows k, hiff, by decide, by decide⟩

/-! ## C13: the module-test loader and the ":" separator -/

theorem splitChars_ne_nil (sep : Char) (l : List Char) : splitChars sep l ≠ [] := by
  cases l with
  | nil => simp [splitChars]
  | cons c cs =>
    unfold splitChars
    by_cases h : c = sep
    · simp [h]
    · simp only [h, if_false]
      cases splitChars sep cs <;> simp

theorem splitChars_no_sep (sep : Char) (l : List Char) (h : sep ∉ l) :
    splitChars sep l = [l] := by
  induction l with
  | nil => rfl
  | cons c cs ih =>
    have hc : ¬ c = sep := fun e => h (by rw [e]; exact List.mem_cons_self _ _)
    have ht : sep ∉ cs := fun e => h (List.mem_cons_of_mem _ e)
    unfold splitChars
    simp only [hc, if_false, ih ht]

theorem splitChars_one_sep (sep : Char) (m s : List Char) (hm : sep ∉ m) (hs : sep ∉ s) :
    splitChars sep (m ++ sep :: s) = [m, s] := by
  induction m with
  | nil =>
    simp only [List.nil_append]
    unfold splitChars
    simp only [if_true, splitChars_no_sep sep s hs]
  | cons c cs ih =>
    have hc : ¬ c = sep := fun e => hm (by rw [e]; exact List.mem_cons_self _ _)
    have ht : sep ∉ cs := fun e => hm (List.mem_cons_of_mem _ e)
    simp only [List.cons_append]
    unfold splitChars
    simp only [hc, if_false, ih ht]

theorem loadOvalModuleTestDetailStep_no_sep (details : GoMap ModuleTestID OvalModuleTestDetail)
    (r : ModuleTestID × String) (h : ':' ∉ r.2.data) :
    loadOvalModuleTestDetailStep details r = .error (.indexOutOfRange 1 1) := by
  unfold loadOvalModuleTestDetailStep stringsSplit
  rw [splitChars_no_sep ':' r.2.data h]
  rfl

theorem loadOvalModuleTestDetailStep_error (details : GoMap ModuleTestID OvalModuleTestDetail)
    (r : ModuleTestID × String) (e : Fault) (h : loadOvalModuleTestDetailStep details r = .error e) :
    e = .indexOutOfRange 1 1 := by
  unfold loadOvalModuleTestDetailStep stringsSplit at h
  have hne := splitChars_ne_nil ':' r.2.data
  cases hs : splitChars ':' r.2.data with
  | nil => exact absurd hs hne
  | cons a t =>
    cases t with
    | nil =>
      rw [hs] at h
      injection h with h
      exact h.symm
    | cons b u =>
      rw [hs] at h
      simp [goIndex, bind, Except.bind, pure, Except.pure] at h

/-- The string "m:s" with no ":" inside `m` or `s` is stored as the pair
`(Module = m, Stream = s)`. -/
theorem loadOvalModuleTestDetailStep_pair (details : GoMap ModuleTestID OvalModuleTestDetail)
    (id : ModuleTestID) (m s : String) (hm : ':' ∉ m.data) (hs : ':' ∉ s.data) :
    loadOvalModuleTestDetailStep details (id, m ++ ":" ++ s)
      = .ok (details.set id { ModuleStream := { Module := m, Stream := s } }) := by
  unfold loadOvalModuleTestDetailStep stringsSplit
  have e : (m ++ ":" ++ s).data = m.data ++ ':' :: s.data := by
    simp [String.data_append]
  simp only [e]
  rw [splitChars_one_sep ':' m.data s.data hm hs]
  rfl

/-- C13, on the code: whenever the `module_stream` string of some row contains
no ":", `loadOvalModuleTestDetail` reads `splitted[1]` of a one-element slice and
panics with `index out of range [1] with length 1`; the code has no guard, no
explicit error and no skip for such a row. -/
theorem loadOvalModuleTestDetail_no_separator_panics (rows : List (ModuleTestID × String))
    (r : ModuleTestID × String) (hr : r ∈ rows) (h : ':' ∉ r.2.data) :
    loadOvalModuleTestDetail rows = .error (.indexOutOfRange 1 1) := by
  unfold loadOvalModuleTestDetail
  generalize (GoMap.empty : GoMap ModuleTestID OvalModuleTestDetail) = d
  induction rows generalizing d with
  | nil => simp at hr
  | cons a t ih =>
    rw [List.foldlM_cons]
    cases hs : loadOvalModuleTestDetailStep d a with
    | error e =>
      rw [loadOvalModuleTestDetailStep_error d a e hs]
      rfl
    | ok d1 =>
      rcases List.mem_cons.mp hr with h1 | h1
      · subst h1
        rw [loadOvalModuleTestDetailStep_no_sep d r h] at hs
        cases hs
      · exact ih h1 d1

/-- C13 at two rows, the second without a ":"; the first alone is stored as the
pair ("postgresql", "12"). -/
theorem loadOvalModuleTestDetail_no_separator_panics_witness :
    loadOvalModuleTestDetail [(3, "postgresql:12"), (4, "nodejs")]
      = .error (.indexOutOfRange 1 1)
    ∧ (loadOvalModuleTestDetail [(3, "postgresql:12")]).toOption.bind (fun m => m 3)
        = some { ModuleStream := { Module := "postgresql", Stream := "12" } } :=
  ⟨loadOvalModuleTestDetail_no_separator_panics [(3, "postgresql:12"), (4, "nodejs")]
      (4, "nodejs") (by simp) (by decide),
    by decide⟩

/-! ## C12: the URL-path index -/

theorem trimSuffix_slash (q : List Char) :
    trimSuffix (String.mk (q ++ ['/'])) "/" = String.mk q := by
  unfold trimSuffix
  have h1 : ("/" : String).data = ['/'] := rfl
  have h2 : List.isSuffixOf ['/'] (q ++ ['/']) = true := by
    rw [List.isSuffixOf_iff_suffix]
    exact List.suffix_append q ['/']
  simp [h1, h2]

theorem trimSuffix_no_slash (p : String) (h : ¬ List.IsSuffix ['/'] p.data) :
    trimSuffix p "/" = p := by
  unfold trimSuffix
  have h1 : ("/" : String).data = ['/'] := rfl
  have h2 : List.isSuffixOf ['/'] p.data = false := by
    rw [Bool.eq_false_iff]
    intro e
    exact h (List.isSuffixOf_iff_suffix.mp e)
  simp [h1, h2]

theorem foldlM_loadRepoDetailsStep_paths (parse : String → Option URL)
    (rows : List (RepoID × RepoDetail))
    (hall : ∀ x ∈ rows, x.2.URL.utf8ByteSize > 0 → (parse x.2.URL).isSome)
    (st : RepoMaps) :
    ∃ maps, rows.foldlM (loadRepoDetailsStep parse) st = .ok maps
      ∧ ∀ key : String, maps.RepoPath2IDs.get key
          = st.RepoPath2IDs.get key
            ++ (rows.filter (fun x => decide (x.2.URL.utf8ByteSize > 0
                  ∧ (parse x.2.URL).map (fun u => trimSuffix u.Path "/") = some key))).map
                (fun x => x.1) := by
  induction rows generalizing st with
  | nil => exact ⟨st, rfl, by simp⟩
  | cons a t ih =>
    have hall2 : ∀ x ∈ t, x.2.URL.utf8ByteSize > 0 → (parse x.2.URL).isSome :=
      fun x hx => hall x (List.mem_cons_of_mem _ hx)
    rw [List.foldlM_cons]
    by_cases hu : a.2.URL.utf8ByteSize > 0
    · obtain ⟨u, hp⟩ := Option.isSome_iff_exists.mp (hall a (List.mem_cons_self _ _) hu)
      have hstep : loadRepoDetailsStep parse st a
          = .ok { RepoIDs := st.RepoIDs ++ [a.1], RepoDetails := st.RepoDetails.set a.1 a.2,
                  RepoLabel2IDs := st.RepoLabel2IDs.pushInit a.2.Label a.1,
                  RepoPath2IDs := st.RepoPath2IDs.pushInit (trimSuffix u.Path "/") a.1,
                  ProductID2RepoIDs := st.ProductID2RepoIDs.pushInit a.2.ProductID a.1 } := by
        unfold loadRepoDetailsStep
        simp only [hu, hp, if_true]
      rw [hstep]
      obtain ⟨maps, hm, hk⟩ := ih hall2 _
      refine ⟨maps, hm, ?_⟩
      intro key
      rw [hk key]
      by_cases hkey : key = trimSuffix u.Path "/"
      · subst hkey
        simp [GoMap.get, GoMap.pushInit_eq_push, GoMap.push_same, hu, hp]
      · have hkey2 : ¬ trimSuffix u.Path "/" = key := fun e => hkey e.symm
        simp [GoMap.get, GoMap.pushInit_eq_push, GoMap.push_other _ _ hkey, hu, hp, hkey2]
    · have hstep : loadRepoDetailsStep parse st a
          = .ok { RepoIDs := st.RepoIDs ++ [a.1], RepoDetails := st.RepoDetails.set a.1 a.2,
                  RepoLabel2IDs := st.RepoLabel2IDs.pushInit a.2.Label a.1,
                  RepoPath2IDs := st.RepoPath2IDs,
                  ProductID2RepoIDs := st.ProductID2RepoIDs.pushInit a.2.ProductID a.1 } := by
        unfold loadRepoDetailsStep
        simp only [hu, if_false]
      rw [hstep]
      obtain ⟨maps, hm, hk⟩ := ih hall2 _
      refine ⟨maps, hm, ?_⟩
      intro key
      rw [hk key]
      simp [hu]

/-- For every list of `repo_detail` rows in which every non-empty URL parses,
`loadRepoDetails` returns, and `RepoPath2IDs` lists under every key exactly the
ids of the rows with a non-empty URL whose parsed path, with its trailing "/"
stripped, is that key, in row order.  So a row whose URL parses with path `p` is
listed under `p` without its trailing "/" (under `p` itself when `p` does not
end in "/"), and a row with an empty URL adds nothing.  The path
"/repo/x86_64/os/" gives the key "/repo/x86_64/os". -/
theorem loadRepoDetails_path_index (parse : String → Option URL)
    (rows : List (RepoID × RepoDetail))
    (hall : ∀ x ∈ rows, x.2.URL.utf8ByteSize > 0 → (parse x.2.URL).isSome) :
    ∃ maps, loadRepoDetails parse rows = .ok maps
      ∧ (∀ key : String, maps.RepoPath2IDs.get key
          = (rows.filter (fun x => decide (x.2.URL.utf8ByteSize > 0
                ∧ (parse x.2.URL).map (fun u => trimSuffix u.Path "/") = some key))).map
              (fun x => x.1))
      ∧ (∀ r ∈ rows, ∀ u, r.2.URL.utf8ByteSize > 0 → parse r.2.URL = some u →
          r.1 ∈ maps.RepoPath2IDs.get (trimSuffix u.Path "/"))
      ∧ (∀ q : List Char, trimSuffix (String.mk (q ++ ['/'])) "/" = String.mk q)
      ∧ (∀ p : String, ¬ List.IsSuffix ['/'] p.data → trimSuffix p "/" = p)
      ∧ trimSuffix "/repo/x86_64/os/" "/" = "/repo/x86_64/os" := by
  obtain ⟨maps, hm, hk⟩ := foldlM_loadRepoDetailsStep_paths parse rows hall
    { RepoIDs := [], RepoDetails := GoMap.empty, RepoLabel2IDs := GoMap.empty,
      RepoPath2IDs := GoMap.empty, ProductID2RepoIDs := GoMap.empty }
  have hk2 : ∀ key : String, maps.RepoPath2IDs.get key
      = (rows.filter (fun x => decide (x.2.URL.utf8ByteSize > 0
            ∧ (parse x.2.URL).map (fun u => trimSuffix u.Path "/") = some key))).map
          (fun x => x.1) := by
    intro key
    rw [hk key]
    simp [GoMap.get, GoMap.empty]
  refine ⟨maps, hm, hk2, ?_, trimSuffix_slash, trimSuffix_no_slash, by decide⟩
  intro r hr u hu hp
  rw [hk2]
  refine List.mem_map.mpr ⟨r, ?_, rfl⟩
  rw [List.mem_filter]
  refine ⟨hr, ?_⟩
  simp [hu, hp]

/-- The path index on `repoRowsOneEmpty`: the repository with the URL
"https://cdn.example.com/repo/x86_64/os/" is listed under "/repo/x86_64/os", the
repository with the empty URL under no key, and `RepoIDs` has the two ids in the
order of the rows. -/
theorem loadRepoDetails_path_index_witness :
    ∃ maps, loadRepoDetails parseKnown repoRowsOneEmpty = .ok maps
      ∧ maps.RepoPath2IDs "/repo/x86_64/os" = some [1]
      ∧ maps.RepoPath2IDs "" = none
      ∧ maps.RepoIDs = [2, 1] := by
  obtain ⟨maps, hm, _⟩ := loadRepoDetails_path_index parseKnown repoRowsOneEmpty (by decide)
  refine ⟨maps, hm, ?_⟩
  have e : loadRepoDetails parseKnown repoRowsOneEmpty = .ok _ := rfl
  rw [e] at hm
  injection hm with hm
  subst hm
  exact ⟨by decide, by decide, by decide⟩

/-- C12, on the code: let `url.Parse` give the path "/repo/x86_64/os/" for
"https://cdn.example.com/repo/x86_64/os/" and an error for ":cdn".  On the table
that holds `repoRowParsable` alone, `loadRepoDetails` lists its id under the key
"/repo/x86_64/os", as the claim says.  On `repoRowsOneMalformed`, the same row
after a row with the URL ":cdn", the loader panics with a nil dereference at
`parsedURL.Path`, in whichever order the two rows come: no `RepoPath2IDs` is
produced, and the repository with the non-empty, parsable URL is listed under no
key. -/
theorem loadRepoDetails_parsable_row_lost (parse : String → Option URL)
    (hgood : parse "https://cdn.example.com/repo/x86_64/os/"
      = some { Path := "/repo/x86_64/os/" })
    (hbad : parse ":cdn" = none) :
    (∃ maps, loadRepoDetails parse [repoRowParsable] = .ok maps
      ∧ maps.RepoPath2IDs "/repo/x86_64/os" = some [1])
    ∧ loadRepoDetails parse repoRowsOneMalformed = .error .nilDereference
    ∧ loadRepoDetails parse repoRowsOneMalformed.reverse = .error .nilDereference := by
  have hu : repoRowParsable.2.URL.utf8ByteSize > 0 := by decide
  have hp : parse repoRowParsable.2.URL = some { Path := "/repo/x86_64/os/" } := hgood
  have hb : parse (2, (⟨"bad", "Bad", ":cdn", "", "", "RHEL", 7, none, false⟩ : RepoDetail)).2.URL
      = none := hbad
  refine ⟨?_, ?_, ?_⟩
  · have hs : loadRepoDetails parse [repoRowParsable]
        = .ok { RepoIDs := [] ++ [repoRowParsable.1],
                RepoDetails := GoMap.empty.set repoRowParsable.1 repoRowParsable.2,
                RepoLabel2IDs := GoMap.empty.pushInit repoRowParsable.2.Label repoRowParsable.1,
                RepoPath2IDs :=
                  GoMap.empty.pushInit (trimSuffix "/repo/x86_64/os/" "/") repoRowParsable.1,
                ProductID2RepoIDs :=
                  GoMap.empty.pushInit repoRowParsable.2.ProductID repoRowParsable.1 } := by
      unfold loadRepoDetails
      rw [List.foldlM_cons]
      unfold loadRepoDetailsStep
      simp only [hu, hp, if_true]
      rfl
    exact ⟨_, hs, by decide⟩
  · exact foldlM_loadRepoDetailsStep_bad_url parse repoRowsOneMalformed
      (2, ⟨"bad", "Bad", ":cdn", "", "", "RHEL", 7, none, false⟩) (by simp [repoRowsOneMalformed])
      (by decide) hb _
  · exact foldlM_loadRepoDetailsStep_bad_url parse repoRowsOneMalformed.reverse
      (2, ⟨"bad", "Bad", ":cdn", "", "", "RHEL", 7, none, false⟩) (by simp [repoRowsOneMalformed])
      (by decide) hb _

/-- C12 at the table `parseKnown` of the two results of `url.Parse`: the
repository alone is listed under "/repo/x86_64/os", and with the row of the URL
":cdn" before it the loader panics. -/
theorem loadRepoDetails_parsable_row_lost_witness :
    parseKnown "https://cdn.example.com/repo/x86_64/os/" = some { Path := "/repo/x86_64/os/" }
    ∧ parseKnown ":cdn" = none
    ∧ (∃ maps, loadRepoDetails parseKnown [repoRowParsable] = .ok maps
        ∧ maps.RepoPath2IDs "/repo/x86_64/os" = some [1])
    ∧ loadRepoDetails parseKnown repoRowsOneMalformed = .error .nilDereference :=
  ⟨by decide, by decide,
    (loadRepoDetails_parsable_row_lost parseKnown (by decide) (by decide)).1,
    (loadRepoDetails_parsable_row_lost parseKnown (by decide) (by decide)).2.1⟩

/-! ## C17: the two indices over `errata_cve` -/

theorem Snapshot.errataCveAgree_iff (s : Snapshot) (h : s.errataCveAgree = true) (e : Int)
    (c : String) : (e, c) ∈ s.errata_cve_by_errata ↔ (c, e) ∈ s.errata_cve_by_cve := by
  unfold Snapshot.errataCveAgree at h
  rw [Bool.and_eq_true, List.all_eq_true, List.all_eq_true] at h
  constructor
  · intro hm
    simpa using h.1 (e, c) hm
  · intro hm
    simpa using h.2 (c, e) hm

theorem loadCves_fst (cve_cwe : List (Int × String)) (cve_pkg : List (Int × Int))
    (errata_cve : List (String × Int)) (cve_detail : List CveRow) :
    (loadCves cve_cwe cve_pkg errata_cve cve_detail).1
      = cve_detail.foldl
          (fun m r => m.set r.Name
            (cveDet (loadInt2Strings cve_cwe) (loadInt2Ints cve_pkg)
              (loadString2Ints errata_cve) r))
          GoMap.empty := by
  unfold loadCves
  simp only
  generalize (GoMap.empty : GoMap String CveDetail) = a
  generalize (GoMap.empty : GoMap Int String) = b
  induction cve_detail generalizing a b with
  | nil => rfl
  | cons r t ih => simp only [List.foldl_cons]; exact ih _ _

theorem cveDet_ErrataIDs (cveID2cwes : GoMap Int (List String)) (cveID2pkg : GoMap Int (List Int))
    (cve2eid : GoMap String (List Int)) (r : CveRow) :
    (cveDet cveID2cwes cveID2pkg cve2eid r).ErrataIDs = GoMap.get cve2eid r.Name := by
  unfold cveDet GoMap.get
  cases cveID2cwes r.ID <;> cases cveID2pkg r.ID <;> cases cve2eid r.Name <;> rfl

/-- C17: for every snapshot whose two `errata_cve` queries deliver the same
pairs, every entry `d` of the `ErrataDetail` map of `loadErrata` and every CVE
name `c` that is a key of the `CveDetail` map of `loadCves`, with entry `cd`:
`c` is an element of `d.CVEs` if and only if `d.ID` is an element of
`cd.ErrataIDs`. -/
theorem errata_cve_indices_agree (s : Snapshot) (hs : s.errataCveAgree = true)
    (n : String) (d : ErrataDetail) (c : String) (cd : CveDetail)
    (hd : (loadErrata s.errata_cve_by_errata s.pkg_errata_by_errata s.errata_modulepkg_by_errata
            s.errata_bugzilla s.errata_refs s.errata_module s.errata_detail).1 n = some d)
    (hc : (loadCves s.cve_cwe s.cve_pkg s.errata_cve_by_cve s.cve_detail).1 c = some cd) :
    c ∈ d.CVEs ↔ d.ID ∈ cd.ErrataIDs := by
  rw [loadErrata_fst] at hd
  rw [loadCves_fst] at hc
  rcases pointFold_mem (fun x : ErrataRow => x.Name) _ s.errata_detail _ n d hd
    with h0 | ⟨r, _, _, hr⟩
  · simp [GoMap.empty] at h0
  rcases pointFold_mem (fun x : CveRow => x.Name) _ s.cve_detail _ c cd hc
    with h0 | ⟨r2, _, hn2, hr2⟩
  · simp [GoMap.empty] at h0
  have hf := errataDet_fields
    { erID2cves := loadInt2Strings s.errata_cve_by_errata,
      erID2pkgIDs := loadInt2Ints s.pkg_errata_by_errata,
      erID2modulePkgIDs := loadInt2Ints s.errata_modulepkg_by_errata,
      erID2bzs := loadInt2Strings s.errata_bugzilla,
      erID2refs := loadInt2Strings s.errata_refs,
      erID2modules := loadErrataModules s.errata_module } r
  have hcves : d.CVEs
      = (s.errata_cve_by_errata.filter (fun x => x.1 = r.ID)).map (fun x => x.2) := by
    rw [← hr, hf.2.1]
    exact pushInitFold_get (fun x : Int × String => x.1) (fun x => x.2) _ r.ID
  have hid : d.ID = r.ID := by rw [← hr, hf.1]
  have heids : cd.ErrataIDs
      = (s.errata_cve_by_cve.filter (fun x => x.1 = c)).map (fun x => x.2) := by
    rw [← hr2, cveDet_ErrataIDs]
    have hn2c : r2.Name = c := hn2
    rw [hn2c]
    exact pushInitFold_get (fun x : String × Int => x.1) (fun x => x.2) _ c
  rw [hcves, heids, hid]
  have key := Snapshot.errataCveAgree_iff s hs r.ID c
  constructor
  · intro h
    obtain ⟨x, hx, hx2⟩ := List.mem_map.mp h
    rw [List.mem_filter] at hx
    have hxe : x = (r.ID, c) := by
      have h1 : x.1 = r.ID := by simpa using hx.2
      exact Prod.ext h1 hx2
    rw [hxe] at hx
    exact List.mem_map.mpr ⟨(c, r.ID), List.mem_filter.mpr ⟨key.mp hx.1, by simp⟩, rfl⟩
  · intro h
    obtain ⟨x, hx, hx2⟩ := List.mem_map.mp h
    rw [List.mem_filter] at hx
    have hxe : x = (c, r.ID) := by
      have h1 : x.1 = c := by simpa using hx.2
      exact Prod.ext h1 hx2
    rw [hxe] at hx
    exact List.mem_map.mpr ⟨(r.ID, c), List.mem_filter.mpr ⟨key.mpr hx.1, by simp⟩, rfl⟩

/-- C17 at `sampleCveSnapshot`: erratum "RHSA-2" (id 2) lists "CVE-2024-1", and
the entry of "CVE-2024-1" lists erratum 2. -/
theorem errata_cve_indices_agree_witness :
    ∃ d cd,
      (loadErrata sampleCveSnapshot.errata_cve_by_errata sampleCveSnapshot.pkg_errata_by_errata
          sampleCveSnapshot.errata_modulepkg_by_errata sampleCveSnapshot.errata_bugzilla
          sampleCveSnapshot.errata_refs sampleCveSnapshot.errata_module
          sampleCveSnapshot.errata_detail).1 "RHSA-2" = some d
      ∧ (loadCves sampleCveSnapshot.cve_cwe sampleCveSnapshot.cve_pkg
          sampleCveSnapshot.errata_cve_by_cve sampleCveSnapshot.cve_detail).1 "CVE-2024-1"
          = some cd
      ∧ ("CVE-2024-1" ∈ d.CVEs ↔ d.ID ∈ cd.ErrataIDs)
      ∧ d.CVEs = ["CVE-2024-1"] ∧ d.ID = 2 ∧ cd.ErrataIDs = [1, 2] :=
  ⟨_, _, rfl, rfl,
    errata_cve_indices_agree sampleCveSnapshot (by decide) "RHSA-2" _ "CVE-2024-1" _ rfl rfl,
    by decide, by decide, by decide⟩

/-! ## C15 and C16: the admission gate -/

section TotalLemmas

variable (f : LoadFunc × GoPc → Nat)

theorem total_nil : total f [] = 0 := rfl

theorem total_append (l : List (LoadFunc × GoPc)) (g : LoadFunc × GoPc) :
    total f (l ++ [g]) = total f l + f g := by
  simp [total]

theorem total_set (l : List (LoadFunc × GoPc)) (i : Nat) (a b : LoadFunc × GoPc)
    (h : l[i]? = some a) : total f (l.set i b) + f a = total f l + f b := by
  induction l generalizing i with
  | nil => simp at h
  | cons x t ih =>
    cases i with
    | zero =>
      simp only [List.getElem?_cons_zero, Option.some.injEq] at h
      subst h
      simp only [total, List.set_cons_zero, List.map_cons, List.sum_cons]
      omega
    | succ j =>
      simp only [List.getElem?_cons_succ] at h
      have := ih j h
      simp only [total, List.set_cons_succ, List.map_cons, List.sum_cons] at this ⊢
      omega

theorem total_ge (l : List (LoadFunc × GoPc)) (i : Nat) (a : LoadFunc × GoPc)
    (h : l[i]? = some a) : f a ≤ total f l := by
  induction l generalizing i with
  | nil => simp at h
  | cons x t ih =>
    cases i with
    | zero =>
      simp only [List.getElem?_cons_zero, Option.some.injEq] at h
      subst h
      simp only [total, List.map_cons, List.sum_cons]
      omega
    | succ j =>
      simp only [List.getElem?_cons_succ] at h
      have := ih j h
      simp only [total, List.map_cons, List.sum_cons] at this ⊢
      omega

theorem total_mono (g : LoadFunc × GoPc → Nat) (l : List (LoadFunc × GoPc))
    (h : ∀ x, f x ≤ g x) : total f l ≤ total g l := by
  induction l with
  | nil => simp [total]
  | cons x t ih =>
    have := h x
    simp only [total, List.map_cons, List.sum_cons] at ih ⊢
    omega

theorem total_pos (l : List (LoadFunc × GoPc)) (h : total f l ≠ 0) :
    ∃ (i : Nat) (a : LoadFunc × GoPc), l[i]? = some a ∧ f a ≠ 0 := by
  induction l with
  | nil => simp [total] at h
  | cons x t ih =>
    by_cases hx : f x = 0
    · have ht : total f t ≠ 0 := by
        simp only [total, List.map_cons, List.sum_cons] at h ⊢
        omega
      obtain ⟨i, a, hi, ha⟩ := ih ht
      exact ⟨i + 1, a, (by simpa using hi : (x :: t)[i + 1]? = some a), ha⟩
    · exact ⟨0, x, by simp, hx⟩

end TotalLemmas

theorem map_fst_set (l : List (LoadFunc × GoPc)) (i : Nat) (fn : LoadFunc) (pc pc2 : GoPc)
    (h : l[i]? = some (fn, pc)) : (l.set i (fn, pc2)).map Prod.fst = l.map Prod.fst := by
  induction l generalizing i with
  | nil => simp at h
  | cons x t ih =>
    cases i with
    | zero =>
      simp only [List.getElem?_cons_zero, Option.some.injEq] at h
      subst h
      rfl
    | succ j =>
      simp only [List.getElem?_cons_succ] at h
      simp only [List.set_cons_succ, List.map_cons, ih j h]

theorem Pool.inv_init (parse : String → Option URL) (s : Snapshot) (n : Nat) :
    Pool.Inv parse s loadFuncs (Pool.init n) where
  slots := rfl
  room := Nat.zero_le _
  counter := rfl
  current := by simp [Pool.init]
  finished := by simp [Pool.init]
  joined := by simp [Pool.init]
  order := rfl
  returned := by intro a; simp [Pool.init, total]
  cache := rfl

/-- Every step keeps the invariant and the capacity of `guard`. -/
theorem Pool.inv_step (parse : String → Option URL) (s : Snapshot) (L : List LoadFunc)
    (p q : Pool) (a : Actor) (hinv : Pool.Inv parse s L p)
    (h : p.step parse s a = .next q) : Pool.Inv parse s L q ∧ q.cap = p.cap := by
  obtain ⟨h1, h2, h3, h4, h5, h6, h7, h8, h9⟩ := hinv
  simp only [Pool.holding, Pool.alive] at h1 h3 h6
  cases a with
  | coordinator =>
    cases hco : p.co with
    | add =>
      simp only [hco, reduceCtorEq, if_false, or_self] at h1 h3
      cases htodo : p.todo with
      | nil =>
        simp only [Pool.step, hco, htodo] at h
        injection h with h
        subst h
        refine ⟨⟨?_, h2, ?_, ?_, ?_, ?_, ?_, h8, h9⟩, rfl⟩
        · simpa [Pool.holding] using h1
        · simpa [Pool.alive] using h3
        · simp
        · intro _; rfl
        · simp
        · simpa [htodo] using h7
      | cons fn rest =>
        simp only [Pool.step, hco, htodo] at h
        injection h with h
        subst h
        refine ⟨⟨?_, h2, ?_, ?_, ?_, ?_, ?_, h8, h9⟩, rfl⟩
        · simpa [Pool.holding] using h1
        · simp [Pool.alive, h3]
        · intro _; simp
        · simp
        · simp
        · simpa [htodo] using h7
    | send =>
      simp only [hco, reduceCtorEq, if_false, or_false, or_true, true_or, if_true] at h1 h3
      simp only [Pool.step, hco] at h
      split at h
      · rename_i hlt
        injection h with h
        subst h
        refine ⟨⟨?_, ?_, ?_, ?_, ?_, ?_, h7, h8, h9⟩, rfl⟩
        · simp [Pool.holding, h1]
        · exact hlt
        · simpa [Pool.alive] using h3
        · intro _; exact h4 (Or.inl hco)
        · simp
        · simp
      · cases h
    | spawn =>
      simp only [hco, reduceCtorEq, if_false, or_false, or_true, true_or, if_true] at h1 h3
      cases htodo : p.todo with
      | nil => exact absurd htodo (h4 (Or.inr hco))
      | cons fn rest =>
        simp only [Pool.step, hco, htodo] at h
        injection h with h
        subst h
        refine ⟨⟨?_, h2, ?_, ?_, ?_, ?_, ?_, ?_, h9⟩, rfl⟩
        · simp [Pool.holding, total_append, h1]
        · simp [Pool.alive, total_append, h3]
        · simp
        · simp
        · simp
        · simp only [List.map_append, List.map_cons, List.map_nil, List.append_assoc,
            List.singleton_append]
          rw [← htodo]
          exact h7
        · intro x
          have := h8 x
          simp only [total_append, List.map_append, List.map_cons, List.map_nil,
            List.count_append, List.count_singleton]
          by_cases hx : fn = x
          · simp [hx] at this ⊢
            omega
          · have hx2 : ¬ x = fn := fun e => hx e.symm
            simp [hx, hx2] at this ⊢
            omega
    | wait =>
      simp only [hco, reduceCtorEq, if_false, or_self] at h1 h3
      simp only [Pool.step, hco] at h
      split at h
      · rename_i hz
        injection h with h
        subst h
        refine ⟨⟨?_, h2, ?_, ?_, ?_, ?_, h7, h8, h9⟩, rfl⟩
        · simpa [Pool.holding] using h1
        · simpa [Pool.alive] using h3
        · simp
        · intro _; exact h5 (Or.inl hco)
        · intro _
          simp only [Pool.alive]
          omega
      · cases h
    | joined =>
      simp [Pool.step, hco] at h
  | goroutine i =>
    cases hg : p.gos[i]? with
    | none => simp [Pool.step, hg] at h
    | some g =>
      obtain ⟨fn, pc⟩ := g
      have eH := fun pc2 => total_set (fun g => if g.2 = .call ∨ g.2 = .recv then 1 else 0)
        p.gos i (fn, pc) (fn, pc2) hg
      have eA := fun pc2 => total_set (fun g => if g.2 = .exited then 0 else 1)
        p.gos i (fn, pc) (fn, pc2) hg
      have eC := fun x pc2 => total_set (fun g => if g.1 = x ∧ g.2 = .call then 1 else 0)
        p.gos i (fn, pc) (fn, pc2) hg
      have eF := fun pc2 => map_fst_set p.gos i fn pc pc2 hg
      cases pc with
      | call =>
        simp only [Pool.step, hg] at h
        cases hc : fn.call parse s p.c with
        | error f => simp [hc] at h
        | ok c1 =>
          simp only [hc] at h
          injection h with h
          subst h
          have eH1 := eH .recv
          have eA1 := eA .recv
          simp at eH1 eA1
          refine ⟨⟨?_, h2, ?_, h4, h5, ?_, ?_, ?_, ?_⟩, rfl⟩
          · simp only [Pool.holding]
            omega
          · simp only [Pool.alive]
            omega
          · intro hj
            have := h6 hj
            simp only [Pool.alive]
            omega
          · simp only [eF]
            exact h7
          · intro x
            have e1 := eC x .recv
            have e2 := h8 x
            simp only [eF, List.count_append, List.count_singleton]
            by_cases hx : fn = x
            · simp [hx] at e1 ⊢
              omega
            · have hx2 : ¬ x = fn := fun e => hx e.symm
              simp [hx, hx2] at e1 ⊢
              omega
          · simp only [List.foldl_append, List.foldl_cons, List.foldl_nil, h9, optStep, hc]
      | recv =>
        simp only [Pool.step, hg] at h
        split at h
        · rename_i hpos
          injection h with h
          subst h
          have eH1 := eH .done
          have eA1 := eA .done
          simp at eH1 eA1
          refine ⟨⟨?_, ?_, ?_, h4, h5, ?_, ?_, ?_, h9⟩, rfl⟩
          · simp only [Pool.holding]
            omega
          · simp only
            omega
          · simp only [Pool.alive]
            omega
          · intro hj
            have := h6 hj
            simp only [Pool.alive]
            omega
          · simp only [eF]
            exact h7
          · intro x
            have e1 := eC x .done
            have e2 := h8 x
            simp only [eF]
            simp at e1
            omega
        · cases h
      | done =>
        simp only [Pool.step, hg] at h
        injection h with h
        subst h
        have eH1 := eH .exited
        have eA1 := eA .exited
        simp at eH1 eA1
        refine ⟨⟨?_, h2, ?_, h4, h5, ?_, ?_, ?_, h9⟩, rfl⟩
        · simp only [Pool.holding]
          omega
        · simp only [Pool.alive]
          omega
        · intro hj
          have := h6 hj
          simp only [Pool.alive]
          omega
        · simp only [eF]
          exact h7
        · intro x
          have e1 := eC x .exited
          have e2 := h8 x
          simp only [eF]
          simp at e1
          omega
      | exited => simp [Pool.step, hg] at h
  | handoff i =>
    cases hco : p.co with
    | send =>
      cases hg : p.gos[i]? with
      | none => simp [Pool.step, hco, hg] at h
      | some g =>
        obtain ⟨fn, pc⟩ := g
        cases pc with
        | recv =>
          simp only [Pool.step, hco, hg] at h
          split at h
          · rename_i hz
            have hge := total_ge (fun g => if g.2 = .call ∨ g.2 = .recv then 1 else 0)
              p.gos i (fn, .recv) hg
            simp at hge
            omega
          · cases h
        | call => simp [Pool.step, hco, hg] at h
        | done => simp [Pool.step, hco, hg] at h
        | exited => simp [Pool.step, hco, hg] at h
    | add => simp [Pool.step, hco] at h
    | spawn => simp [Pool.step, hco] at h
    | wait => simp [Pool.step, hco] at h
    | joined => simp [Pool.step, hco] at h

/-- Every state an interleaving reaches satisfies the invariant. -/
theorem Pool.inv_run (parse : String → Option URL) (s : Snapshot) (L : List LoadFunc)
    (sched : List Actor) (p q : Pool) (hinv : Pool.Inv parse s L p)
    (h : Pool.run parse s p sched = some q) : Pool.Inv parse s L q ∧ q.cap = p.cap := by
  induction sched generalizing p with
  | nil =>
    simp only [Pool.run, Option.some.injEq] at h
    subst h
    exact ⟨hinv, rfl⟩
  | cons a rest ih =>
    simp only [Pool.run] at h
    cases hs : p.step parse s a with
    | next r =>
      rw [hs] at h
      obtain ⟨hr, hcap⟩ := Pool.inv_step parse s L p r a hinv hs
      obtain ⟨hq, hcap2⟩ := ih r hr h
      exact ⟨hq, hcap2.trans hcap⟩
    | blocked => rw [hs] at h; cases h
    | panic f => rw [hs] at h; cases h

/-- Every step lowers the number of steps left. -/
theorem Pool.left_step (parse : String → Option URL) (s : Snapshot) (p q : Pool) (a : Actor)
    (h : p.step parse s a = .next q) : q.left + 1 ≤ p.left := by
  cases a with
  | coordinator =>
    cases hco : p.co with
    | add =>
      cases htodo : p.todo with
      | nil =>
        simp only [Pool.step, hco, htodo] at h
        injection h with h
        subst h
        simp only [Pool.left, hco, htodo, List.length_cons, List.length_nil]
        omega
      | cons fn rest =>
        simp only [Pool.step, hco, htodo] at h
        injection h with h
        subst h
        simp only [Pool.left, hco, htodo, List.length_cons, List.length_nil]
        omega
    | send =>
      simp only [Pool.step, hco] at h
      split at h
      · injection h with h
        subst h
        simp only [Pool.left, hco]
        omega
      · cases h
    | spawn =>
      cases htodo : p.todo with
      | nil => simp [Pool.step, hco, htodo] at h
      | cons fn rest =>
        simp only [Pool.step, hco, htodo] at h
        injection h with h
        subst h
        simp only [Pool.left, hco, htodo, total_append, GoPc.left, List.length_cons]
        omega
    | wait =>
      simp only [Pool.step, hco] at h
      split at h
      · injection h with h
        subst h
        simp only [Pool.left, hco]
        omega
      · cases h
    | joined => simp [Pool.step, hco] at h
  | goroutine i =>
    cases hg : p.gos[i]? with
    | none => simp [Pool.step, hg] at h
    | some g =>
      obtain ⟨fn, pc⟩ := g
      have eL := fun pc2 => total_set (fun g => g.2.left) p.gos i (fn, pc) (fn, pc2) hg
      cases pc with
      | call =>
        simp only [Pool.step, hg] at h
        cases hc : fn.call parse s p.c with
        | error f => simp [hc] at h
        | ok c1 =>
          simp only [hc] at h
          injection h with h
          subst h
          have e : total (fun g => g.2.left) (p.gos.set i (fn, .recv)) + 3
              = total (fun g => g.2.left) p.gos + 2 := eL .recv
          simp only [Pool.left]
          omega
      | recv =>
        simp only [Pool.step, hg] at h
        split at h
        · injection h with h
          subst h
          have e : total (fun g => g.2.left) (p.gos.set i (fn, .done)) + 2
              = total (fun g => g.2.left) p.gos + 1 := eL .done
          simp only [Pool.left]
          omega
        · cases h
      | done =>
        simp only [Pool.step, hg] at h
        injection h with h
        subst h
        have e : total (fun g => g.2.left) (p.gos.set i (fn, .exited)) + 1
            = total (fun g => g.2.left) p.gos + 0 := eL .exited
        simp only [Pool.left]
        omega
      | exited => simp [Pool.step, hg] at h
  | handoff i =>
    cases hco : p.co with
    | send =>
      cases hg : p.gos[i]? with
      | none => simp [Pool.step, hco, hg] at h
      | some g =>
        obtain ⟨fn, pc⟩ := g
        cases pc with
        | recv =>
          simp only [Pool.step, hco, hg] at h
          split at h
          · injection h with h
            subst h
            have e : total (fun g => g.2.left) (p.gos.set i (fn, .done)) + 2
                = total (fun g => g.2.left) p.gos + 1 :=
              total_set (fun g => g.2.left) p.gos i (fn, .recv) (fn, .done) hg
            simp only [Pool.left, hco]
            omega
          · cases h
        | call => simp [Pool.step, hco, hg] at h
        | done => simp [Pool.step, hco, hg] at h
        | exited => simp [Pool.step, hco, hg] at h
    | add => simp [Pool.step, hco] at h
    | spawn => simp [Pool.step, hco] at h
    | wait => simp [Pool.step, hco] at h
    | joined => simp [Pool.step, hco] at h

/-- An interleaving is no longer than the number of steps left at its start. -/
theorem Pool.run_length (parse : String → Option URL) (s : Snapshot) (sched : List Actor)
    (p q : Pool) (h : Pool.run parse s p sched = some q) : q.left + sched.length ≤ p.left := by
  induction sched generalizing p with
  | nil =>
    simp only [Pool.run, Option.some.injEq] at h
    subst h
    simp
  | cons a rest ih =>
    simp only [Pool.run] at h
    cases hs : p.step parse s a with
    | next r =>
      rw [hs] at h
      have h1 := Pool.left_step parse s p r a hs
      have h2 := ih r h
      simp only [List.length_cons]
      omega
    | blocked => rw [hs] at h; cases h
    | panic f => rw [hs] at h; cases h

/-- No more loaders execute than goroutines hold a slot, and no more goroutines
hold a slot than `guard` has capacity. -/
theorem Pool.executing_le_cap (parse : String → Option URL) (s : Snapshot) (L : List LoadFunc)
    (p : Pool) (hinv : Pool.Inv parse s L p) : p.executing ≤ p.cap := by
  have h1 : p.executing ≤ p.holding := by
    unfold Pool.executing Pool.holding
    apply total_mono
    intro x
    by_cases hx : x.2 = .call <;> simp [hx]
  have h2 := hinv.slots
  have h3 := hinv.room
  omega

/-- When the loaders run one after the other without a panic, none of them
panics on any cache. -/
theorem runLoaders_ok_all (parse : String → Option URL) (s : Snapshot) (L : List LoadFunc)
    (c r : Cache) (h : runLoaders parse s L c = .ok r) :
    ∀ fn ∈ L, ∀ d : Cache, ∃ d1, fn.call parse s d = .ok d1 := by
  induction L generalizing c with
  | nil => intro fn hfn; simp at hfn
  | cons a t ih =>
    unfold runLoaders at h ih
    rw [List.foldlM_cons] at h
    cases ha : a.call parse s c with
    | error e =>
      rw [ha] at h
      cases h
    | ok c1 =>
      rw [ha] at h
      intro fn hfn d
      rcases List.mem_cons.mp hfn with h1 | h1
      · subst h1
        exact LoadFunc.call_ok_iff parse s fn c d c1 ha
      · exact ih c1 h fn h1 d

/-- No deadlock: with a capacity of at least 1 and loaders that do not panic,
some actor can take a step in every reachable state before the join. -/
theorem Pool.enabled (parse : String → Option URL) (s : Snapshot) (L : List LoadFunc)
    (p : Pool) (hinv : Pool.Inv parse s L p) (hcap : 1 ≤ p.cap)
    (hok : ∀ fn ∈ L, ∀ d : Cache, ∃ d1, fn.call parse s d = .ok d1) (hj : p.co ≠ .joined) :
    ∃ a q, p.step parse s a = .next q := by
  obtain ⟨h1, h2, h3, h4, h5, h6, h7, h8, h9⟩ := hinv
  simp only [Pool.holding, Pool.alive] at h1 h3 h6
  by_cases hal : total (fun g => if g.2 = .exited then 0 else 1) p.gos = 0
  · have hhold : total (fun g => if g.2 = .call ∨ g.2 = .recv then 1 else 0) p.gos = 0 := by
      have := total_mono (fun g => if g.2 = .call ∨ g.2 = .recv then 1 else 0)
        (fun g => if g.2 = .exited then 0 else 1) p.gos
        (by
          intro x
          obtain ⟨x1, x2⟩ := x
          cases x2 <;> simp)
      omega
    refine ⟨.coordinator, ?_⟩
    cases hco : p.co with
    | add =>
      cases htodo : p.todo with
      | nil => exact ⟨_, by simp only [Pool.step, hco, htodo]; rfl⟩
      | cons fn rest => exact ⟨_, by simp only [Pool.step, hco, htodo]; rfl⟩
    | send =>
      simp only [hco, reduceCtorEq, if_false] at h1
      have hlt : p.buf < p.cap := by omega
      exact ⟨_, by simp only [Pool.step, hco, hlt, if_true]; rfl⟩
    | spawn =>
      cases htodo : p.todo with
      | nil => exact absurd htodo (h4 (Or.inr hco))
      | cons fn rest => exact ⟨_, by simp only [Pool.step, hco, htodo]; rfl⟩
    | wait =>
      simp only [hco, reduceCtorEq, or_self, if_false] at h3
      have hz : p.wg = 0 := by omega
      exact ⟨_, by simp only [Pool.step, hco, hz, if_true]; rfl⟩
    | joined => exact absurd hco hj
  · obtain ⟨i, g, hg, hne⟩ := total_pos _ p.gos hal
    obtain ⟨fn, pc⟩ := g
    refine ⟨.goroutine i, ?_⟩
    cases pc with
    | call =>
      have hmem : fn ∈ L := by
        rw [← h7]
        apply List.mem_append_left
        have hm : (fn, GoPc.call) ∈ p.gos := List.getElem?_mem hg
        exact List.mem_map.mpr ⟨_, hm, rfl⟩
      obtain ⟨c1, hc⟩ := hok fn hmem p.c
      exact ⟨_, by simp only [Pool.step, hg, hc]; rfl⟩
    | recv =>
      have hge := total_ge (fun g => if g.2 = .call ∨ g.2 = .recv then 1 else 0)
        p.gos i (fn, .recv) hg
      simp at hge
      have hpos : 0 < p.buf := by omega
      exact ⟨_, by simp only [Pool.step, hg, hpos, if_true]; rfl⟩
    | done => exact ⟨_, by simp only [Pool.step, hg]; rfl⟩
    | exited => simp at hne

/-- At the join the cache is the one the loaders give when run one after the
other in the order of the loader list. -/
theorem Pool.joined_cache (parse : String → Option URL) (s : Snapshot) (L : List LoadFunc)
    (p : Pool) (hinv : Pool.Inv parse s L p) (hj : p.co = .joined) :
    L.foldl (optStep parse s) (some Cache.zero) = some p.c := by
  have htodo := hinv.finished (Or.inr hj)
  have hal := hinv.joined hj
  have hord := hinv.order
  rw [htodo, List.append_nil] at hord
  have hperm : p.fin.Perm L := by
    rw [List.perm_iff_count]
    intro a
    have h8 := hinv.returned a
    have hz : total (fun g => if g.1 = a ∧ g.2 = .call then 1 else 0) p.gos = 0 := by
      have := total_mono (fun g => if g.1 = a ∧ g.2 = .call then 1 else 0)
        (fun g => if g.2 = .exited then 0 else 1) p.gos
        (by
          intro x
          obtain ⟨x1, x2⟩ := x
          cases x2 <;> by_cases hx : x1 = a <;> simp [hx])
      unfold Pool.alive at hal
      omega
    rw [← hord]
    omega
  rw [← List.Perm.foldl_eq' hperm (fun x _ y _ z => optStep_comm parse s x y z)]
  exact hinv.cache

theorem total_zero (f : LoadFunc × GoPc → Nat) (l : List (LoadFunc × GoPc)) (h : total f l = 0) :
    ∀ g ∈ l, f g = 0 := by
  intro g hg
  obtain ⟨i, hi⟩ := List.mem_iff_getElem?.mp hg
  have := total_ge f l i g hi
  omega

/-- C15: for every configured maximum `N ≥ 1` and every interleaving of the
coordinator and the loader goroutines, in the state the interleaving reaches:
at most `N` loader functions are executing; every goroutine whose loader has
returned can take its step `<-guard` at once, and the step takes one element
out of `guard`; and when `wg.Wait()` has returned, every loader of `loadFuncs`
was started, every goroutine has ended and `guard` is empty. -/
theorem admission_gate_bound (parse : String → Option URL) (s : Snapshot) (N : Int)
    (hN : 1 ≤ N) (sched : List Actor) (p : Pool)
    (h : Pool.run parse s (Pool.init N.toNat) sched = some p) :
    (p.executing : Int) ≤ N
    ∧ (∀ (i : Nat) (fn : LoadFunc), p.gos[i]? = some (fn, .recv) →
        ∃ q, p.step parse s (.goroutine i) = .next q
          ∧ q.gos[i]? = some (fn, .done) ∧ q.buf + 1 = p.buf)
    ∧ (p.co = .joined →
        p.buf = 0 ∧ p.gos.map Prod.fst = loadFuncs ∧ ∀ g ∈ p.gos, g.2 = .exited) := by
  obtain ⟨hinv, hcap⟩ := Pool.inv_run parse s loadFuncs sched _ p (Pool.inv_init parse s _) h
  have hcap2 : p.cap = N.toNat := hcap
  refine ⟨?_, ?_, ?_⟩
  · have h1 := Pool.executing_le_cap parse s loadFuncs p hinv
    have h2 : (N.toNat : Int) = N := Int.toNat_of_nonneg (by omega)
    omega
  · intro i fn hg
    have hge := total_ge (fun g => if g.2 = .call ∨ g.2 = .recv then 1 else 0)
      p.gos i (fn, .recv) hg
    simp at hge
    have hs := hinv.slots
    unfold Pool.holding at hs
    have hpos : 0 < p.buf := by omega
    refine ⟨{ p with buf := p.buf - 1, gos := p.gos.set i (fn, .done) }, ?_, ?_, ?_⟩
    · simp only [Pool.step, hg, hpos, if_true]
    · simp [List.getElem?_set_self', hg]
    · simp only
      omega
  · intro hj
    have hal := hinv.joined hj
    have htodo := hinv.finished (Or.inr hj)
    have hord := hinv.order
    rw [htodo, List.append_nil] at hord
    have hs := hinv.slots
    have hhold : p.holding = 0 := by
      have := total_mono (fun g => if g.2 = .call ∨ g.2 = .recv then 1 else 0)
        (fun g => if g.2 = .exited then 0 else 1) p.gos
        (by
          intro x
          obtain ⟨x1, x2⟩ := x
          cases x2 <;> simp)
      unfold Pool.alive at hal
      unfold Pool.holding
      omega
    refine ⟨?_, hord, ?_⟩
    · simp only [hj, reduceCtorEq, if_false] at hs
      omega
    · intro g hg
      have := total_zero _ p.gos hal g hg
      by_cases he : g.2 = .exited
      · exact he
      · simp [he] at this

/-- C15 with `N = 2`: after the coordinator has started the first two loaders,
both are executing; the bound is attained and not exceeded. -/
theorem admission_gate_bound_witness :
    ∃ p, Pool.run parseStub sampleSnapshot (Pool.init 2)
        [.coordinator, .coordinator, .coordinator, .coordinator, .coordinator, .coordinator]
        = some p
      ∧ p.executing = 2 ∧ (p.executing : Int) ≤ 2 :=
  ⟨_, rfl, rfl,
    (admission_gate_bound parseStub sampleSnapshot 2 (by decide)
      [.coordinator, .coordinator, .coordinator, .coordinator, .coordinator, .coordinator]
      _ rfl).1⟩

/-- With capacity 0 the coordinator gets as far as its first send and no
further: no goroutine is ever started. -/
theorem Pool.zero_stuck (parse : String → Option URL) (s : Snapshot) (sched : List Actor)
    (p q : Pool)
    (hp : p.cap = 0 ∧ p.buf = 0 ∧ p.gos = [] ∧ p.todo ≠ []
      ∧ (p.co = .add ∨ (p.co = .send ∧ sched = [])))
    (h : Pool.run parse s p sched = some q) :
    q.co ≠ .joined ∧ q.gos = [] ∧ sched.length ≤ 1 := by
  obtain ⟨h1, h2, h3, h4, h5⟩ := hp
  cases sched with
  | nil =>
    simp only [Pool.run, Option.some.injEq] at h
    subst h
    refine ⟨?_, h3, by simp⟩
    rcases h5 with h5 | h5
    · rw [h5]; simp
    · rw [h5.1]; simp
  | cons a rest =>
    have hco : p.co = .add := by
      rcases h5 with h5 | h5
      · exact h5
      · cases h5.2
    simp only [Pool.run] at h
    cases a with
    | coordinator =>
      cases htodo : p.todo with
      | nil => exact absurd htodo h4
      | cons fn t =>
        simp only [Pool.step, hco, htodo] at h
        cases rest with
        | nil =>
          simp only [Pool.run, Option.some.injEq] at h
          subst h
          exact ⟨by simp, h3, by simp⟩
        | cons b rest2 =>
          simp only [Pool.run] at h
          cases b with
          | coordinator => simp [Pool.step, h1, h2] at h
          | goroutine i => simp [Pool.step, h3] at h
          | handoff i => simp [Pool.step, h3] at h
    | goroutine i => simp [Pool.step, h3] at h
    | handoff i => simp [Pool.step, hco] at h

/-- C16 as stated fails.  At `N = 0`, `loadCache` opens the snapshot and then
never returns: in the loop the coordinator does `wg.Add(1)` and waits at
`guard <- struct{}{}` on a channel of capacity 0, with no goroutine started that
could receive, so no actor has a step.  At `N = -1`, `make(chan struct{}, N)`
panics; the deferred `closeDB()` closes the connection and the panic leaves
`loadCache` with the mutex held and no loader run.  At `N = 1`, a call made
while the mutex is held waits for it and runs no loader. -/
theorem loadCache_nonpositive_goroutines :
    loadCache zeroEnv "vmaas.db" Proc.init
      = .blocked { lock := true, db := some 0, sqlDB := some 0, conns := [0], fresh := 1,
                   log := [.lock, .openDB true] }
    ∧ (∃ q, Pool.run parseStub sampleSnapshot (Pool.init 0) [.coordinator] = some q
        ∧ q.co = .send ∧ q.wg = 1 ∧ q.buf = 0 ∧ q.cap = 0 ∧ q.gos = []
        ∧ (∀ a : Actor, q.step parseStub sampleSnapshot a = .blocked))
    ∧ loadCache negEnv "vmaas.db" Proc.init
      = .panicked { lock := true, db := none, sqlDB := none, conns := [], fresh := 1,
                    log := [.lock, .openDB true, .closeDB] } .makechanSize
    ∧ loadCache oneEnv "vmaas.db" heldProc = .blocked heldProc := by
  refine ⟨rfl, ⟨_, rfl, rfl, rfl, rfl, rfl, rfl, ?_⟩, rfl, rfl⟩
  intro a
  cases a with
  | coordinator => rfl
  | goroutine i => rfl
  | handoff i => rfl

/-- C16, amended: for a call of `loadCache` made while the mutex is free, on a
snapshot that opens and on which every loader returns.  For `N = 1`, the call
returns the cache the loaders of `loadFuncs` give when run one after the other,
with the mutex released and the connection closed, and in every interleaving of
the loop at most one loader is executing, the interleaving has at most 188
steps, some actor can step in every state before the join, and at the join the
shared cache is that cache.  For `N = 0`, the call never returns: it waits with
the mutex held and the connection open, and no interleaving of the loop has
more than one step or reaches the join.  For `N < 0`, the call panics in
`make(chan struct{}, N)`: no loader is started, the deferred `closeDB()` closes
the connection, and the mutex stays held. -/
theorem loadCache_sequential (env : Env) (path : String) (w : Proc) (s : Snapshot) (c : Cache)
    (hfree : w.lock = false) (hopen : env.sqlite path = .opened s)
    (hok : runLoaders env.parse s loadFuncs Cache.zero = .ok c) :
    (env.MaxGoroutines = 1 →
      (∃ w1, loadCache env path w = .returned w1 (.ok c) ∧ w1.lock = false ∧ w1.sqlDB = none
        ∧ w1.conns = (w.conns ++ [w.fresh]).erase w.fresh)
      ∧ ∀ (sched : List Actor) (p : Pool),
          Pool.run env.parse s (Pool.init env.MaxGoroutines.toNat) sched = some p →
          p.executing ≤ 1 ∧ sched.length ≤ 188
          ∧ (p.co ≠ .joined → ∃ a q, p.step env.parse s a = .next q)
          ∧ (p.co = .joined → p.c = c))
    ∧ (env.MaxGoroutines = 0 →
      (∃ w1, loadCache env path w = .blocked w1 ∧ w1.lock = true ∧ w1.sqlDB = some w.fresh
        ∧ w1.conns = w.conns ++ [w.fresh])
      ∧ ∀ (sched : List Actor) (p : Pool),
          Pool.run env.parse s (Pool.init env.MaxGoroutines.toNat) sched = some p →
          p.co ≠ .joined ∧ sched.length ≤ 1)
    ∧ (env.MaxGoroutines < 0 →
      ∃ w1, loadCache env path w = .panicked w1 .makechanSize ∧ w1.lock = true
        ∧ w1.sqlDB = none ∧ w1.conns = (w.conns ++ [w.fresh]).erase w.fresh
        ∧ w1.log = w.log ++ [.lock, .openDB true, .closeDB]) := by
  refine ⟨?_, ?_, ?_⟩
  · intro hN
    constructor
    · simp [loadCache, loadCacheBody, lockLock, hfree, openDB, hopen, spawnAndWait, hN,
        hok, closeDB, lockUnlock, Proc.emit]
    · intro sched p h
      rw [hN] at h
      have hone : (1 : Int).toNat = 1 := rfl
      rw [hone] at h
      obtain ⟨hinv, hcap⟩ := Pool.inv_run env.parse s loadFuncs sched _ p
        (Pool.inv_init env.parse s 1) h
      have hcap1 : p.cap = 1 := hcap
      refine ⟨?_, ?_, ?_, ?_⟩
      · have := Pool.executing_le_cap env.parse s loadFuncs p hinv
        omega
      · have := Pool.run_length env.parse s sched _ p h
        have h0 : (Pool.init 1).left = 188 := rfl
        omega
      · intro hj
        exact Pool.enabled env.parse s loadFuncs p hinv (by omega)
          (runLoaders_ok_all env.parse s loadFuncs Cache.zero c hok) hj
      · intro hj
        have h1 := Pool.joined_cache env.parse s loadFuncs p hinv hj
        have h2 := (runLoaders_ok_iff env.parse s loadFuncs Cache.zero c).mp hok
        rw [h1] at h2
        exact Option.some.inj h2
  · intro hN
    constructor
    · simp [loadCache, loadCacheBody, lockLock, hfree, openDB, hopen, spawnAndWait, hN,
        loadFuncs, Proc.emit]
    · intro sched p h
      rw [hN] at h
      have hz : (0 : Int).toNat = 0 := rfl
      rw [hz] at h
      have := Pool.zero_stuck env.parse s sched (Pool.init 0) p
        ⟨rfl, rfl, rfl, by simp [Pool.init, loadFuncs], Or.inl rfl⟩ h
      exact ⟨this.1, this.2.2⟩
  · intro hN
    simp [loadCache, loadCacheBody, lockLock, hfree, openDB, hopen, spawnAndWait, hN,
      closeDB, Proc.emit]

set_option maxRecDepth 100000 in
/-- The amended C16 at `N = 1` on `sampleSnapshot`: `loadCache` returns the
cache of the sequential run, and the interleaving that runs the 31 loaders
strictly one after the other reaches the join with that cache. -/
theorem loadCache_sequential_witness :
    ∃ c w1 p, runLoaders parseStub sampleSnapshot loadFuncs Cache.zero = .ok c
      ∧ loadCache oneEnv "vmaas.db" Proc.init = .returned w1 (.ok c)
      ∧ w1.lock = false
      ∧ Pool.run parseStub sampleSnapshot (Pool.init 1) (seqSchedule 31) = some p
      ∧ p.co = .joined ∧ p.c = c := by
  obtain ⟨⟨w1, hw, hl, _⟩, hall⟩ :=
    (loadCache_sequential oneEnv "vmaas.db" Proc.init sampleSnapshot _ rfl rfl rfl).1 rfl
  obtain ⟨p, hp, hj⟩ : ∃ p, Pool.run parseStub sampleSnapshot (Pool.init 1) (seqSchedule 31)
      = some p ∧ p.co = .joined := ⟨_, rfl, rfl⟩
  exact ⟨_, w1, p, rfl, hw, hl, hp, hj, (hall _ p hp).2.2.2 hj⟩

/-! ## Beyond the claims: the join does not depend on the interleaving -/

/-- For every configured maximum of at least 1 and every snapshot on which the
loaders return: the loop of `loadCache` ends with the cache of the sequential
run, as `spawnAndWait` says, and in the step model every interleaving has at
most 188 steps, never gets stuck before the join, and reaches the join with
that same cache, whatever the order in which the loaders ran. -/
theorem pool_join_deterministic (env : Env) (s : Snapshot) (c : Cache)
    (hN : 1 ≤ env.MaxGoroutines)
    (hok : runLoaders env.parse s loadFuncs Cache.zero = .ok c) :
    spawnAndWait env s = .done c
    ∧ ∀ (sched : List Actor) (p : Pool),
        Pool.run env.parse s (Pool.init env.MaxGoroutines.toNat) sched = some p →
        sched.length ≤ 188
        ∧ (p.co ≠ .joined → ∃ a q, p.step env.parse s a = .next q)
        ∧ (p.co = .joined → p.c = c) := by
  constructor
  · have h1 : ¬ env.MaxGoroutines < 0 := by omega
    have h2 : ¬ env.MaxGoroutines = 0 := by omega
    simp [spawnAndWait, h1, h2, hok]
  · intro sched p h
    obtain ⟨hinv, hcap⟩ := Pool.inv_run env.parse s loadFuncs sched _ p
      (Pool.inv_init env.parse s _) h
    have hcap1 : p.cap = env.MaxGoroutines.toNat := hcap
    refine ⟨?_, ?_, ?_⟩
    · have := Pool.run_length env.parse s sched _ p h
      have h0 : (Pool.init env.MaxGoroutines.toNat).left = 188 := rfl
      omega
    · intro hj
      exact Pool.enabled env.parse s loadFuncs p hinv (by omega)
        (runLoaders_ok_all env.parse s loadFuncs Cache.zero c hok) hj
    · intro hj
      have h1 := Pool.joined_cache env.parse s loadFuncs p hinv hj
      have h2 := (runLoaders_ok_iff env.parse s loadFuncs Cache.zero c).mp hok
      rw [h1] at h2
      exact Option.some.inj h2

set_option maxRecDepth 100000 in
/-- With capacity 2 on `sampleSnapshot`: in `overlapSchedule` the loader started
second returns first, and the join is reached with the cache of the sequential
run. -/
theorem pool_join_deterministic_witness :
    ∃ c p, runLoaders parseStub sampleSnapshot loadFuncs Cache.zero = .ok c
      ∧ Pool.run parseStub sampleSnapshot (Pool.init 2) overlapSchedule = some p
      ∧ p.fin.take 2 = [.loadUpdates, .loadPkgNames]
      ∧ p.co = .joined ∧ p.c = c := by
  obtain ⟨_, hall⟩ :=
    pool_join_deterministic
      { MaxGoroutines := 2, parse := parseStub, sqlite := fun _ => .opened sampleSnapshot }
      sampleSnapshot _ (by decide) rfl
  obtain ⟨p, hp, hf, hj⟩ : ∃ p, Pool.run parseStub sampleSnapshot (Pool.init 2) overlapSchedule
      = some p ∧ p.fin.take 2 = [.loadUpdates, .loadPkgNames] ∧ p.co = .joined :=
    ⟨_, rfl, rfl, rfl⟩
  exact ⟨_, p, rfl, hp, hf, hj, (hall _ p hp).2.2 hj⟩

/-- The string "postgresql:12" is stored as the pair ("postgresql", "12"). -/
theorem loadOvalModuleTestDetailStep_pair_witness :
    loadOvalModuleTestDetailStep GoMap.empty (3, "postgresql" ++ ":" ++ "12")
      = .ok ((GoMap.empty : GoMap ModuleTestID OvalModuleTestDetail).set 3
          { ModuleStream := { Module := "postgresql", Stream := "12" } }) :=
  loadOvalModuleTestDetailStep_pair GoMap.empty 3 "postgresql" "12" (by decide) (by decide)

end Vmaas
